import Mathlib

/-! The outfit gallery of `indra/newview/lloutfitgallery.cpp`.

A shallow embedding of `LLOutfitGallery` and `LLOutfitGalleryItem`.

* An `LLUUID` is a natural number (its 128 bits read as a number), `0` being
  `LLUUID::null`.
* Pointers are natural numbers, `0` being `NULL`.  Panels created by the widget
  factory live in `panels`, gallery items in `items`; pointer `p + 1` names
  entry `p` of its heap.
* `int` values are `Int`.  Pixel arithmetic (the edges, widths and heights of
  rectangles) is 32-bit: every sum, difference and product is reduced by
  `wrap32`.  Counters and indices (`mItemsAddedCount`, `mRowCount`, row and
  column numbers) count widgets held in memory and are not reduced.  `/` and
  `%` are the truncating `Int.tdiv` and `Int.tmod`, and a zero divisor stops
  the run with `Fault.divByZero`.
* Dereferencing `NULL` or a pointer outside its heap stops the run.
* Reading a `std::vector` out of range (`v[i]`, `back()` or `pop_back()` on an
  empty vector) is undefined behaviour and stops the run with
  `Fault.outOfRange`.
* Visibility and follow flags, mouse and focus callbacks, `fetch()` calls and
  the scroll container are not part of the state.
-/

namespace OutfitGallery

/-- Events that stop a run. -/
inductive Fault where
  | nullDeref
  | wildPointer
  | divByZero
  | outOfRange
deriving DecidableEq, Repr

/-- The value an `int` holds when the exact result of a computation is `x`: the
representative of `x` modulo `2 ^ 32` between `-2 ^ 31` and `2 ^ 31 - 1`. -/
def wrap32 (x : Int) : Int := (x + 2147483648) % 4294967296 - 2147483648

/-- The sum `a + b` of two `int` values. -/
def add32 (a b : Int) : Int := wrap32 (a + b)

/-- The product `a * b` of two `int` values. -/
def mul32 (a b : Int) : Int := wrap32 (a * b)

/-- The source's `LLRect(left, top, right, bottom)`. -/
structure LLRect where
  mLeft : Int
  mTop : Int
  mRight : Int
  mBottom : Int
deriving DecidableEq, Repr

namespace LLRect

end LLRect

/-- A child pointer held by a panel: another panel or a gallery item. -/
inductive LLView where
  | panel (p : Nat)
  | item (p : Nat)
deriving DecidableEq, Repr

/-- Modelled from the spec: the host toolkit's `LLPanel` (declared outside the
gallery source) reduced to what the gallery's "widget geometry arithmetic"
reads and writes, a rectangle and a child list. -/
structure LLPanel where
  mRect : LLRect
  mChildren : List LLView
deriving DecidableEq, Repr

namespace LLPanel

/-- Modelled from the spec: `LLView::setRect` of the host toolkit stores the
rectangle. -/
def setRect (p : LLPanel) (r : LLRect) : LLPanel := { p with mRect := r }

/-- Modelled from the spec: `LLView::reshape(width, height)` of the host toolkit
keeps the left and bottom edges and sets the size. -/
def reshape (p : LLPanel) (width height : Int) : LLPanel :=
  { p with mRect := { p.mRect with mRight := add32 p.mRect.mLeft width,
                                   mTop := add32 p.mRect.mBottom height } }

/-- Modelled from the spec: `LLView::addChild` of the host toolkit puts the child
at the front of the child list. -/
def addChild (p : LLPanel) (c : LLView) : LLPanel := { p with mChildren := c :: p.mChildren }

/-- Modelled from the spec: `LLView::removeChild` of the host toolkit takes the
child out of the child list. -/
def removeChild (p : LLPanel) (c : LLView) : LLPanel :=
  { p with mChildren := p.mChildren.erase c }

end LLPanel

/-- Read through a panel pointer. -/
def derefPanel (h : List LLPanel) : Nat → Except Fault LLPanel
  | 0 => .error .nullDeref
  | q + 1 =>
    match h[q]? with
    | some x => .ok x
    | none => .error .wildPointer

/-- Write through a panel pointer. -/
def updPanel (h : List LLPanel) (p : Nat) (f : LLPanel → LLPanel) :
    Except Fault (List LLPanel) :=
  match p with
  | 0 => .error .nullDeref
  | q + 1 =>
    match h[q]? with
    | some x => .ok (h.set q (f x))
    | none => .error .wildPointer

/-! ## `std::map` with natural-number keys -/

namespace StdMap

/-- The operation `find`: the value stored under `k`, if any. -/
def find {V : Type} : List (Nat × V) → Nat → Option V
  | [], _ => none
  | (a, b) :: t, k => if k = a then some b else find t k

/-- The operation `m[k] = v`: store `v` under `k`, keeping the keys in ascending order. -/
def assign {V : Type} : List (Nat × V) → Nat → V → List (Nat × V)
  | [], k, v => [(k, v)]
  | (a, b) :: t, k, v =>
    if k < a then (k, v) :: (a, b) :: t
    else if k = a then (a, v) :: t
    else (a, b) :: assign t k v

/-- The operation `insert(pair(k, v))`: an existing entry is left as it is. -/
def insert {V : Type} (m : List (Nat × V)) (k : Nat) (v : V) : List (Nat × V) :=
  match find m k with
  | some _ => m
  | none => assign m k v

/-- Reading `m[k]`: a missing key is first inserted with the value-initialised `dflt`. -/
def index {V : Type} (m : List (Nat × V)) (k : Nat) (dflt : V) : V × List (Nat × V) :=
  match find m k with
  | some v => (v, m)
  | none => (dflt, assign m k dflt)

/-- The operation `erase(k)`. -/
def erase {V : Type} (m : List (Nat × V)) (k : Nat) : List (Nat × V) :=
  m.filter (fun e => decide (e.1 ≠ k))

/-- The keys in iteration order. -/
def keys {V : Type} (m : List (Nat × V)) : List Nat := m.map Prod.fst

end StdMap

/-! ## Gallery items -/

/-- The item widget `LLOutfitGalleryItem`: the two text boxes are kept by their
contents and colour, the text background panel by its visibility. -/
structure LLOutfitGalleryItem where
  mRect : LLRect
  mOutfitNameText : String
  mOutfitWornText : String
  mTextColor : String
  mTextBgVisible : Bool
  mTexturep : Option Nat
  mSelected : Bool
  mWorn : Bool
deriving DecidableEq, Repr

namespace LLOutfitGalleryItem

/-- The source's `LLOutfitGalleryItem::setOutfitName`. -/
def setOutfitName (it : LLOutfitGalleryItem) (name : String) : LLOutfitGalleryItem :=
  { it with mOutfitNameText := name }

/-- The source's `LLOutfitGalleryItem::setOutfitWorn`; `worn_string` is what
`getString("worn_string")` returns. -/
def setOutfitWorn (worn_string : String) (it : LLOutfitGalleryItem) (value : Bool) :
    LLOutfitGalleryItem :=
  let it := { it with mWorn := value }
  let text_color := if it.mSelected then "White"
    else (if it.mWorn then "OutfitGalleryItemWorn" else "White")
  { it with mTextColor := text_color,
            mOutfitWornText := if value then worn_string else "" }

/-- The source's `LLOutfitGalleryItem::setSelected`. -/
def setSelected (worn_string : String) (it : LLOutfitGalleryItem) (value : Bool) :
    LLOutfitGalleryItem :=
  let it := { it with mSelected := value }
  let it := { it with mTextBgVisible := value }
  setOutfitWorn worn_string it it.mWorn

/-- The source's `LLOutfitGalleryItem::setImageAssetId`: the texture fetched for the asset id. -/
def setImageAssetId (it : LLOutfitGalleryItem) (image_asset_id : Nat) :
    LLOutfitGalleryItem :=
  { it with mTexturep := some image_asset_id }

/-- The source's `LLOutfitGalleryItem::setDefaultImage`. -/
def setDefaultImage (it : LLOutfitGalleryItem) : LLOutfitGalleryItem :=
  { it with mTexturep := none }

/-- The constructor followed by `postBuild`. -/
def create (worn_string : String) : LLOutfitGalleryItem :=
  let it : LLOutfitGalleryItem :=
    { mRect := ⟨0, 0, 0, 0⟩, mOutfitNameText := "", mOutfitWornText := "",
      mTextColor := "", mTextBgVisible := false,
      mTexturep := none, mSelected := false, mWorn := false }
  let it := setDefaultImage it
  setOutfitWorn worn_string it false

end LLOutfitGalleryItem

/-! ## Inventory -/

/-- Asset types that the gallery tells apart. -/
inductive LLAssetType where
  | AT_TEXTURE
  | AT_CLOTHING
  | AT_BODYPART
  | AT_OBJECT
deriving DecidableEq, Repr

/-- Modelled from the spec: an item of the external inventory subsystem, with what
`getLinkedItem()` gives for it: `none` for `NULL`, else the linked item's actual
type and asset id. -/
structure LLViewerInventoryItem where
  mUUID : Nat
  mName : String
  linked : Option (LLAssetType × Nat)
deriving DecidableEq, Repr

/-- Modelled from the spec: a category of the external inventory subsystem with
the items `collectDescendents(…, EXCLUDE_TRASH)` gathers under it. -/
structure LLViewerInventoryCategory where
  mUUID : Nat
  mName : String
  descendents : List LLViewerInventoryItem
deriving DecidableEq, Repr

/-- Modelled from the spec: the external inventory model `gInventory`, as far as
the gallery queries it. -/
structure LLInventoryModel where
  categories : List LLViewerInventoryCategory
  textures : Nat
deriving DecidableEq, Repr

namespace LLInventoryModel

/-- Modelled from the spec: `gInventory.getCategory`, `none` for `NULL`. -/
def getCategory (inv : LLInventoryModel) (id : Nat) : Option LLViewerInventoryCategory :=
  inv.categories.find? (fun c => decide (c.mUUID = id))

/-- Modelled from the spec: the item array filled by `gInventory.collectDescendents`. -/
def collectDescendents (inv : LLInventoryModel) (id : Nat) : List LLViewerInventoryItem :=
  match inv.getCategory id with
  | some c => c.descendents
  | none => []

end LLInventoryModel

/-! ## The gallery -/

/-- The source's `LLOutfitGallery::Params`. -/
structure Params where
  row_panel_height : Int := 180
  vertical_gap : Int := 10
  horizontal_gap : Int := 10
  item_width : Int := 150
  item_height : Int := 175
  item_horizontal_gap : Int := 16
  items_in_row : Int := 3
  row_panel_width_factor : Int := 166
  gallery_width_factor : Int := 163
deriving DecidableEq, Repr

/-- The state of `LLOutfitGallery` together with the two widget heaps.
An observer is kept as the list of categories it watches, `none` for `NULL`. -/
structure LLOutfitGallery where
  panels : List LLPanel
  items : List LLOutfitGalleryItem
  worn_string : String
  mSelectedOutfitUUID : Nat
  mOutfitMap : List (Nat × Nat)
  mTexturesObserver : Option (List Nat)
  mOutfitsObserver : Option (List Nat)
  mGalleryPanel : Nat
  mLastRowPanel : Nat
  mGalleryCreated : Bool
  mRowCount : Int
  mItemsAddedCount : Int
  mOutfitLinkPending : Nat
  mRowPanelHeight : Int
  mVerticalGap : Int
  mHorizontalGap : Int
  mItemWidth : Int
  mItemHeight : Int
  mItemHorizontalGap : Int
  mItemsInRow : Int
  mRowPanelWidth : Int
  mGalleryWidth : Int
  mRowPanels : List Nat
  mItemPanels : List Nat
  mItems : List Nat
  mItemIndexMap : List (Nat × Int)
deriving DecidableEq, Repr

namespace LLOutfitGallery

/-- The constructor followed by `postBuild`: `gallery_panel` is the panel found
in the XML layout, with rectangle `xml_rect`; `mLastRowPanel` is not initialised by
the constructor and starts as `last_row`. -/
def construct (p : Params) (worn_string : String) (xml_rect : LLRect) (last_row : Nat) :
    LLOutfitGallery :=
  { panels := [⟨xml_rect, []⟩], items := [], worn_string := worn_string,
    mSelectedOutfitUUID := 0,
    mOutfitMap := [], mTexturesObserver := none, mOutfitsObserver := none,
    mGalleryPanel := 1, mLastRowPanel := last_row, mGalleryCreated := false,
    mRowCount := 0, mItemsAddedCount := 0, mOutfitLinkPending := 0,
    mRowPanelHeight := p.row_panel_height, mVerticalGap := p.vertical_gap,
    mHorizontalGap := p.horizontal_gap, mItemWidth := p.item_width,
    mItemHeight := p.item_height, mItemHorizontalGap := p.item_horizontal_gap,
    mItemsInRow := p.items_in_row,
    mRowPanelWidth := mul32 p.row_panel_width_factor p.items_in_row,
    mGalleryWidth := mul32 p.gallery_width_factor p.items_in_row,
    mRowPanels := [], mItemPanels := [], mItems := [], mItemIndexMap := [] }

/-- The source's `LLUICtrlFactory::create<LLPanel>`: a new panel at a fresh address. -/
def createPanel (s : LLOutfitGallery) : Nat × LLOutfitGallery :=
  (s.panels.length + 1, { s with panels := s.panels ++ [⟨⟨0, 0, 0, 0⟩, []⟩] })

/-- Apply a panel method through a pointer. -/
def onPanel (s : LLOutfitGallery) (p : Nat) (f : LLPanel → LLPanel) :
    Except Fault LLOutfitGallery := do
  let h ← updPanel s.panels p f
  pure { s with panels := h }

/-- The element `v[i]` of a pointer vector, `none` when `i` is out of range. -/
def vecAt (v : List Nat) (i : Int) : Option Nat :=
  if 0 ≤ i then v[i.toNat]? else none

/-- Reading `mRowPanels[i]`. -/
def rowPanelAt (s : LLOutfitGallery) (i : Int) : Except Fault Nat :=
  match vecAt s.mRowPanels i with
  | some p => pure p
  | none => throw Fault.outOfRange

/-- Reading `mItems[i]`. -/
def itemAt (s : LLOutfitGallery) (i : Int) : Except Fault Nat :=
  match vecAt s.mItems i with
  | some p => pure p
  | none => throw Fault.outOfRange

/-- Reading `mRowPanels.back()`. -/
def rowPanelsBack (s : LLOutfitGallery) : Except Fault Nat :=
  match s.mRowPanels.getLast? with
  | some p => pure p
  | none => throw Fault.outOfRange

/-- Reading `mItemPanels.back()`. -/
def itemPanelsBack (s : LLOutfitGallery) : Except Fault Nat :=
  match s.mItemPanels.getLast? with
  | some p => pure p
  | none => throw Fault.outOfRange

/-- The call `mRowPanels.pop_back()`. -/
def rowPanelsPop (s : LLOutfitGallery) : Except Fault LLOutfitGallery :=
  match s.mRowPanels with
  | [] => throw Fault.outOfRange
  | _ :: _ => pure { s with mRowPanels := s.mRowPanels.dropLast }

/-- The call `mItemPanels.pop_back()`. -/
def itemPanelsPop (s : LLOutfitGallery) : Except Fault LLOutfitGallery :=
  match s.mItemPanels with
  | [] => throw Fault.outOfRange
  | _ :: _ => pure { s with mItemPanels := s.mItemPanels.dropLast }

/-- The call `mItems.pop_back()`. -/
def itemsPop (s : LLOutfitGallery) : Except Fault LLOutfitGallery :=
  match s.mItems with
  | [] => throw Fault.outOfRange
  | _ :: _ => pure { s with mItems := s.mItems.dropLast }

/-- The source's `LLOutfitGallery::moveRowPanel`. -/
def moveRowPanel (s : LLOutfitGallery) (stack : Nat) (left bottom : Int) :
    Except Fault LLOutfitGallery :=
  let rect : LLRect :=
    ⟨left, add32 bottom s.mRowPanelHeight, add32 left s.mRowPanelWidth, bottom⟩
  onPanel s stack (fun p => (p.setRect rect).reshape s.mRowPanelWidth s.mRowPanelHeight)

/-- The source's `LLOutfitGallery::buildRowPanel`. -/
def buildRowPanel (s : LLOutfitGallery) (left bottom : Int) :
    Except Fault (Nat × LLOutfitGallery) := do
  let (stack, s) := createPanel s
  let s ← moveRowPanel s stack left bottom
  pure (stack, s)

/-- The source's `LLOutfitGallery::buildItemPanel`. -/
def buildItemPanel (s : LLOutfitGallery) (left : Int) :
    Except Fault (Nat × LLOutfitGallery) := do
  let top : Int := 0
  let (lpanel, s) := createPanel s
  let rect : LLRect :=
    ⟨left, add32 top s.mItemHeight, add32 (add32 left s.mItemWidth) s.mItemHorizontalGap, top⟩
  let s ← onPanel s lpanel
    (fun p => (p.setRect rect).reshape (add32 s.mItemWidth s.mItemHorizontalGap) s.mItemHeight)
  pure (lpanel, s)

/-- The source's `LLOutfitGallery::reshapeGalleryPanel`. -/
def reshapeGalleryPanel (s : LLOutfitGallery) (row_count : Int) :
    Except Fault LLOutfitGallery :=
  let bottom : Int := 0
  let left : Int := 0
  let height : Int := mul32 row_count (add32 s.mRowPanelHeight s.mVerticalGap)
  let rect : LLRect := ⟨left, add32 bottom height, add32 left s.mGalleryWidth, bottom⟩
  onPanel s s.mGalleryPanel (fun p => (p.setRect rect).reshape s.mGalleryWidth height)

/-- The source's `LLOutfitGallery::buildGalleryPanel`. -/
def buildGalleryPanel (s : LLOutfitGallery) (row_count : Int) :
    Except Fault LLOutfitGallery :=
  let (p, s) := createPanel s
  reshapeGalleryPanel { s with mGalleryPanel := p } row_count

/-- The source's `LLOutfitGallery::addLastRow`. -/
def addLastRow (s : LLOutfitGallery) : Except Fault (Nat × LLOutfitGallery) := do
  let s := { s with mRowCount := s.mRowCount + 1 }
  let row : Int := 0
  let vgap : Int := mul32 s.mVerticalGap row
  let (result, s) ← buildRowPanel s 0 (add32 (mul32 row s.mRowPanelHeight) vgap)
  let s ← onPanel s s.mGalleryPanel (fun p => p.addChild (.panel result))
  pure (result, s)

/-- The source's `LLOutfitGallery::moveRow`. -/
def moveRow (s : LLOutfitGallery) (row pos : Int) : Except Fault LLOutfitGallery := do
  let vgap : Int := mul32 s.mVerticalGap pos
  let p ← rowPanelAt s row
  moveRowPanel s p 0 (add32 (mul32 pos s.mRowPanelHeight) vgap)

/-- The source's `LLOutfitGallery::moveRowUp`. -/
def moveRowUp (s : LLOutfitGallery) (row : Int) : Except Fault LLOutfitGallery :=
  moveRow s row (s.mRowCount - 1 - row + 1)

/-- The source's `LLOutfitGallery::moveRowDown`. -/
def moveRowDown (s : LLOutfitGallery) (row : Int) : Except Fault LLOutfitGallery :=
  moveRow s row (s.mRowCount - 1 - row - 1)

/-- The source's `LLOutfitGallery::removeLastRow`. -/
def removeLastRow (s : LLOutfitGallery) : Except Fault LLOutfitGallery := do
  let s := { s with mRowCount := s.mRowCount - 1 }
  let s ← onPanel s s.mGalleryPanel (fun p => p.removeChild (.panel s.mLastRowPanel))
  let s ← rowPanelsPop s
  let p ← rowPanelsBack s
  pure { s with mLastRowPanel := p }

/-- The source's `LLOutfitGallery::addToRow`. -/
def addToRow (s : LLOutfitGallery) (row_stack : Nat) (item : Nat) (pos hgap : Int) :
    Except Fault (Nat × LLOutfitGallery) := do
  let (lpanel, s) ← buildItemPanel s (add32 (mul32 pos s.mItemWidth) hgap)
  let s ← onPanel s lpanel (fun p => p.addChild (.item item))
  let s ← onPanel s row_stack (fun p => p.addChild (.panel lpanel))
  pure (lpanel, { s with mItemPanels := s.mItemPanels ++ [lpanel] })

/-- The expression `(n % k) == 0 ? n / k : n / k + 1` for a non-zero `k`. -/
def rowCountFor (n k : Int) : Int :=
  if Int.tmod n k = 0 then Int.tdiv n k else Int.tdiv n k + 1

/-- A counting loop `for (int i = 0; i < bound; i++) body(i)`. -/
def forUpTo (bound : Int) (body : LLOutfitGallery → Int → Except Fault LLOutfitGallery)
    (s : LLOutfitGallery) : Except Fault LLOutfitGallery :=
  ((List.range bound.toNat).map Int.ofNat).foldlM body s

/-- The source's `LLOutfitGallery::addToGallery`. -/
def addToGallery (s : LLOutfitGallery) (item : Nat) : Except Fault LLOutfitGallery :=
  let s := { s with mItemsAddedCount := s.mItemsAddedCount + 1 }
  let s := { s with mItemIndexMap := StdMap.assign s.mItemIndexMap item (s.mItemsAddedCount - 1) }
  let n := s.mItemsAddedCount
  if s.mItemsInRow = 0 then throw Fault.divByZero
  else
    let row_count := rowCountFor n s.mItemsInRow
    let n_prev := n - 1
    let row_count_prev := rowCountFor n_prev s.mItemsInRow
    let add_row : Bool := row_count != row_count_prev
    do
      let s ← if add_row then do
          let s ← forUpTo row_count_prev moveRowUp s
          let (p, s) ← addLastRow s
          let s := { s with mLastRowPanel := p }
          pure { s with mRowPanels := s.mRowPanels ++ [s.mLastRowPanel] }
        else pure s
      let pos := Int.tmod (n - 1) s.mItemsInRow
      let s := { s with mItems := s.mItems ++ [item] }
      let (_, s) ← addToRow s s.mLastRowPanel item pos (mul32 s.mHorizontalGap pos)
      reshapeGalleryPanel s row_count

/-- The source's `LLOutfitGallery::removeFromLastRow`. -/
def removeFromLastRow (s : LLOutfitGallery) (item : Nat) : Except Fault LLOutfitGallery := do
  let p ← itemPanelsBack s
  let s ← onPanel s p (fun x => x.removeChild (.item item))
  let p ← itemPanelsBack s
  let s ← onPanel s s.mLastRowPanel (fun x => x.removeChild (.panel p))
  itemPanelsPop s

/-- The source's `LLOutfitGallery::removeFromGalleryLast`; the argument is not used by the body. -/
def removeFromGalleryLast (s : LLOutfitGallery) (_item : Nat) :
    Except Fault LLOutfitGallery :=
  let n_prev := s.mItemsAddedCount
  let n := s.mItemsAddedCount - 1
  if s.mItemsInRow = 0 then throw Fault.divByZero
  else
    let row_count := rowCountFor n s.mItemsInRow
    let row_count_prev := rowCountFor n_prev s.mItemsInRow
    let s := { s with mItemsAddedCount := s.mItemsAddedCount - 1 }
    let remove_row : Bool := row_count != row_count_prev
    do
      let it ← itemAt s s.mItemsAddedCount
      let s ← removeFromLastRow s it
      let s ← itemsPop s
      let s ← if remove_row then do
          let s ← forUpTo (row_count_prev - 1) moveRowDown s
          removeLastRow s
        else pure s
      reshapeGalleryPanel s row_count

/-- The first loop of `removeFromGalleryMiddle`,
`for (int i = mItemsAddedCount - 1; i > n; i--)`, run for `steps` rounds from `i`;
`saved` is kept with its back at the head. -/
def removeTail : Nat → Int → LLOutfitGallery → List Nat →
    Except Fault (LLOutfitGallery × List Nat)
  | 0, _, s, saved => pure (s, saved)
  | steps + 1, i, s, saved => do
    let v ← itemAt s i
    let saved := v :: saved
    let v ← itemAt s i
    let s ← removeFromGalleryLast s v
    removeTail steps (i - 1) s saved

/-- The second loop of `removeFromGalleryMiddle`:
`addToGallery(saved.back()); saved.pop_back();` for each saved item. -/
def addSaved : List Nat → LLOutfitGallery → Except Fault LLOutfitGallery
  | [], s => pure s
  | v :: saved, s => do
    let s ← addToGallery s v
    addSaved saved s

/-- The source's `LLOutfitGallery::removeFromGalleryMiddle`. -/
def removeFromGalleryMiddle (s : LLOutfitGallery) (item : Nat) :
    Except Fault LLOutfitGallery := do
  let (n, m) := StdMap.index s.mItemIndexMap item 0
  let s := { s with mItemIndexMap := StdMap.erase m item }
  let (s, saved) ← removeTail (s.mItemsAddedCount - 1 - n).toNat (s.mItemsAddedCount - 1) s []
  let v ← itemAt s n
  let s ← removeFromGalleryLast s v
  addSaved saved s

/-! ### Items, observers and the inventory callbacks -/

/-- Apply an item method through a pointer. -/
def onItem (s : LLOutfitGallery) (p : Nat) (f : LLOutfitGalleryItem → LLOutfitGalleryItem) :
    Except Fault LLOutfitGallery :=
  match p with
  | 0 => .error .nullDeref
  | q + 1 =>
    match s.items[q]? with
    | some x => .ok { s with items := s.items.set q (f x) }
    | none => .error .wildPointer

/-- Modelled from the spec: `LLInventoryCategoriesObserver::addCategory` of the
external inventory subsystem, which starts watching a category. -/
def observerAdd (cats : List Nat) (cat_id : Nat) : List Nat :=
  if cat_id ∈ cats then cats else cats ++ [cat_id]

/-- Modelled from the spec: `LLInventoryCategoriesObserver::removeCategory` of the
external inventory subsystem, which stops watching a category. -/
def observerRemove (cats : List Nat) (cat_id : Nat) : List Nat :=
  cats.erase cat_id

/-- Modelled from the spec: `LLOutfitListBase::deselectOutfit` of the base class,
which resets the selection when the removed outfit was the selected one. -/
def deselectOutfit (s : LLOutfitGallery) (category_id : Nat) : LLOutfitGallery :=
  if category_id = s.mSelectedOutfitUUID then { s with mSelectedOutfitUUID := 0 } else s

/-- The source's `LLOutfitGallery::buildGalleryItem`: a new item at a fresh address. -/
def buildGalleryItem (s : LLOutfitGallery) (name : String) : Nat × LLOutfitGallery :=
  let gitem := LLOutfitGalleryItem.create s.worn_string
  let gitem : LLOutfitGalleryItem :=
    { gitem with mRect := { gitem.mRect with mRight := add32 gitem.mRect.mLeft s.mItemWidth,
                                             mTop := add32 gitem.mRect.mBottom s.mItemHeight } }
  let gitem := gitem.setOutfitName name
  (s.items.length + 1, { s with items := s.items ++ [gitem] })

/-- Reading `mOutfitMap[id]`. -/
def outfitAt (s : LLOutfitGallery) (id : Nat) : Nat × LLOutfitGallery :=
  let (p, m) := StdMap.index s.mOutfitMap id 0
  (p, { s with mOutfitMap := m })

/-- The source's `LLOutfitGallery::onHighlightBaseOutfit`. -/
def onHighlightBaseOutfit (s : LLOutfitGallery) (base_id prev_id : Nat) :
    Except Fault LLOutfitGallery := do
  let (p, s) := outfitAt s base_id
  let s ← if p ≠ 0 then do
      let (p, s) := outfitAt s base_id
      onItem s p (fun it => it.setOutfitWorn s.worn_string true)
    else pure s
  let (q, s) := outfitAt s prev_id
  if q ≠ 0 then do
    let (q, s) := outfitAt s prev_id
    onItem s q (fun it => it.setOutfitWorn s.worn_string false)
  else pure s

/-- The source's `LLOutfitGallery::getCurrentCategories`, as the vector it fills. -/
def getCurrentCategories (s : LLOutfitGallery) : List Nat :=
  (s.mOutfitMap.filter (fun e => decide (e.2 ≠ 0))).map Prod.fst

/-- The loop of `refreshOutfit` over the collected items; `photo_loaded` is the
local flag of that name. -/
def refreshOutfitLoop (category_id : Nat) :
    List LLViewerInventoryItem → Bool → LLOutfitGallery → Except Fault LLOutfitGallery
  | [], _, s => pure s
  | outfit_item :: rest, photo_loaded, s =>
    match outfit_item.linked with
    | none => throw Fault.nullDeref
    | some (actual_type, asset_id) =>
      if actual_type = LLAssetType.AT_TEXTURE then do
        let (p, s) := outfitAt s category_id
        onItem s p (fun it => it.setImageAssetId asset_id)
      else do
        let s ← if !photo_loaded then do
            let (p, s) := outfitAt s category_id
            onItem s p (fun it => it.setDefaultImage)
          else pure s
        refreshOutfitLoop category_id rest photo_loaded s

/-- The source's `LLOutfitGallery::refreshOutfit`. -/
def refreshOutfit (inv : LLInventoryModel) (s : LLOutfitGallery) (category_id : Nat) :
    Except Fault LLOutfitGallery :=
  match inv.getCategory category_id with
  | none => throw Fault.nullDeref
  | some category =>
    let photo_loaded := false
    let outfit_item_array := inv.collectDescendents category.mUUID
    refreshOutfitLoop category_id outfit_item_array photo_loaded s

/-- The source's `LLOutfitGallery::loadPhotos`. -/
def loadPhotos (inv : LLInventoryModel) (s : LLOutfitGallery) : LLOutfitGallery :=
  let textures := inv.textures
  match inv.getCategory textures with
  | none => s
  | some _ =>
    let s := if s.mTexturesObserver = none then { s with mTexturesObserver := some [] } else s
    { s with mTexturesObserver := s.mTexturesObserver.map (fun cats => observerAdd cats textures) }

/-- The source's `LLOutfitGallery::updateAddedCategory`. -/
def updateAddedCategory (inv : LLInventoryModel) (s : LLOutfitGallery) (cat_id : Nat) :
    Except Fault LLOutfitGallery :=
  match inv.getCategory cat_id with
  | none => pure s
  | some cat => do
    let name := cat.mName
    let (item, s) := buildGalleryItem s name
    let s := { s with mOutfitMap := StdMap.insert s.mOutfitMap cat_id item }
    let s ← if s.mGalleryCreated then addToGallery s item else pure s
    match inv.getCategory cat_id with
    | none => pure s
    | some _ =>
      let s := if s.mOutfitsObserver = none then { s with mOutfitsObserver := some [] } else s
      let s := { s with mOutfitsObserver :=
                          s.mOutfitsObserver.map (fun cats => observerAdd cats cat_id) }
      refreshOutfit inv s cat_id

/-- The call `item->die()` guarded by `item != NULL`: the item is the subject of
no further call, so its record is left as it is; a non-null pointer outside the
item heap stops the run. -/
def dieIfNotNull (s : LLOutfitGallery) (item : Nat) : Except Fault LLOutfitGallery :=
  if item ≠ 0 then onItem s item id else pure s

/-- The source's `LLOutfitGallery::updateRemovedCategory`. -/
def updateRemovedCategory (s : LLOutfitGallery) (cat_id : Nat) :
    Except Fault LLOutfitGallery :=
  match StdMap.find s.mOutfitMap cat_id with
  | none => pure s
  | some item =>
    match s.mOutfitsObserver with
    | none => throw Fault.nullDeref
    | some cats => do
      let s := { s with mOutfitsObserver := some (observerRemove cats cat_id) }
      let s := deselectOutfit s cat_id
      let s := { s with mOutfitMap := StdMap.erase s.mOutfitMap cat_id }
      let s ← removeFromGalleryMiddle s item
      dieIfNotNull s item

/-- The loop of `onOpen`: `addToGallery(mOutfitMap[cats[i]])` for each `i`. -/
def addCategories : List Nat → LLOutfitGallery → Except Fault LLOutfitGallery
  | [], s => pure s
  | c :: cats, s => do
    let (item, s) := outfitAt s c
    let s ← addToGallery s item
    addCategories cats s

/-- The source's `LLOutfitGallery::onOpen`, run on the state that `LLOutfitListBase::onOpen`
of the base class has left. -/
def onOpen (inv : LLInventoryModel) (s : LLOutfitGallery) : Except Fault LLOutfitGallery :=
  if !s.mGalleryCreated then do
    let s := loadPhotos inv s
    let cats := getCurrentCategories s
    let n : Int := cats.length
    let s ← buildGalleryPanel s n
    let s ← addCategories cats s
    pure { s with mGalleryCreated := true }
  else pure s

end LLOutfitGallery

/-! ### The uploaded photo -/

/-- Modelled from the spec: `LLUUID::asString` of the external common library, the
128 bits of the id as 32 lower-case hexadecimal digits in groups of 8, 4, 4, 4
and 12. -/
def LLUUID.asString (id : Nat) : String :=
  let digit (i : Nat) : Char := Nat.digitChar (id / 16 ^ (31 - i) % 16)
  let group (a b : Nat) : List Char := (List.range (b - a)).map (fun i => digit (a + i))
  String.mk (group 0 8 ++ ['-'] ++ group 8 12 ++ ['-'] ++ group 12 16 ++ ['-'] ++
    group 16 20 ++ ['-'] ++ group 20 32)

/-- Modelled from the spec: `gInventory.getObject` of the external inventory
subsystem, `none` for `NULL`: the id when the inventory holds a category or an
item with it. -/
def LLInventoryModel.getObject (inv : LLInventoryModel) (id : Nat) : Option Nat :=
  if inv.categories.any (fun c => decide (c.mUUID = id) ||
      c.descendents.any (fun i => decide (i.mUUID = id))) then some id else none

/-- The search loop of `refreshTextures`: `photo_upload_item` after the loop, for
the pending outfit id `pending`. -/
def findPhotoUpload (pending : Nat) :
    List LLViewerInventoryItem → Option LLViewerInventoryItem
  | [] => none
  | item :: rest =>
    let name := item.mName
    if pending ≠ 0 ∧ name = LLUUID.asString pending then some item
    else findPhotoUpload pending rest

/-- The source's `LLOutfitGallery::refreshTextures`; `item_array` is the array that
`gInventory.collectDescendentsIf(category_id, …, is_texture)` fills.  Linking the
photo to the outfit and renaming it are requests to the inventory and leave the
gallery as it is. -/
def LLOutfitGallery.refreshTextures (inv : LLInventoryModel)
    (item_array : List LLViewerInventoryItem) (s : LLOutfitGallery) :
    Except Fault LLOutfitGallery :=
  match findPhotoUpload s.mOutfitLinkPending item_array with
  | none => pure s
  | some photo_upload_item =>
    let upload_pending_id := photo_upload_item.mUUID
    match inv.getObject upload_pending_id with
    | none => pure { s with mOutfitLinkPending := 0 }
    | some _ =>
      match inv.getCategory s.mOutfitLinkPending with
      | none => throw Fault.nullDeref
      | some _ => pure { s with mOutfitLinkPending := 0 }

/-! ## Predicates used in the statements -/

open LLOutfitGallery

/-- The panel a pointer names, if any. -/
def getPanel (h : List LLPanel) : Nat → Option LLPanel
  | 0 => none
  | q + 1 => h[q]?

/-- Two states that differ in layout bookkeeping only: the panel heap,
`mRowCount`, `mLastRowPanel`, `mRowPanels`, `mItemPanels`. -/
def LayoutFrame (s s' : LLOutfitGallery) : Prop :=
  s' = { s with panels := s'.panels, mRowCount := s'.mRowCount,
                mLastRowPanel := s'.mLastRowPanel, mRowPanels := s'.mRowPanels,
                mItemPanels := s'.mItemPanels }

/-- Two states that differ in layout bookkeeping and in the item vector, its
counter and its index map only. -/
def ItemsFrame (s s' : LLOutfitGallery) : Prop :=
  LayoutFrame { s with mItems := s'.mItems, mItemsAddedCount := s'.mItemsAddedCount,
                       mItemIndexMap := s'.mItemIndexMap } s'

/-- The rectangle `moveRow` gives a row panel put at position `pos`. -/
def rowRectAt (s : LLOutfitGallery) (pos : Int) : LLRect :=
  ⟨0, add32 (add32 (mul32 pos s.mRowPanelHeight) (mul32 s.mVerticalGap pos)) s.mRowPanelHeight,
   add32 0 s.mRowPanelWidth, add32 (mul32 pos s.mRowPanelHeight) (mul32 s.mVerticalGap pos)⟩

/-- The rectangle `addToRow` gives the item panel at column `pos`. -/
def itemRectAt (s : LLOutfitGallery) (pos : Int) : LLRect :=
  ⟨add32 (mul32 pos s.mItemWidth) (mul32 s.mHorizontalGap pos), add32 0 s.mItemHeight,
   add32 (add32 (mul32 pos s.mItemWidth) (mul32 s.mHorizontalGap pos))
     (add32 s.mItemWidth s.mItemHorizontalGap), 0⟩

/-- The rectangle `reshapeGalleryPanel` gives the gallery panel for `row_count` rows. -/
def galleryRectFor (s : LLOutfitGallery) (row_count : Int) : LLRect :=
  ⟨0, add32 0 (mul32 row_count (add32 s.mRowPanelHeight s.mVerticalGap)),
   add32 0 s.mGalleryWidth, 0⟩

/-- The layout bookkeeping of a gallery with `mItemsInRow > 0`: the vectors and
counters agree, the panel pointers are live and distinct, every row panel and item
panel sits where the layout arithmetic puts it, and item `i` hangs in item panel `i`,
which hangs in row panel `i / mItemsInRow`.  The parameters describe the states in
the middle of an update: `cd` is how far the counter runs ahead of the item vector,
`pend` how many items still lack a panel, `extra` how many items the rows are ahead
of the counter, and `shaped` whether the gallery panel has been reshaped. -/
structure LayoutWith (cd : Int) (pend : Nat) (extra : Int) (shaped : Bool)
    (s : LLOutfitGallery) : Prop where
  inRow : 0 < s.mItemsInRow
  count : s.mItemsAddedCount = (s.mItems.length : Int) + cd
  ipLen : s.mItemPanels.length + pend = s.mItems.length
  rowLen : (s.mRowPanels.length : Int) =
    rowCountFor (s.mItemsAddedCount + extra) s.mItemsInRow
  rowCount : s.mRowCount = s.mRowPanels.length
  last : ∀ p, s.mRowPanels.getLast? = some p → s.mLastRowPanel = p
  valid : ∀ p, p ∈ s.mGalleryPanel :: (s.mRowPanels ++ s.mItemPanels) →
    1 ≤ p ∧ p ≤ s.panels.length
  nodup : (s.mGalleryPanel :: (s.mRowPanels ++ s.mItemPanels)).Nodup
  rows : ∀ (r : Nat) (p : Nat), s.mRowPanels[r]? = some p →
    ∃ x, getPanel s.panels p = some x ∧ x.mRect = rowRectAt s (s.mRowCount - 1 - r)
  cells : ∀ (i : Nat) (p item : Nat), s.mItemPanels[i]? = some p → s.mItems[i]? = some item →
    ∃ x, getPanel s.panels p = some x ∧ x.mRect = itemRectAt s ((i : Int) % s.mItemsInRow) ∧
      LLView.item item ∈ x.mChildren ∧
      ∃ rp y, s.mRowPanels[i / s.mItemsInRow.toNat]? = some rp ∧
        getPanel s.panels rp = some y ∧ LLView.panel p ∈ y.mChildren
  gallery : shaped = true → s.mItems ≠ [] →
    ∃ x, getPanel s.panels s.mGalleryPanel = some x ∧ x.mRect = galleryRectFor s s.mRowCount

/-- The layout bookkeeping between two updates. -/
def Layout (s : LLOutfitGallery) : Prop := LayoutWith 0 0 0 true s

/-- The empty gallery: no item, item panel or row panel, an empty index map, both
counters zero, and a gallery panel to put rows in. -/
def IsEmptyGallery (s : LLOutfitGallery) : Prop :=
  s.mItems = [] ∧ s.mItemPanels = [] ∧ s.mRowPanels = [] ∧ s.mItemIndexMap = [] ∧
  s.mItemsAddedCount = 0 ∧ s.mRowCount = 0 ∧ ∃ x, getPanel s.panels s.mGalleryPanel = some x

/-- States reached from the empty gallery by `addToGallery` of an item that is not
in the gallery and `removeFromGalleryMiddle` of an item that is. -/
inductive Reach : LLOutfitGallery → Prop where
  | empty {s : LLOutfitGallery} : IsEmptyGallery s → Reach s
  | add {s s' : LLOutfitGallery} (item : Nat) :
      Reach s → item ∉ s.mItems → addToGallery s item = .ok s' → Reach s'
  | remove {s s' : LLOutfitGallery} (item : Nat) :
      Reach s → item ∈ s.mItems → removeFromGalleryMiddle s item = .ok s' → Reach s'

/-- Every listed item is stored in the map with its position as value. -/
def PosExact (l : List Nat) (m : List (Nat × Int)) : Prop :=
  ∀ (i : Nat) (h : i < l.length), StdMap.find m l[i] = some (i : Int)

/-- The counter, the item vector and the index map agree. -/
structure IdxInv (s : LLOutfitGallery) : Prop where
  count : s.mItemsAddedCount = s.mItems.length
  nodup : s.mItems.Nodup
  pos : PosExact s.mItems s.mItemIndexMap
  keys : ∀ k, k ∈ StdMap.keys s.mItemIndexMap → k ∈ s.mItems

/-- The keys of a `std::map` come in strictly ascending order. -/
def StdMap.Ordered {V : Type} (m : List (Nat × V)) : Prop :=
  (StdMap.keys m).Pairwise (fun a b => a < b)

/-- What `addToGallery` relies on in order to return, for a non-zero column count of
either sign: the counter is not negative, there are at least as many row panels as
the row arithmetic asks `moveRowUp` to visit, the gallery panel and the row panels
are live, and `mLastRowPanel` is live once an item has been added. -/
structure AddSafe (s : LLOutfitGallery) : Prop where
  inRow : s.mItemsInRow ≠ 0
  count : 0 ≤ s.mItemsAddedCount
  rowsLe : rowCountFor s.mItemsAddedCount s.mItemsInRow ≤ (s.mRowPanels.length : Int)
  valid : ∀ p, p ∈ s.mGalleryPanel :: s.mRowPanels → 1 ≤ p ∧ p ≤ s.panels.length
  nodup : s.mRowPanels.Nodup
  last : 0 < s.mItemsAddedCount → 1 ≤ s.mLastRowPanel ∧ s.mLastRowPanel ≤ s.panels.length

/-- A gallery not yet created: `mGalleryCreated` is false and no item has been
added, so there is no item, no row panel and the counter is zero. -/
def NotYetCreated (s : LLOutfitGallery) : Prop :=
  s.mGalleryCreated = false ∧ s.mItems = [] ∧ s.mItemsAddedCount = 0 ∧ s.mRowPanels = []

/-- The entries of `mOutfitMap` whose item is not null, in iteration order. -/
def shownEntries (s : LLOutfitGallery) : List (Nat × Nat) :=
  s.mOutfitMap.filter (fun e => decide (e.2 ≠ 0))

/-- The state `s'` holds exactly the items of the non-null entries of the outfit map
of `s`, in ascending category-id order, the counter is their number, and the gallery
is marked as created. -/
def OpenedFrom (s s' : LLOutfitGallery) : Prop :=
  ((shownEntries s).map Prod.fst).Pairwise (fun a b => a < b) ∧
  s'.mItems = (shownEntries s).map Prod.snd ∧
  s'.mItemsAddedCount = ((shownEntries s).length : Int) ∧
  s'.mGalleryCreated = true

/-- The runs of a gallery against the inventory `inv`: from the constructed gallery,
`updateAddedCategory` on category ids the inventory holds, `onOpen`,
`onHighlightBaseOutfit` on any two ids (which leaves a null entry in `mOutfitMap` for
an id that has none), and, once the gallery is created, `updateRemovedCategory` on
category ids the inventory holds; every call of a run returns.
With `fresh = true` a category is only added while it has no entry in `mOutfitMap`,
and only removed while its entry, if it has one, is not null. -/
inductive GalleryRun (inv : LLInventoryModel) (fresh : Bool) : LLOutfitGallery → Prop where
  | constructed (p : Params) (w : String) (r : LLRect) (l : Nat) :
      GalleryRun inv fresh (construct p w r l)
  | opened {s s' : LLOutfitGallery} :
      GalleryRun inv fresh s → onOpen inv s = .ok s' → GalleryRun inv fresh s'
  | added {s s' : LLOutfitGallery} (cat_id : Nat) :
      GalleryRun inv fresh s → inv.getCategory cat_id ≠ none →
      (fresh = true → StdMap.find s.mOutfitMap cat_id = none) →
      updateAddedCategory inv s cat_id = .ok s' → GalleryRun inv fresh s'
  | removed {s s' : LLOutfitGallery} (cat_id : Nat) :
      GalleryRun inv fresh s → inv.getCategory cat_id ≠ none → s.mGalleryCreated = true →
      (fresh = true → StdMap.find s.mOutfitMap cat_id ≠ some 0) →
      updateRemovedCategory s cat_id = .ok s' → GalleryRun inv fresh s'
  | rehighlighted {s s' : LLOutfitGallery} (base_id prev_id : Nat) :
      GalleryRun inv fresh s → onHighlightBaseOutfit s base_id prev_id = .ok s' →
      GalleryRun inv fresh s'

/-- What the runs with `fresh = true` keep: the item vector, its counter and its
index map agree, the outfit map is ordered, maps every category to null or to a live
item and no two categories to the same item, the gallery is empty until it is created,
and once created it shows exactly the mapped items. -/
structure RunInv (s : LLOutfitGallery) : Prop where
  idx : IdxInv s
  ordered : StdMap.Ordered s.mOutfitMap
  live : ∀ c v, StdMap.find s.mOutfitMap c = some v → v ≤ s.items.length
  inj : ∀ c c' v, v ≠ 0 → StdMap.find s.mOutfitMap c = some v →
    StdMap.find s.mOutfitMap c' = some v → c = c'
  closed : s.mGalleryCreated = false → s.mItems = []
  shown : s.mGalleryCreated = true →
    ∀ v, v ∈ s.mItems ↔ v ≠ 0 ∧ ∃ c, StdMap.find s.mOutfitMap c = some v

/-- Two states that agree on what the run invariant reads: the item vector, its
counter and index map, the outfit map, the size of the item heap and the
`mGalleryCreated` flag. -/
def SameGallery (s s' : LLOutfitGallery) : Prop :=
  s'.mItems = s.mItems ∧ s'.mItemsAddedCount = s.mItemsAddedCount ∧
  s'.mItemIndexMap = s.mItemIndexMap ∧ s'.mOutfitMap = s.mOutfitMap ∧
  s'.items.length = s.items.length ∧ s'.mGalleryCreated = s.mGalleryCreated

/-- The item a pointer names, if any. -/
def getItem (h : List LLOutfitGalleryItem) : Nat → Option LLOutfitGalleryItem
  | 0 => none
  | q + 1 => h[q]?

/-- The item pointer that `mOutfitMap` holds for a category, null when the category
has no entry. -/
def mappedItem (s : LLOutfitGallery) (c : Nat) : Nat :=
  (StdMap.find s.mOutfitMap c).getD 0

/-- The outfit map holds null or live item pointers, and no two categories share an
item. -/
def ItemsMapped (s : LLOutfitGallery) : Prop :=
  (∀ c v, StdMap.find s.mOutfitMap c = some v → v ≤ s.items.length) ∧
  (∀ c c' v, v ≠ 0 → StdMap.find s.mOutfitMap c = some v →
    StdMap.find s.mOutfitMap c' = some v → c = c')

/-- What a change of base outfit from `prev_id` to `base_id` is to do between `s`
and `s'`: the item mapped to `base_id`, if not null, is worn; the item mapped to
`prev_id`, if not null and `prev_id` differs from `base_id`, is not worn; every
other item keeps its worn flag; and `mItems` is as before. -/
def HighlightEffect (s : LLOutfitGallery) (base_id prev_id : Nat) (s' : LLOutfitGallery) :
    Prop :=
  s'.mItems = s.mItems ∧
  (mappedItem s base_id ≠ 0 →
    ∃ x, getItem s'.items (mappedItem s base_id) = some x ∧ x.mWorn = true) ∧
  (mappedItem s prev_id ≠ 0 → prev_id ≠ base_id →
    ∃ x, getItem s'.items (mappedItem s prev_id) = some x ∧ x.mWorn = false) ∧
  (∀ q x, q ≠ mappedItem s base_id → q ≠ mappedItem s prev_id →
    getItem s.items q = some x →
    ∃ x', getItem s'.items q = some x' ∧ x'.mWorn = x.mWorn)

/-- The string `sub` occurs in `name`. -/
def NameContains (name sub : String) : Prop := List.IsInfix sub.data name.data

/-! ## Sample data -/

/-- The default parameters. -/
def params0 : Params := {}

/-- A gallery straight after construction. -/
def g0 : LLOutfitGallery := LLOutfitGallery.construct params0 "(worn)" ⟨0, 0, 0, 0⟩ 0

/-- An inventory with three outfit folders; folder `7` holds a texture link. -/
def inv0 : LLInventoryModel :=
  { categories :=
      [⟨5, "casual", []⟩,
       ⟨7, "formal", [⟨70, "shirt", some (.AT_CLOTHING, 700)⟩, ⟨71, "photo", some (.AT_TEXTURE, 710)⟩]⟩,
       ⟨9, "beach", []⟩,
       ⟨2, "Textures", []⟩],
    textures := 2 }

/-- The state a run ends in, or `d` when the run stops early. -/
def okOr (d : LLOutfitGallery) : Except Fault LLOutfitGallery → LLOutfitGallery
  | .ok s => s
  | .error _ => d

/-- The gallery `g0` with item `11` added. -/
def g1 : LLOutfitGallery := okOr g0 (LLOutfitGallery.addToGallery g0 11)

/-- The gallery `g1` with item `12` added. -/
def g2 : LLOutfitGallery := okOr g0 (LLOutfitGallery.addToGallery g1 12)

/-- The gallery `g2` with item `13` added. -/
def g3 : LLOutfitGallery := okOr g0 (LLOutfitGallery.addToGallery g2 13)

/-- The gallery `g3` with item `14` added: two rows. -/
def g4 : LLOutfitGallery := okOr g0 (LLOutfitGallery.addToGallery g3 14)

/-- The inventory `inv0` after outfit folder `7` has been deleted. -/
def inv1 : LLInventoryModel :=
  { inv0 with categories := inv0.categories.filter (fun c => decide (c.mUUID ≠ 7)) }

/-- The gallery opened on an empty outfit map, then told about outfit folder `7`. -/
def opened7 : LLOutfitGallery :=
  okOr g0 (LLOutfitGallery.updateAddedCategory inv0 (okOr g0 (LLOutfitGallery.onOpen inv0 g0)) 7)

/-- The gallery `opened7` after `onHighlightBaseOutfit(5, 9)`: neither id has an
entry, so reading `mOutfitMap[5]` and `mOutfitMap[9]` inserts two null entries. -/
def highlighted : LLOutfitGallery :=
  okOr g0 (LLOutfitGallery.onHighlightBaseOutfit opened7 5 9)

/-- A gallery constructed with `items_in_row = 0`. -/
def gZero0 : LLOutfitGallery :=
  LLOutfitGallery.construct { params0 with items_in_row := 0 } "(worn)" ⟨0, 0, 0, 0⟩ 0

/-- The gallery `gZero0` told about outfit folder `7` before it is opened. -/
def gZero1 : LLOutfitGallery :=
  okOr gZero0 (LLOutfitGallery.updateAddedCategory inv0 gZero0 7)

/-- The gallery `g0` told about outfit folders `7` and `5` and then about a change of
base outfit from `2` to `9`, neither of which has an entry: the outfit map holds
two items and two null entries, and the gallery is not yet created. -/
def listed : LLOutfitGallery :=
  okOr g0 (LLOutfitGallery.onHighlightBaseOutfit
    (okOr g0 (LLOutfitGallery.updateAddedCategory inv0
      (okOr g0 (LLOutfitGallery.updateAddedCategory inv0 g0 7)) 5)) 9 2)

/-- A texture named after outfit folder `7` with a word in front, as the only
texture under the textures folder. -/
def photoItems : List LLViewerInventoryItem :=
  [⟨80, "photo " ++ LLUUID.asString 7, some (.AT_TEXTURE, 800)⟩]

/-- The gallery `opened7` waiting for the photo uploaded for outfit folder `7`. -/
def pending7 : LLOutfitGallery := { opened7 with mOutfitLinkPending := 7 }

/-- The inventory `inv0` after outfit folder `7` has been emptied. -/
def inv7empty : LLInventoryModel :=
  { categories := [⟨5, "casual", []⟩, ⟨7, "formal", []⟩, ⟨9, "beach", []⟩, ⟨2, "Textures", []⟩],
    textures := 2 }

/-- The gallery `listed` after `onOpen`: the items of folders `5` and `7` are shown. -/
def opened57 : LLOutfitGallery := okOr g0 (LLOutfitGallery.onOpen inv0 listed)

/-- The gallery `opened7` after `onHighlightBaseOutfit(7, 7)`. -/
def same7 : LLOutfitGallery := okOr g0 (LLOutfitGallery.onHighlightBaseOutfit opened7 7 7)

/-! ## Reasoning tools -/

theorem bind_eq_ok {ε α β : Type} {x : Except ε α} {f : α → Except ε β} {b : β} :
    (x >>= f) = .ok b ↔ ∃ a, x = .ok a ∧ f a = .ok b := by
  cases x with
  | error e => simp [bind, Except.bind]
  | ok a => simp [bind, Except.bind]

theorem pure_eq_ok {ε α : Type} {a b : α} : (pure a : Except ε α) = .ok b ↔ a = b := by
  simp [pure, Except.pure]

theorem ok_bind {ε α β : Type} (a : α) (f : α → Except ε β) : (Except.ok a >>= f) = f a := rfl

theorem error_bind {ε α β : Type} (e : ε) (f : α → Except ε β) :
    ((Except.error e : Except ε α) >>= f) = Except.error e := rfl

theorem LayoutFrame.refl (s : LLOutfitGallery) : LayoutFrame s s := by
  cases s; rfl

theorem LayoutFrame.trans {a b c : LLOutfitGallery} (h₁ : LayoutFrame a b) (h₂ : LayoutFrame b c) :
    LayoutFrame a c := by
  unfold LayoutFrame at *
  rw [h₂, h₁]

theorem onPanel_ok {s s' : LLOutfitGallery} {p : Nat} {f : LLPanel → LLPanel}
    (h : onPanel s p f = .ok s') :
    ∃ q x, p = q + 1 ∧ s.panels[q]? = some x ∧ s' = { s with panels := s.panels.set q (f x) } := by
  unfold onPanel updPanel at h
  cases p with
  | zero => simp [bind, Except.bind] at h
  | succ q =>
    cases hx : s.panels[q]? with
    | none => simp [hx, bind, Except.bind] at h
    | some x =>
      simp [hx, bind, Except.bind, pure, Except.pure] at h
      exact ⟨q, x, rfl, hx, h.symm⟩

theorem onPanel_frame {s s' : LLOutfitGallery} {p : Nat} {f : LLPanel → LLPanel}
    (h : onPanel s p f = .ok s') : LayoutFrame s s' := by
  obtain ⟨q, x, -, -, rfl⟩ := onPanel_ok h
  rfl


theorem lt_length_of_getElem? {α : Type} {l : List α} {n : Nat} {a : α} (h : l[n]? = some a) :
    n < l.length := by
  by_contra hc
  rw [List.getElem?_eq_none (Nat.le_of_not_lt hc)] at h
  exact absurd h (by simp)

theorem getPanel_append (h : List LLPanel) (x : LLPanel) (p : Nat) :
    getPanel (h ++ [x]) p = if p = h.length + 1 then some x else getPanel h p := by
  rcases p with _ | q
  · simp [getPanel]
  · simp only [getPanel, Nat.add_right_cancel_iff]
    by_cases hq : q < h.length
    · rw [List.getElem?_append_left hq]; simp [Nat.ne_of_lt hq]
    · by_cases hq2 : q = h.length
      · subst hq2; simp
      · have h1 : h.length ≤ q := by omega
        have h2 : (h ++ [x]).length ≤ q := by simp; omega
        rw [if_neg hq2, List.getElem?_eq_none h2, List.getElem?_eq_none h1]

theorem getPanel_onPanel {s s' : LLOutfitGallery} {p : Nat} {f : LLPanel → LLPanel}
    (h : onPanel s p f = .ok s') (r : Nat) :
    getPanel s'.panels r = if r = p then (getPanel s.panels p).map f else getPanel s.panels r := by
  obtain ⟨q, x, rfl, hx, rfl⟩ := onPanel_ok h
  rcases r with _ | r
  · simp [getPanel]
  · simp only [getPanel, Nat.add_right_cancel_iff, List.getElem?_set, hx, Option.map_some']
    by_cases hr : q = r
    · subst hr
      simp [lt_length_of_getElem? hx]
    · simp [hr, Ne.symm hr]

theorem onPanel_length {s s' : LLOutfitGallery} {p : Nat} {f : LLPanel → LLPanel}
    (h : onPanel s p f = .ok s') : s'.panels.length = s.panels.length := by
  obtain ⟨q, x, rfl, hx, rfl⟩ := onPanel_ok h
  simp

theorem onPanel_of_get {s : LLOutfitGallery} {p : Nat} {x : LLPanel} (f : LLPanel → LLPanel)
    (h : getPanel s.panels p = some x) : ∃ s', onPanel s p f = .ok s' := by
  rcases p with _ | q
  · simp [getPanel] at h
  · simp only [getPanel] at h
    exact ⟨_, by simp [onPanel, updPanel, h, bind, Except.bind, pure, Except.pure]; rfl⟩

theorem getPanel_some_iff {h : List LLPanel} {p : Nat} :
    (∃ x, getPanel h p = some x) ↔ 1 ≤ p ∧ p ≤ h.length := by
  rcases p with _ | q
  · simp [getPanel]
  · simp only [getPanel]
    constructor
    · rintro ⟨x, hx⟩
      have := lt_length_of_getElem? hx
      omega
    · rintro ⟨-, h2⟩
      have h3 : q < h.length := by omega
      exact ⟨h[q], List.getElem?_eq_getElem h3⟩

/-! ## Layout steps leave the rest of the state alone -/

theorem throw_ne_ok {α : Type} {e : Fault} {a : α} : (throw e : Except Fault α) ≠ .ok a := by
  intro h; cases h

theorem rowPanelsPop_frame {s s' : LLOutfitGallery} (h : rowPanelsPop s = .ok s') :
    LayoutFrame s s' := by
  unfold rowPanelsPop at h
  split at h
  · exact absurd h throw_ne_ok
  · cases h; rfl

theorem itemPanelsPop_frame {s s' : LLOutfitGallery} (h : itemPanelsPop s = .ok s') :
    LayoutFrame s s' := by
  unfold itemPanelsPop at h
  split at h
  · exact absurd h throw_ne_ok
  · cases h; rfl

theorem moveRowPanel_frame {s s' : LLOutfitGallery} {p : Nat} {l b : Int}
    (h : moveRowPanel s p l b = .ok s') : LayoutFrame s s' :=
  onPanel_frame h

theorem reshapeGalleryPanel_frame {s s' : LLOutfitGallery} {n : Int}
    (h : reshapeGalleryPanel s n = .ok s') : LayoutFrame s s' :=
  onPanel_frame h

theorem buildRowPanel_frame {s s' : LLOutfitGallery} {p : Nat} {l b : Int}
    (h : buildRowPanel s l b = .ok (p, s')) : LayoutFrame s s' := by
  simp only [buildRowPanel, createPanel, bind_eq_ok, pure_eq_ok, Prod.mk.injEq] at h
  obtain ⟨a, h1, -, rfl⟩ := h
  exact LayoutFrame.trans (by rfl) (moveRowPanel_frame h1)

theorem buildItemPanel_frame {s s' : LLOutfitGallery} {p : Nat} {l : Int}
    (h : buildItemPanel s l = .ok (p, s')) : LayoutFrame s s' := by
  simp only [buildItemPanel, createPanel, bind_eq_ok, pure_eq_ok, Prod.mk.injEq] at h
  obtain ⟨a, h1, -, rfl⟩ := h
  exact LayoutFrame.trans (by rfl) (onPanel_frame h1)

theorem addLastRow_frame {s s' : LLOutfitGallery} {p : Nat}
    (h : addLastRow s = .ok (p, s')) : LayoutFrame s s' := by
  simp only [addLastRow, bind_eq_ok, pure_eq_ok, Prod.mk.injEq] at h
  obtain ⟨⟨q, a⟩, h1, b, h2, -, rfl⟩ := h
  exact LayoutFrame.trans (LayoutFrame.trans (by rfl) (buildRowPanel_frame h1)) (onPanel_frame h2)

theorem moveRow_frame {s s' : LLOutfitGallery} {row pos : Int}
    (h : moveRow s row pos = .ok s') : LayoutFrame s s' := by
  simp only [moveRow, bind_eq_ok] at h
  obtain ⟨p, -, h2⟩ := h
  exact moveRowPanel_frame h2

theorem removeLastRow_frame {s s' : LLOutfitGallery}
    (h : removeLastRow s = .ok s') : LayoutFrame s s' := by
  simp only [removeLastRow, bind_eq_ok, pure_eq_ok] at h
  obtain ⟨a, h1, b, h2, p, -, rfl⟩ := h
  refine LayoutFrame.trans (LayoutFrame.trans (by rfl) (onPanel_frame h1)) ?_
  exact LayoutFrame.trans (rowPanelsPop_frame h2) (by rfl)

theorem addToRow_frame {s s' : LLOutfitGallery} {row item p : Nat} {pos hgap : Int}
    (h : addToRow s row item pos hgap = .ok (p, s')) : LayoutFrame s s' := by
  simp only [addToRow, bind_eq_ok, pure_eq_ok, Prod.mk.injEq] at h
  obtain ⟨⟨q, a⟩, h1, b, h2, c, h3, -, rfl⟩ := h
  refine LayoutFrame.trans (buildItemPanel_frame h1) ?_
  refine LayoutFrame.trans (onPanel_frame h2) ?_
  exact LayoutFrame.trans (onPanel_frame h3) (by rfl)

theorem removeFromLastRow_frame {s s' : LLOutfitGallery} {item : Nat}
    (h : removeFromLastRow s item = .ok s') : LayoutFrame s s' := by
  simp only [removeFromLastRow, bind_eq_ok] at h
  obtain ⟨p, -, a, h1, q, -, b, h2, h3⟩ := h
  refine LayoutFrame.trans (onPanel_frame h1) ?_
  exact LayoutFrame.trans (onPanel_frame h2) (itemPanelsPop_frame h3)

theorem forUpTo_frame {body : LLOutfitGallery → Int → Except Fault LLOutfitGallery}
    (hb : ∀ s i s', body s i = .ok s' → LayoutFrame s s') (bound : Int) :
    ∀ s s', forUpTo bound body s = .ok s' → LayoutFrame s s' := by
  unfold forUpTo
  generalize (List.range bound.toNat).map Int.ofNat = l
  induction l with
  | nil =>
    intro s s' h
    simp only [List.foldlM_nil, pure_eq_ok] at h
    subst h; exact LayoutFrame.refl s
  | cons a l ih =>
    intro s s' h
    simp only [List.foldlM_cons, bind_eq_ok] at h
    obtain ⟨b, h1, h2⟩ := h
    exact LayoutFrame.trans (hb _ _ _ h1) (ih _ _ h2)

theorem LayoutFrame.mItems {s s' : LLOutfitGallery} (h : LayoutFrame s s') :
    s'.mItems = s.mItems := by unfold LayoutFrame at h; rw [h]

theorem LayoutFrame.mItemsAddedCount {s s' : LLOutfitGallery} (h : LayoutFrame s s') :
    s'.mItemsAddedCount = s.mItemsAddedCount := by unfold LayoutFrame at h; rw [h]

theorem LayoutFrame.mItemIndexMap {s s' : LLOutfitGallery} (h : LayoutFrame s s') :
    s'.mItemIndexMap = s.mItemIndexMap := by unfold LayoutFrame at h; rw [h]

theorem LayoutFrame.mOutfitMap {s s' : LLOutfitGallery} (h : LayoutFrame s s') :
    s'.mOutfitMap = s.mOutfitMap := by unfold LayoutFrame at h; rw [h]

theorem LayoutFrame.items {s s' : LLOutfitGallery} (h : LayoutFrame s s') :
    s'.items = s.items := by unfold LayoutFrame at h; rw [h]

theorem LayoutFrame.mGalleryCreated {s s' : LLOutfitGallery} (h : LayoutFrame s s') :
    s'.mGalleryCreated = s.mGalleryCreated := by unfold LayoutFrame at h; rw [h]

theorem LayoutFrame.mItemsInRow {s s' : LLOutfitGallery} (h : LayoutFrame s s') :
    s'.mItemsInRow = s.mItemsInRow := by unfold LayoutFrame at h; rw [h]

theorem LayoutFrame.mGalleryPanel {s s' : LLOutfitGallery} (h : LayoutFrame s s') :
    s'.mGalleryPanel = s.mGalleryPanel := by unfold LayoutFrame at h; rw [h]

theorem LayoutFrame.mOutfitsObserver {s s' : LLOutfitGallery} (h : LayoutFrame s s') :
    s'.mOutfitsObserver = s.mOutfitsObserver := by unfold LayoutFrame at h; rw [h]

theorem itemsPop_frame {s s' : LLOutfitGallery} (h : itemsPop s = .ok s') :
    LayoutFrame { s with mItems := s.mItems.dropLast } s' := by
  unfold itemsPop at h
  split at h
  · exact absurd h throw_ne_ok
  · cases h; rfl

/-- What `addToGallery` does outside the layout bookkeeping. -/
theorem addToGallery_core {s s' : LLOutfitGallery} {item : Nat}
    (h : addToGallery s item = .ok s') :
    LayoutFrame { s with mItemsAddedCount := s.mItemsAddedCount + 1,
                         mItemIndexMap := StdMap.assign s.mItemIndexMap item s.mItemsAddedCount,
                         mItems := s.mItems ++ [item] } s' := by
  unfold addToGallery at h
  simp only [] at h
  split at h
  · simp [throw, throwThe, MonadExceptOf.throw] at h
  split at h
  · simp only [pure_bind, bind_eq_ok, pure_eq_ok, Prod.exists] at h
    obtain ⟨c, h5, q, d, h6, p, b, h2, h3⟩ := h
    have h4 := LayoutFrame.trans (addToRow_frame h2) (reshapeGalleryPanel_frame h3)
    have h7 := LayoutFrame.trans (forUpTo_frame (fun _ _ _ => moveRow_frame) _ _ _ h5)
      (addLastRow_frame h6)
    unfold LayoutFrame at h7 h4 ⊢
    rw [h4, h7]
    simp
  · simp only [pure_bind, bind_eq_ok, pure_eq_ok, Prod.exists] at h
    obtain ⟨p, b, h2, h3⟩ := h
    have h4 := LayoutFrame.trans (addToRow_frame h2) (reshapeGalleryPanel_frame h3)
    unfold LayoutFrame at h4 ⊢
    rw [h4]
    simp

/-- What `removeFromGalleryLast` does outside the layout bookkeeping. -/
theorem removeFromGalleryLast_core {s s' : LLOutfitGallery} {item : Nat}
    (h : removeFromGalleryLast s item = .ok s') :
    LayoutFrame { s with mItemsAddedCount := s.mItemsAddedCount - 1,
                         mItems := s.mItems.dropLast } s' := by
  unfold removeFromGalleryLast at h
  simp only [] at h
  split at h
  · simp [throw, throwThe, MonadExceptOf.throw] at h
  simp only [bind_eq_ok] at h
  obtain ⟨it, -, a, h1, b, hpop, h⟩ := h
  have e1 := removeFromLastRow_frame h1
  have e2 := itemsPop_frame hpop
  have e3 : LayoutFrame b s' := by
    split at h
    · simp only [pure_bind, bind_eq_ok, pure_eq_ok] at h
      obtain ⟨c, h5, d, h6, h7⟩ := h
      refine LayoutFrame.trans ?_ (reshapeGalleryPanel_frame h7)
      exact LayoutFrame.trans (forUpTo_frame (fun _ _ _ => moveRow_frame) _ _ _ h5)
        (removeLastRow_frame h6)
    · simp only [pure_bind] at h
      exact reshapeGalleryPanel_frame h
  unfold LayoutFrame at e1 e2 e3 ⊢
  rw [e3, e2, e1]

/-! ## `std::map` facts -/

namespace StdMap

theorem find_assign {V : Type} (m : List (Nat × V)) (k k' : Nat) (v : V) :
    find (assign m k v) k' = if k' = k then some v else find m k' := by
  induction m with
  | nil => simp [assign, find]
  | cons e t ih =>
    obtain ⟨a, b⟩ := e
    simp only [assign]
    by_cases h1 : k < a
    · simp [h1, find]
    · by_cases h2 : k = a
      · subst h2
        simp only [lt_self_iff_false, if_false, if_true, find]
        by_cases h3 : k' = k <;> simp [h3]
      · simp only [h1, h2, if_false, find, ih]
        by_cases h3 : k' = a
        · have : k' ≠ k := by rw [h3]; exact Ne.symm h2
          simp [h3, Ne.symm h2]
        · simp [h3]

theorem find_erase {V : Type} (m : List (Nat × V)) (k k' : Nat) :
    find (erase m k) k' = if k' = k then none else find m k' := by
  induction m with
  | nil => simp [erase, find]
  | cons e t ih =>
    obtain ⟨a, b⟩ := e
    unfold erase at ih ⊢
    by_cases h1 : a = k
    · subst h1
      simp only [List.filter_cons, ne_eq, not_true_eq_false, decide_False, Bool.false_eq_true,
        if_false, ih, find]
      by_cases h3 : k' = a <;> simp [h3]
    · simp only [List.filter_cons, ne_eq, h1, not_false_eq_true, decide_True, if_true, find, ih]
      by_cases h3 : k' = a
      · have : k' ≠ k := by rw [h3]; exact h1
        simp [h3, h1]
      · simp [h3]

theorem mem_keys_iff {V : Type} (m : List (Nat × V)) (k : Nat) :
    k ∈ keys m ↔ find m k ≠ none := by
  induction m with
  | nil => simp [keys, find]
  | cons e t ih =>
    obtain ⟨a, b⟩ := e
    unfold keys at ih ⊢
    simp only [List.map_cons, List.mem_cons, find, ih]
    by_cases h : k = a <;> simp [h]

theorem index_of_find {V : Type} {m : List (Nat × V)} {k : Nat} {v : V} (d : V)
    (h : find m k = some v) : index m k d = (v, m) := by
  simp [index, h]

theorem index_of_find_none {V : Type} {m : List (Nat × V)} {k : Nat} (d : V)
    (h : find m k = none) : index m k d = (d, assign m k d) := by
  simp [index, h]

theorem find_insert {V : Type} (m : List (Nat × V)) (k k' : Nat) (v : V) :
    find (insert m k v) k' =
      if k' = k then (match find m k with | some w => some w | none => some v) else find m k' := by
  unfold insert
  cases h : find m k with
  | some w => by_cases h3 : k' = k <;> simp [h3, h]
  | none => simp only [find_assign]

end StdMap

/-! ## The item vector, its counter and the index map -/

theorem ItemsFrame.of_layout {s s' : LLOutfitGallery} {l : List Nat} {c : Int}
    {m : List (Nat × Int)}
    (h : LayoutFrame { s with mItemsAddedCount := c, mItemIndexMap := m, mItems := l } s') :
    ItemsFrame s s' ∧ s'.mItems = l ∧ s'.mItemsAddedCount = c ∧ s'.mItemIndexMap = m := by
  have h1 := h.mItems
  have h2 := h.mItemsAddedCount
  have h3 := h.mItemIndexMap
  simp only at h1 h2 h3
  refine ⟨?_, h1, h2, h3⟩
  unfold ItemsFrame
  rw [h1, h2, h3]
  exact h

theorem ItemsFrame.same (s : LLOutfitGallery) : ItemsFrame s s := by
  unfold ItemsFrame; cases s; rfl

theorem ItemsFrame.chain {a b c : LLOutfitGallery} (h₁ : ItemsFrame a b) (h₂ : ItemsFrame b c) :
    ItemsFrame a c := by
  unfold ItemsFrame LayoutFrame at *
  rw [h₂, h₁]

theorem ItemsFrame.outfitMap_eq {s s' : LLOutfitGallery} (h : ItemsFrame s s') :
    s'.mOutfitMap = s.mOutfitMap := by
  have := LayoutFrame.mOutfitMap (show LayoutFrame _ s' from h)
  exact this

theorem ItemsFrame.itemHeap_eq {s s' : LLOutfitGallery} (h : ItemsFrame s s') :
    s'.items = s.items := by
  have := LayoutFrame.items (show LayoutFrame _ s' from h)
  exact this

theorem ItemsFrame.galleryCreated_eq {s s' : LLOutfitGallery} (h : ItemsFrame s s') :
    s'.mGalleryCreated = s.mGalleryCreated := by
  have := LayoutFrame.mGalleryCreated (show LayoutFrame _ s' from h)
  exact this

theorem ItemsFrame.itemsInRow_eq {s s' : LLOutfitGallery} (h : ItemsFrame s s') :
    s'.mItemsInRow = s.mItemsInRow := by
  have := LayoutFrame.mItemsInRow (show LayoutFrame _ s' from h)
  exact this

theorem ItemsFrame.outfitsObserver_eq {s s' : LLOutfitGallery} (h : ItemsFrame s s') :
    s'.mOutfitsObserver = s.mOutfitsObserver := by
  have := LayoutFrame.mOutfitsObserver (show LayoutFrame _ s' from h)
  exact this

theorem vecAt_natCast (v : List Nat) (n : Nat) : vecAt v (n : Int) = v[n]? := by
  simp [vecAt]

theorem itemAt_of_get {s : LLOutfitGallery} {n : Nat} {v : Nat} (h : s.mItems[n]? = some v) :
    itemAt s (n : Int) = .ok v := by
  simp only [itemAt, vecAt_natCast, h]; rfl

/-- The items and the counter after `addToGallery`. -/
theorem addToGallery_items {s s' : LLOutfitGallery} {item : Nat}
    (h : addToGallery s item = .ok s') :
    ItemsFrame s s' ∧ s'.mItems = s.mItems ++ [item] ∧
      s'.mItemsAddedCount = s.mItemsAddedCount + 1 ∧
      s'.mItemIndexMap = StdMap.assign s.mItemIndexMap item s.mItemsAddedCount := by
  have := ItemsFrame.of_layout (addToGallery_core h)
  exact this

/-- The items and the counter after `removeFromGalleryLast`. -/
theorem removeFromGalleryLast_items {s s' : LLOutfitGallery} {item : Nat}
    (h : removeFromGalleryLast s item = .ok s') :
    ItemsFrame s s' ∧ s'.mItems = s.mItems.dropLast ∧
      s'.mItemsAddedCount = s.mItemsAddedCount - 1 ∧
      s'.mItemIndexMap = s.mItemIndexMap := by
  have h1 : LayoutFrame { s with mItemsAddedCount := s.mItemsAddedCount - 1,
                                 mItemIndexMap := s.mItemIndexMap,
                                 mItems := s.mItems.dropLast } s' :=
    removeFromGalleryLast_core h
  exact ItemsFrame.of_layout h1

/-- The first loop of `removeFromGalleryMiddle` pops the tail `B` and saves it. -/
theorem removeTail_items (B : List Nat) :
    ∀ (A : List Nat) (s : LLOutfitGallery) (saved : List Nat) (s' : LLOutfitGallery)
      (saved' : List Nat),
      s.mItems = A ++ B → s.mItemsAddedCount = ((A ++ B).length : Int) →
      removeTail B.length (s.mItemsAddedCount - 1) s saved = .ok (s', saved') →
      ItemsFrame s s' ∧ s'.mItems = A ∧ s'.mItemsAddedCount = (A.length : Int) ∧
        s'.mItemIndexMap = s.mItemIndexMap ∧ saved' = B ++ saved := by
  induction B using List.reverseRecOn with
  | nil =>
    intro A s saved s' saved' hL hc h
    simp only [List.length_nil, removeTail, pure_eq_ok, Prod.mk.injEq] at h
    obtain ⟨rfl, rfl⟩ := h
    simp only [List.append_nil] at hL hc
    exact ⟨ItemsFrame.same _, hL, hc, rfl, rfl⟩
  | append_singleton B v ih =>
    intro A s saved s' saved' hL hc h
    have hi : s.mItemsAddedCount - 1 = ((A.length + B.length : Nat) : Int) := by
      rw [hc]; simp only [List.length_append, List.length_singleton]; push_cast; ring
    have hget : s.mItems[A.length + B.length]? = some v := by
      rw [hL, ← List.append_assoc]
      rw [List.getElem?_append_right (by simp)]
      simp
    rw [List.length_append, List.length_singleton, removeTail] at h
    simp only [hi, itemAt_of_get hget, ok_bind, bind_eq_ok] at h
    obtain ⟨s1, h1, h2⟩ := h
    obtain ⟨f1, e1, e2, e3⟩ := removeFromGalleryLast_items h1
    have hL1 : s1.mItems = A ++ B := by
      rw [e1, hL, ← List.append_assoc, List.dropLast_concat]
    have hc1 : s1.mItemsAddedCount = ((A ++ B).length : Int) := by
      rw [e2, hi]; simp
    have hi1 : ((A.length + B.length : Nat) : Int) - 1 = s1.mItemsAddedCount - 1 := by
      rw [e2, hi]
    rw [hi1] at h2
    obtain ⟨f2, r1, r2, r3, r4⟩ := ih A s1 (v :: saved) s' saved' hL1 hc1 h2
    refine ⟨ItemsFrame.chain f1 f2, r1, r2, ?_, ?_⟩
    · rw [r3, e3]
    · rw [r4]; simp

theorem posExact_snoc {l : List Nat} {m : List (Nat × Int)} {v : Nat}
    (h : PosExact l m) (hv : v ∉ l) : PosExact (l ++ [v]) (StdMap.assign m v (l.length : Int)) := by
  intro i hi
  rw [StdMap.find_assign]
  by_cases h1 : i < l.length
  · have e : (l ++ [v])[i] = l[i] := List.getElem_append_left h1
    rw [e]
    have hne : l[i] ≠ v := fun hc => hv (hc ▸ List.getElem_mem h1)
    rw [if_neg hne]
    exact h i h1
  · have h2 : i = l.length := by
      simp only [List.length_append, List.length_singleton] at hi; omega
    subst h2
    simp

theorem posExact_erase {l : List Nat} {m : List (Nat × Int)} {v : Nat}
    (h : PosExact l m) (hv : v ∉ l) : PosExact l (StdMap.erase m v) := by
  intro i hi
  rw [StdMap.find_erase]
  have hne : l[i] ≠ v := fun hc => hv (hc ▸ List.getElem_mem hi)
  rw [if_neg hne]
  exact h i hi

theorem posExact_left {a b : List Nat} {m : List (Nat × Int)}
    (h : PosExact (a ++ b) m) : PosExact a m := by
  intro i hi
  have h1 : i < (a ++ b).length := by simp; omega
  have := h i h1
  rwa [List.getElem_append_left hi] at this

/-- The second loop of `removeFromGalleryMiddle` appends the saved items and
indexes them. -/
theorem addSaved_idx (B : List Nat) :
    ∀ (s s' : LLOutfitGallery), addSaved B s = .ok s' →
      s.mItemsAddedCount = (s.mItems.length : Int) → (s.mItems ++ B).Nodup →
      PosExact s.mItems s.mItemIndexMap →
      (∀ k, k ∈ StdMap.keys s.mItemIndexMap → k ∈ s.mItems ++ B) →
      ItemsFrame s s' ∧ s'.mItems = s.mItems ++ B ∧ IdxInv s' := by
  induction B with
  | nil =>
    intro s s' h hc hn hp hk
    simp only [addSaved, pure_eq_ok] at h
    subst h
    simp only [List.append_nil] at hn hk ⊢
    exact ⟨ItemsFrame.same _, trivial, ⟨hc, hn, hp, hk⟩⟩
  | cons v B ih =>
    intro s s' h hc hn hp hk
    simp only [addSaved, bind_eq_ok] at h
    obtain ⟨s1, h1, h2⟩ := h
    obtain ⟨f1, e1, e2, e3⟩ := addToGallery_items h1
    have hv : v ∉ s.mItems := by
      intro hm
      have := List.nodup_append.mp hn
      exact this.2.2 hm (List.mem_cons_self _ _)
    have hn1 : (s1.mItems ++ B).Nodup := by
      rw [e1, List.append_assoc]; exact hn
    have hc1 : s1.mItemsAddedCount = (s1.mItems.length : Int) := by
      rw [e2, e1, hc]; simp
    have hp1 : PosExact s1.mItems s1.mItemIndexMap := by
      rw [e1, e3, hc]; exact posExact_snoc hp hv
    have hk1 : ∀ k, k ∈ StdMap.keys s1.mItemIndexMap → k ∈ s1.mItems ++ B := by
      intro k hk'
      rw [StdMap.mem_keys_iff, e3, StdMap.find_assign] at hk'
      rw [e1, List.append_assoc]
      by_cases hkv : k = v
      · subst hkv; simp
      · rw [if_neg hkv, ← StdMap.mem_keys_iff] at hk'
        exact hk k hk'
    obtain ⟨f2, r1, r2⟩ := ih s1 s' h2 hc1 hn1 hp1 hk1
    refine ⟨ItemsFrame.chain f1 f2, ?_, r2⟩
    rw [r1, e1, List.append_assoc]; rfl

/-- The index bookkeeping survives `addToGallery` of an item that is not in the gallery. -/
theorem addToGallery_idx {s s' : LLOutfitGallery} {item : Nat} (hI : IdxInv s)
    (hv : item ∉ s.mItems) (h : addToGallery s item = .ok s') : IdxInv s' := by
  have h' : addSaved [item] s = .ok s' := by
    simp only [addSaved, h, bind_eq_ok, pure_eq_ok, Except.ok.injEq, exists_eq_left']
  have hn : (s.mItems ++ [item]).Nodup := by
    rw [List.nodup_append]
    refine ⟨hI.nodup, List.nodup_singleton _, ?_⟩
    intro a ha hb
    rw [List.mem_singleton] at hb
    subst hb; exact hv ha
  exact (addSaved_idx [item] s s' h' hI.count hn hI.pos
    (fun k hk => List.mem_append_left _ (hI.keys k hk))).2.2

/-- What `removeFromGalleryMiddle` does to the item vector, its counter and the
index map, for an item that is in the gallery. -/
theorem removeFromGalleryMiddle_items {s s' : LLOutfitGallery} {item : Nat} (hI : IdxInv s)
    (hm : item ∈ s.mItems) (h : removeFromGalleryMiddle s item = .ok s') :
    ItemsFrame s s' ∧ s'.mItems = s.mItems.erase item ∧
      s'.mItemsAddedCount = s.mItemsAddedCount - 1 ∧ IdxInv s' := by
  obtain ⟨A, B, hL⟩ := List.append_of_mem hm
  have hnd := hI.nodup
  rw [hL] at hnd
  have hA : item ∉ A := by
    intro ha
    have := List.nodup_append.mp hnd
    exact this.2.2 ha (List.mem_cons_self _ _)
  have hB : item ∉ B := by
    have := (List.nodup_append.mp hnd).2.1
    exact (List.nodup_cons.mp this).1
  have hlen : A.length < s.mItems.length := by rw [hL]; simp
  have hfind : StdMap.find s.mItemIndexMap item = some (A.length : Int) := by
    have := hI.pos A.length hlen
    have e : s.mItems[A.length] = item := by
      have : s.mItems[A.length]? = some item := by
        rw [hL, List.getElem?_append_right (Nat.le_refl _)]; simp
      exact (List.getElem?_eq_some_iff.mp this).2
    rwa [e] at this
  unfold removeFromGalleryMiddle at h
  rw [StdMap.index_of_find 0 hfind] at h
  simp only [bind_eq_ok, Prod.exists] at h
  obtain ⟨s1, saved, h1, h2⟩ := h
  have hcnt : s.mItemsAddedCount = ((A ++ [item] ++ B).length : Int) := by
    rw [hI.count, hL]; simp
  have hsteps : (s.mItemsAddedCount - 1 - (A.length : Int)).toNat = B.length := by
    rw [hcnt]; simp only [List.length_append, List.length_singleton]; push_cast; omega
  rw [hsteps] at h1
  have hL0 : s.mItems = (A ++ [item]) ++ B := by rw [hL]; simp
  obtain ⟨f1, e1, e2, e3, e4⟩ :=
    removeTail_items B (A ++ [item])
      { s with mItemIndexMap := StdMap.erase s.mItemIndexMap item } [] s1 saved hL0 hcnt h1
  simp only [List.append_nil] at e4
  simp only at e3
  have hget : s1.mItems[A.length]? = some item := by rw [e1]; simp
  rw [itemAt_of_get hget] at h2
  obtain ⟨v, hv, s2, h3, h4⟩ := h2
  cases hv
  obtain ⟨f2, g1, g2, g3⟩ := removeFromGalleryLast_items h3
  have hL2 : s2.mItems = A := by rw [g1, e1, List.dropLast_concat]
  have hc2 : s2.mItemsAddedCount = (s2.mItems.length : Int) := by
    rw [g2, e2, hL2]; simp
  have hAB : (A ++ B).Nodup := by
    rw [List.nodup_append] at hnd ⊢
    refine ⟨hnd.1, (List.nodup_cons.mp hnd.2.1).2, ?_⟩
    intro a ha hb
    exact hnd.2.2 ha (List.mem_cons_of_mem _ hb)
  have hp2 : PosExact s2.mItems s2.mItemIndexMap := by
    rw [hL2, g3, e3]
    have := hI.pos
    rw [hL] at this
    exact posExact_erase (posExact_left this) hA
  have hk2 : ∀ k, k ∈ StdMap.keys s2.mItemIndexMap → k ∈ s2.mItems ++ B := by
    intro k hk
    rw [StdMap.mem_keys_iff, g3, e3, StdMap.find_erase] at hk
    by_cases hki : k = item
    · simp [hki] at hk
    · rw [if_neg hki, ← StdMap.mem_keys_iff] at hk
      have := hI.keys k hk
      rw [hL] at this
      rw [hL2]
      simp only [List.mem_append, List.mem_cons] at this ⊢
      rcases this with h | h | h
      · exact Or.inl h
      · exact absurd h hki
      · exact Or.inr h
  rw [e4] at h4
  obtain ⟨f3, r1, r2⟩ := addSaved_idx B s2 s' h4 hc2 (by rw [hL2]; exact hAB) hp2 hk2
  have f0 : ItemsFrame s { s with mItemIndexMap := StdMap.erase s.mItemIndexMap item } := by
    unfold ItemsFrame LayoutFrame; rfl
  refine ⟨ItemsFrame.chain f0 (ItemsFrame.chain f1 (ItemsFrame.chain f2 f3)), ?_, ?_, r2⟩
  · rw [r1, hL2, hL]
    rw [List.erase_append_right _ hA, List.erase_cons_head]
  · rw [r2.count, r1, hL2, hI.count, hL]
    simp only [List.length_append, List.length_cons]; push_cast; ring

/-! ## Claims -/

theorem isEmptyGallery_idxInv {s : LLOutfitGallery} (h : IsEmptyGallery s) : IdxInv s := by
  obtain ⟨h1, -, -, h4, h5, -, -⟩ := h
  refine ⟨by rw [h5, h1]; rfl, by rw [h1]; exact List.nodup_nil, ?_, ?_⟩
  · intro i hi; rw [h1] at hi; exact absurd hi (by simp)
  · intro k hk; rw [h4] at hk; simp [StdMap.keys] at hk

theorem reach_idxInv {s : LLOutfitGallery} (h : Reach s) : IdxInv s := by
  induction h with
  | empty he => exact isEmptyGallery_idxInv he
  | add _ _ hv h ih => exact addToGallery_idx ih hv h
  | remove _ _ hm h ih => exact (removeFromGalleryMiddle_items ih hm h).2.2.2

theorem g0_empty : IsEmptyGallery g0 :=
  ⟨rfl, rfl, rfl, rfl, rfl, rfl, ⟨_, rfl⟩⟩

/-- C9: for a category that the inventory does not hold, `updateAddedCategory`
returns with the state untouched: `mOutfitMap`, `mItems`, `mItemIndexMap`,
`mItemsAddedCount`, `mRowCount` and the outfits observer are what they were. -/
theorem updateAddedCategory_missing (inv : LLInventoryModel) (s : LLOutfitGallery)
    (cat_id : Nat) (h : inv.getCategory cat_id = none) :
    ∃ s', updateAddedCategory inv s cat_id = .ok s' ∧
      s'.mOutfitMap = s.mOutfitMap ∧ s'.mItems = s.mItems ∧
      s'.mItemIndexMap = s.mItemIndexMap ∧ s'.mItemsAddedCount = s.mItemsAddedCount ∧
      s'.mRowCount = s.mRowCount ∧ s'.mOutfitsObserver = s.mOutfitsObserver ∧ s' = s := by
  refine ⟨s, ?_, rfl, rfl, rfl, rfl, rfl, rfl, rfl⟩
  unfold updateAddedCategory
  rw [h]
  rfl

/-- C9 at the opened gallery and the folder id `4`, which `inv0` does not hold. -/
theorem updateAddedCategory_missing_witness :
    inv0.getCategory 4 = none ∧
    ∃ s', updateAddedCategory inv0 opened7 4 = .ok s' ∧
      s'.mOutfitMap = opened7.mOutfitMap ∧ s'.mItems = opened7.mItems ∧
      s'.mItemIndexMap = opened7.mItemIndexMap ∧
      s'.mItemsAddedCount = opened7.mItemsAddedCount ∧
      s'.mRowCount = opened7.mRowCount ∧
      s'.mOutfitsObserver = opened7.mOutfitsObserver ∧ s' = opened7 :=
  ⟨rfl, updateAddedCategory_missing inv0 opened7 4 rfl⟩

/-- C8, the failing run: the gallery shows outfit folder `7`, the folder is
deleted from the inventory, and `refreshOutfit(7)` calls a method of the null
category. -/
theorem refreshOutfit_null_category :
    inv1.getCategory 7 = none ∧ StdMap.find opened7.mOutfitMap 7 = some 1 ∧
    refreshOutfit inv1 opened7 7 = .error Fault.nullDeref :=
  ⟨rfl, rfl, rfl⟩

/-! ## Heap effect of the layout steps -/

theorem onPanel_spec {s : LLOutfitGallery} {p : Nat} {x : LLPanel} (f : LLPanel → LLPanel)
    (hx : getPanel s.panels p = some x) :
    ∃ h', onPanel s p f = .ok { s with panels := h' } ∧ h'.length = s.panels.length ∧
      ∀ q, getPanel h' q = if q = p then some (f x) else getPanel s.panels q := by
  obtain ⟨s', hs⟩ := onPanel_of_get f hx
  obtain ⟨q, y, rfl, hy, rfl⟩ := onPanel_ok hs
  refine ⟨_, hs, by simp, ?_⟩
  intro r
  have := getPanel_onPanel hs r
  simp only at this
  rw [this, hx]
  rfl

theorem rowRect_reshape (s : LLOutfitGallery) (x : LLPanel) (pos : Int) :
    (x.setRect (rowRectAt s pos)).reshape s.mRowPanelWidth s.mRowPanelHeight =
      { x with mRect := rowRectAt s pos } := rfl

/-- What `moveRow` does when the row exists. -/
theorem moveRow_spec {s : LLOutfitGallery} {r : Nat} {p : Nat} {x : LLPanel} (pos : Int)
    (hr : s.mRowPanels[r]? = some p) (hx : getPanel s.panels p = some x) :
    ∃ h', moveRow s (r : Int) pos = .ok { s with panels := h' } ∧
      h'.length = s.panels.length ∧
      ∀ q, getPanel h' q =
        if q = p then some { x with mRect := rowRectAt s pos } else getPanel s.panels q := by
  have e : rowPanelAt s (r : Int) = .ok p := by
    simp only [rowPanelAt, vecAt_natCast, hr]; rfl
  unfold moveRow
  simp only [e, ok_bind, moveRowPanel]
  obtain ⟨h', h1, h2, h3⟩ := onPanel_spec
    (fun p => (p.setRect (rowRectAt s pos)).reshape s.mRowPanelWidth s.mRowPanelHeight) hx
  refine ⟨h', h1, h2, ?_⟩
  intro q
  rw [h3, rowRect_reshape]

theorem nodup_getElem?_inj {l : List Nat} (hnd : l.Nodup) {i j : Nat} {a : Nat}
    (hi : l[i]? = some a) (hj : l[j]? = some a) : i = j := by
  obtain ⟨h1, e1⟩ := List.getElem?_eq_some_iff.mp hi
  obtain ⟨h2, e2⟩ := List.getElem?_eq_some_iff.mp hj
  exact (@List.Nodup.getElem_inj_iff _ _ hnd _ h1 _ h2).mp (e1.trans e2.symm)

/-- The row-moving loops: the first `m` rows get their new rectangle, every other
panel is left as it is. -/
theorem moveRows_spec (g : Int → Int → Int)
    (body : LLOutfitGallery → Int → Except Fault LLOutfitGallery)
    (hbody : ∀ s r, body s r = moveRow s r (g s.mRowCount r)) (s : LLOutfitGallery)
    (hvalid : ∀ p, p ∈ s.mRowPanels → ∃ x, getPanel s.panels p = some x)
    (hnd : s.mRowPanels.Nodup) :
    ∀ m, m ≤ s.mRowPanels.length →
      ∃ h', List.foldlM body s ((List.range m).map Int.ofNat) = .ok { s with panels := h' } ∧
        h'.length = s.panels.length ∧
        (∀ r p, r < m → s.mRowPanels[r]? = some p →
          ∃ x, getPanel s.panels p = some x ∧
            getPanel h' p = some { x with mRect := rowRectAt s (g s.mRowCount r) }) ∧
        (∀ p, (∀ r, r < m → s.mRowPanels[r]? ≠ some p) → getPanel h' p = getPanel s.panels p) := by
  intro m
  induction m with
  | zero =>
    intro _
    refine ⟨s.panels, ?_, rfl, ?_, ?_⟩
    · simp only [List.range_zero, List.map_nil, List.foldlM_nil]; cases s; rfl
    · intro r p hr; exact absurd hr (Nat.not_lt_zero r)
    · intro p _; rfl
  | succ m ih =>
    intro hm
    obtain ⟨h1, e1, len1, a1, b1⟩ := ih (Nat.le_of_succ_le hm)
    have hm' : m < s.mRowPanels.length := hm
    have hr : s.mRowPanels[m]? = some s.mRowPanels[m] := List.getElem?_eq_getElem hm'
    obtain ⟨x, hx⟩ := hvalid _ (List.getElem_mem hm')
    have hx1 : getPanel h1 s.mRowPanels[m] = some x := by
      rw [b1 _ (fun r hr' hc => absurd (nodup_getElem?_inj hnd hc hr) (Nat.ne_of_lt hr')), hx]
    obtain ⟨h2, e2, len2, c2⟩ :=
      moveRow_spec (s := { s with panels := h1 }) (g s.mRowCount m) hr hx1
    refine ⟨h2, ?_, by rw [len2]; exact len1, ?_, ?_⟩
    · rw [List.range_succ, List.map_append, List.foldlM_append, e1]
      simp only [List.map_cons, List.map_nil, List.foldlM_cons, List.foldlM_nil, bind_pure]
      rw [show (Except.ok { s with panels := h1 } >>= fun x => body x (Int.ofNat m)) =
        body { s with panels := h1 } (Int.ofNat m) from rfl, hbody]
      exact e2
    · intro r p hrm hp
      by_cases hrm' : r < m
      · obtain ⟨y, hy1, hy2⟩ := a1 r p hrm' hp
        refine ⟨y, hy1, ?_⟩
        rw [c2]
        have hne : p ≠ s.mRowPanels[m] := by
          intro hc
          rw [hc] at hp
          exact absurd (nodup_getElem?_inj hnd hp hr) (Nat.ne_of_lt hrm')
        rw [if_neg hne]
        exact hy2
      · have : r = m := by omega
        subst this
        rw [hr] at hp
        cases hp
        exact ⟨x, hx, by rw [c2, if_pos rfl]; rfl⟩
    · intro p hp
      rw [c2]
      have hne : p ≠ s.mRowPanels[m] := fun hc => hp m (Nat.lt_succ_self m) (hc ▸ hr)
      rw [if_neg hne]
      exact b1 p (fun r hr' => hp r (Nat.lt_succ_of_lt hr'))


theorem ne_fresh_of_get {h : List LLPanel} {p : Nat} {x : LLPanel}
    (hx : getPanel h p = some x) : p ≠ h.length + 1 := by
  have := (getPanel_some_iff (h := h) (p := p)).mp ⟨x, hx⟩
  omega

/-- What `reshapeGalleryPanel` does when the gallery panel exists. -/
theorem reshapeGalleryPanel_spec {s : LLOutfitGallery} {x : LLPanel} (row_count : Int)
    (hg : getPanel s.panels s.mGalleryPanel = some x) :
    ∃ h', reshapeGalleryPanel s row_count = .ok { s with panels := h' } ∧
      h'.length = s.panels.length ∧
      ∀ q, getPanel h' q =
        if q = s.mGalleryPanel then some { x with mRect := galleryRectFor s row_count }
        else getPanel s.panels q := by
  unfold reshapeGalleryPanel
  obtain ⟨h', h1, h2, h3⟩ := onPanel_spec
    (fun p => (p.setRect (galleryRectFor s row_count)).reshape s.mGalleryWidth
      (mul32 row_count (add32 s.mRowPanelHeight s.mVerticalGap))) hg
  refine ⟨h', h1, h2, ?_⟩
  intro q
  rw [h3]
  rfl

/-- What `addLastRow` does when the gallery panel exists. -/
theorem addLastRow_spec {s : LLOutfitGallery} {x : LLPanel}
    (hg : getPanel s.panels s.mGalleryPanel = some x) :
    ∃ h', addLastRow s =
        .ok (s.panels.length + 1, { s with panels := h', mRowCount := s.mRowCount + 1 }) ∧
      h'.length = s.panels.length + 1 ∧
      ∀ q, getPanel h' q =
        if q = s.mGalleryPanel then some (x.addChild (.panel (s.panels.length + 1)))
        else if q = s.panels.length + 1 then some ⟨rowRectAt s 0, []⟩
        else getPanel s.panels q := by
  have hfresh : getPanel (s.panels ++ [⟨⟨0, 0, 0, 0⟩, []⟩]) (s.panels.length + 1) =
      some ⟨⟨0, 0, 0, 0⟩, []⟩ := by rw [getPanel_append, if_pos rfl]
  obtain ⟨h1, e1, len1, c1⟩ := onPanel_spec
    (s := { s with mRowCount := s.mRowCount + 1, panels := s.panels ++ [⟨⟨0, 0, 0, 0⟩, []⟩] })
    (fun p => (p.setRect (rowRectAt s 0)).reshape s.mRowPanelWidth s.mRowPanelHeight) hfresh
  have hgne := ne_fresh_of_get hg
  have hg1 : getPanel h1 s.mGalleryPanel = some x := by
    rw [c1]; simp only; rw [if_neg hgne, getPanel_append, if_neg hgne, hg]
  obtain ⟨h2, e2, len2, c2⟩ := onPanel_spec
    (s := { s with mRowCount := s.mRowCount + 1, panels := h1 })
    (fun p => p.addChild (.panel (s.panels.length + 1))) hg1
  refine ⟨h2, ?_, ?_, ?_⟩
  · simp only [addLastRow, buildRowPanel, createPanel, moveRowPanel, bind_eq_ok, pure_eq_ok,
      Prod.exists, Prod.mk.injEq]
    exact ⟨_, _, ⟨_, e1, rfl, rfl⟩, _, e2, rfl, rfl⟩
  · rw [len2, len1]; simp
  · intro q
    rw [c2]; simp only
    by_cases hq : q = s.mGalleryPanel
    · rw [if_pos hq, if_pos hq]
    · rw [if_neg hq, if_neg hq, c1]; simp only
      by_cases hq2 : q = s.panels.length + 1
      · rw [if_pos hq2, if_pos hq2, rowRect_reshape]
      · rw [if_neg hq2, if_neg hq2, getPanel_append, if_neg hq2]

/-- What `addToRow` does when the row panel exists. -/
theorem addToRow_spec {s : LLOutfitGallery} {row : Nat} {y : LLPanel} (item : Nat) (pos : Int)
    (hr : getPanel s.panels row = some y) :
    ∃ h', addToRow s row item pos (mul32 s.mHorizontalGap pos) =
        .ok (s.panels.length + 1,
          { s with panels := h', mItemPanels := s.mItemPanels ++ [s.panels.length + 1] }) ∧
      h'.length = s.panels.length + 1 ∧
      ∀ q, getPanel h' q =
        if q = row then some (y.addChild (.panel (s.panels.length + 1)))
        else if q = s.panels.length + 1 then some ⟨itemRectAt s pos, [.item item]⟩
        else getPanel s.panels q := by
  have hfresh : getPanel (s.panels ++ [⟨⟨0, 0, 0, 0⟩, []⟩]) (s.panels.length + 1) =
      some ⟨⟨0, 0, 0, 0⟩, []⟩ := by rw [getPanel_append, if_pos rfl]
  obtain ⟨h1, e1, len1, c1⟩ := onPanel_spec
    (s := { s with panels := s.panels ++ [⟨⟨0, 0, 0, 0⟩, []⟩] })
    (fun p => (p.setRect ⟨add32 (mul32 pos s.mItemWidth) (mul32 s.mHorizontalGap pos),
        add32 0 s.mItemHeight,
        add32 (add32 (add32 (mul32 pos s.mItemWidth) (mul32 s.mHorizontalGap pos)) s.mItemWidth)
          s.mItemHorizontalGap,
        0⟩).reshape (add32 s.mItemWidth s.mItemHorizontalGap) s.mItemHeight) hfresh
  have hf1 : getPanel h1 (s.panels.length + 1) = some ⟨itemRectAt s pos, []⟩ := by
    rw [c1, if_pos rfl]; rfl
  obtain ⟨h2, e2, len2, c2⟩ := onPanel_spec (s := { s with panels := h1 })
    (fun p => p.addChild (.item item)) hf1
  have hrne := ne_fresh_of_get hr
  have hr2 : getPanel h2 row = some y := by
    rw [c2]; simp only; rw [if_neg hrne, c1]; simp only
    rw [if_neg hrne, getPanel_append, if_neg hrne, hr]
  obtain ⟨h3, e3, len3, c3⟩ := onPanel_spec (s := { s with panels := h2 })
    (fun p => p.addChild (.panel (s.panels.length + 1))) hr2
  refine ⟨h3, ?_, ?_, ?_⟩
  · simp only [addToRow, buildItemPanel, createPanel, bind_eq_ok, pure_eq_ok,
      Prod.exists, Prod.mk.injEq]
    exact ⟨_, _, ⟨_, e1, rfl, rfl⟩, _, e2, _, e3, rfl, rfl⟩
  · rw [len3, len2, len1]; simp
  · intro q
    rw [c3]; simp only
    by_cases hq : q = row
    · rw [if_pos hq, if_pos hq]
    · rw [if_neg hq, if_neg hq, c2]; simp only
      by_cases hq2 : q = s.panels.length + 1
      · rw [if_pos hq2, if_pos hq2]; rfl
      · rw [if_neg hq2, if_neg hq2, c1]; simp only
        rw [if_neg hq2, getPanel_append, if_neg hq2]

/-- What `removeFromLastRow` does when the last item panel and the last row exist. -/
theorem removeFromLastRow_spec {s : LLOutfitGallery} {ip : Nat} {x y : LLPanel} (item : Nat)
    (hip : s.mItemPanels.getLast? = some ip) (hx : getPanel s.panels ip = some x)
    (hy : getPanel s.panels s.mLastRowPanel = some y) (hne : s.mLastRowPanel ≠ ip) :
    ∃ h', removeFromLastRow s item =
        .ok { s with panels := h', mItemPanels := s.mItemPanels.dropLast } ∧
      h'.length = s.panels.length ∧
      ∀ q, getPanel h' q =
        if q = s.mLastRowPanel then some (y.removeChild (.panel ip))
        else if q = ip then some (x.removeChild (.item item))
        else getPanel s.panels q := by
  have eb : itemPanelsBack s = .ok ip := by simp only [itemPanelsBack, hip]; rfl
  obtain ⟨h1, e1, len1, c1⟩ := onPanel_spec (fun p => p.removeChild (.item item)) hx
  have eb1 : itemPanelsBack { s with panels := h1 } = .ok ip := by
    simp only [itemPanelsBack, hip]; rfl
  have hy1 : getPanel h1 s.mLastRowPanel = some y := by
    rw [c1, if_neg hne, hy]
  obtain ⟨h2, e2, len2, c2⟩ := onPanel_spec (s := { s with panels := h1 })
    (fun p => p.removeChild (.panel ip)) hy1
  have hpop : itemPanelsPop { s with panels := h2 } =
      .ok { s with panels := h2, mItemPanels := s.mItemPanels.dropLast } := by
    unfold itemPanelsPop
    split
    · rename_i hnil
      simp only at hnil
      rw [hnil] at hip; simp at hip
    · rfl
  refine ⟨h2, ?_, by rw [len2, len1], ?_⟩
  · simp only [removeFromLastRow, eb, e1, ok_bind, eb1, e2, hpop]
  · intro q
    rw [c2]; simp only
    by_cases hq : q = s.mLastRowPanel
    · rw [if_pos hq, if_pos hq]
    · rw [if_neg hq, if_neg hq, c1]

/-- What `removeLastRow` does when a row is left behind: the back of the popped
vector becomes the last row. -/
theorem removeLastRow_spec {s : LLOutfitGallery} {x : LLPanel}
    (hg : getPanel s.panels s.mGalleryPanel = some x) (hne : s.mRowPanels.dropLast ≠ []) :
    ∃ h', removeLastRow s =
        .ok { s with panels := h', mRowCount := s.mRowCount - 1,
                     mRowPanels := s.mRowPanels.dropLast,
                     mLastRowPanel := s.mRowPanels.dropLast.getLast?.getD 0 } ∧
      h'.length = s.panels.length ∧
      ∀ q, getPanel h' q =
        if q = s.mGalleryPanel then some (x.removeChild (.panel s.mLastRowPanel))
        else getPanel s.panels q := by
  obtain ⟨h1, e1, len1, c1⟩ := onPanel_spec (s := { s with mRowCount := s.mRowCount - 1 })
    (fun p => p.removeChild (.panel s.mLastRowPanel)) hg
  refine ⟨h1, ?_, len1, c1⟩
  have hne0 : s.mRowPanels ≠ [] := by
    intro hc; rw [hc] at hne; exact hne rfl
  have hpop : rowPanelsPop { s with mRowCount := s.mRowCount - 1, panels := h1 } =
      .ok { s with mRowCount := s.mRowCount - 1, panels := h1,
                   mRowPanels := s.mRowPanels.dropLast } := by
    unfold rowPanelsPop
    split
    · rename_i hnil; exact absurd hnil hne0
    · rfl
  obtain ⟨p, hp⟩ : ∃ p, s.mRowPanels.dropLast.getLast? = some p := by
    cases hl : s.mRowPanels.dropLast.getLast? with
    | none => exact absurd (List.getLast?_eq_none_iff.mp hl) hne
    | some p => exact ⟨p, rfl⟩
  have hback : rowPanelsBack { s with mRowCount := s.mRowCount - 1, panels := h1,
                                      mRowPanels := s.mRowPanels.dropLast } = .ok p := by
    simp only [rowPanelsBack, hp]; rfl
  simp only [removeLastRow, e1, ok_bind, hpop, hback, hp, Option.getD_some]
  rfl

/-- Removing the last row reads `mRowPanels.back()` after the pop, so it only
returns when a second row is there. -/
theorem removeLastRow_ok_length {s s' : LLOutfitGallery} (h : removeLastRow s = .ok s') :
    2 ≤ s.mRowPanels.length := by
  simp only [removeLastRow, bind_eq_ok, pure_eq_ok] at h
  obtain ⟨a, h1, b, h2, p, h3, -⟩ := h
  have ea : a.mRowPanels = s.mRowPanels := by
    obtain ⟨q, y, -, -, rfl⟩ := onPanel_ok h1
    rfl
  unfold rowPanelsPop at h2
  split at h2
  · exact absurd h2 throw_ne_ok
  · cases h2
    unfold rowPanelsBack at h3
    split at h3
    · rename_i q hq
      have hq' : a.mRowPanels.dropLast.getLast? = some q := hq
      rw [ea] at hq'
      have hlen : s.mRowPanels.dropLast ≠ [] := by
        intro hc; rw [hc] at hq'; simp at hq'
      have := List.length_pos.mpr hlen
      rw [List.length_dropLast] at this
      omega
    · exact absurd h3 throw_ne_ok

/-! ## Row arithmetic for a positive column count -/

theorem rowCountFor_cast (n K : Nat) :
    rowCountFor (n : Int) (K : Int) = ((if n % K = 0 then n / K else n / K + 1 : Nat) : Int) := by
  unfold rowCountFor
  rw [Int.tmod_eq_emod (Int.ofNat_nonneg n) (Int.ofNat_nonneg K),
    Int.tdiv_eq_ediv (Int.ofNat_nonneg n) (Int.ofNat_nonneg K)]
  by_cases h : n % K = 0
  · have h' : (n : Int) % (K : Int) = 0 := by exact_mod_cast h
    rw [if_pos h, if_pos h']; norm_cast
  · have h' : ¬ (n : Int) % (K : Int) = 0 := by
      intro hc; apply h; exact_mod_cast hc
    rw [if_neg h, if_neg h']; norm_cast

theorem ceil_succ (n K : Nat) (_hK : 0 < K) :
    (if (n + 1) % K = 0 then (n + 1) / K else (n + 1) / K + 1) = n / K + 1 := by
  rw [Nat.succ_div]
  by_cases h : K ∣ n + 1
  · rw [if_pos h, if_pos (Nat.mod_eq_zero_of_dvd h)]
  · have h' : ¬ (n + 1) % K = 0 := fun hc => h (Nat.dvd_of_mod_eq_zero hc)
    rw [if_neg h, if_neg h']

/-- For `k > 0` the row count needed by `n + 1` items is `n / k + 1`. -/
theorem rowCountFor_succ (n : Nat) (k : Int) (hk : 0 < k) :
    rowCountFor ((n : Int) + 1) k = (((n / k.toNat + 1 : Nat)) : Int) := by
  obtain ⟨K, rfl⟩ := Int.eq_ofNat_of_zero_le (le_of_lt hk)
  have hK : 0 < K := by exact_mod_cast hk
  have e : ((n : Int) + 1) = ((n + 1 : Nat) : Int) := by push_cast; rfl
  rw [e, rowCountFor_cast, ceil_succ n K hK, Int.toNat_ofNat]

theorem rowCountFor_zero (k : Int) : rowCountFor 0 k = 0 := by
  unfold rowCountFor
  simp

/-- For `k > 0` a row is added for item number `n + 1` exactly when `n` is a
multiple of `k`. -/
theorem rowCountFor_step (n : Nat) (k : Int) (hk : 0 < k) :
    rowCountFor ((n : Int) + 1) k =
      if n % k.toNat = 0 then rowCountFor (n : Int) k + 1 else rowCountFor (n : Int) k := by
  rw [rowCountFor_succ n k hk]
  obtain ⟨K, rfl⟩ := Int.eq_ofNat_of_zero_le (le_of_lt hk)
  rw [rowCountFor_cast, Int.toNat_ofNat]
  by_cases h : n % K = 0
  · simp [h]
  · simp [h]

theorem tmod_cast (n : Nat) (k : Int) (hk : 0 < k) :
    Int.tmod (n : Int) k = (n : Int) % k :=
  Int.tmod_eq_emod (Int.ofNat_nonneg n) (le_of_lt hk)

theorem emod_zero_iff (n : Nat) (k : Int) (hk : 0 < k) :
    (n : Int) % k = 0 ↔ n % k.toNat = 0 := by
  obtain ⟨K, rfl⟩ := Int.eq_ofNat_of_zero_le (le_of_lt hk)
  rw [Int.toNat_ofNat]
  norm_cast

/-! ## `addToGallery` and `removeFromGalleryLast` keep the layout -/

/-- The two branches of `addToGallery` for a non-zero column count. -/
theorem addToGallery_unfold (s : LLOutfitGallery) (item : Nat) (hk : s.mItemsInRow ≠ 0) :
    addToGallery s item =
      if rowCountFor (s.mItemsAddedCount + 1) s.mItemsInRow ≠
          rowCountFor s.mItemsAddedCount s.mItemsInRow then
        forUpTo (rowCountFor s.mItemsAddedCount s.mItemsInRow) moveRowUp
            { s with mItemsAddedCount := s.mItemsAddedCount + 1,
                     mItemIndexMap := StdMap.assign s.mItemIndexMap item s.mItemsAddedCount }
          >>= fun a => addLastRow a
          >>= fun pr => addToRow
            { pr.2 with mLastRowPanel := pr.1, mRowPanels := pr.2.mRowPanels ++ [pr.1],
                        mItems := pr.2.mItems ++ [item] }
            pr.1 item (Int.tmod s.mItemsAddedCount pr.2.mItemsInRow)
            (mul32 pr.2.mHorizontalGap (Int.tmod s.mItemsAddedCount pr.2.mItemsInRow))
          >>= fun qs => reshapeGalleryPanel qs.2 (rowCountFor (s.mItemsAddedCount + 1) s.mItemsInRow)
      else
        addToRow
            { s with mItemsAddedCount := s.mItemsAddedCount + 1,
                     mItemIndexMap := StdMap.assign s.mItemIndexMap item s.mItemsAddedCount,
                     mItems := s.mItems ++ [item] }
            s.mLastRowPanel item (Int.tmod s.mItemsAddedCount s.mItemsInRow)
            (mul32 s.mHorizontalGap (Int.tmod s.mItemsAddedCount s.mItemsInRow))
          >>= fun qs => reshapeGalleryPanel qs.2 (rowCountFor (s.mItemsAddedCount + 1) s.mItemsInRow) := by
  unfold addToGallery
  simp only [hk, if_false, add_sub_cancel_right, bne_iff_ne, ne_eq, pure_bind, ite_not]

/-- The two branches of `removeFromGalleryLast` for a non-zero column count. -/
theorem removeFromGalleryLast_unfold (s : LLOutfitGallery) (item : Nat)
    (hk : s.mItemsInRow ≠ 0) :
    removeFromGalleryLast s item =
      itemAt { s with mItemsAddedCount := s.mItemsAddedCount - 1 } (s.mItemsAddedCount - 1)
        >>= fun it => removeFromLastRow { s with mItemsAddedCount := s.mItemsAddedCount - 1 } it
        >>= fun a => itemsPop a
        >>= fun a =>
          if rowCountFor (s.mItemsAddedCount - 1) s.mItemsInRow ≠
              rowCountFor s.mItemsAddedCount s.mItemsInRow then
            forUpTo (rowCountFor s.mItemsAddedCount s.mItemsInRow - 1) moveRowDown a
              >>= fun b => removeLastRow b
              >>= fun c => reshapeGalleryPanel c (rowCountFor (s.mItemsAddedCount - 1) s.mItemsInRow)
          else reshapeGalleryPanel a
            (rowCountFor (s.mItemsAddedCount - 1) s.mItemsInRow) := by
  unfold removeFromGalleryLast
  simp only [hk, if_false, bne_iff_ne, ne_eq, pure_bind, ite_not]

/-! ## The steps of an update, one at a time -/

theorem LayoutWith.galleryGet {cd : Int} {pend : Nat} {extra : Int} {sh : Bool}
    {s : LLOutfitGallery} (hL : LayoutWith cd pend extra sh s) :
    ∃ x, getPanel s.panels s.mGalleryPanel = some x :=
  getPanel_some_iff.mpr (hL.valid _ (List.mem_cons_self _ _))

theorem LayoutWith.rowGet {cd : Int} {pend : Nat} {extra : Int} {sh : Bool}
    {s : LLOutfitGallery} (hL : LayoutWith cd pend extra sh s) {p : Nat}
    (hp : p ∈ s.mRowPanels) : ∃ x, getPanel s.panels p = some x :=
  getPanel_some_iff.mpr (hL.valid _ (List.mem_cons_of_mem _ (List.mem_append_left _ hp)))

theorem LayoutWith.ipGet {cd : Int} {pend : Nat} {extra : Int} {sh : Bool}
    {s : LLOutfitGallery} (hL : LayoutWith cd pend extra sh s) {p : Nat}
    (hp : p ∈ s.mItemPanels) : ∃ x, getPanel s.panels p = some x :=
  getPanel_some_iff.mpr (hL.valid _ (List.mem_cons_of_mem _ (List.mem_append_right _ hp)))

theorem LayoutWith.row_ne_gallery {cd : Int} {pend : Nat} {extra : Int} {sh : Bool}
    {s : LLOutfitGallery} (hL : LayoutWith cd pend extra sh s) {p : Nat}
    (hp : p ∈ s.mRowPanels) : p ≠ s.mGalleryPanel := by
  intro hc
  have := (List.nodup_cons.mp hL.nodup).1
  exact this (hc ▸ List.mem_append_left _ hp)

theorem LayoutWith.ip_ne_gallery {cd : Int} {pend : Nat} {extra : Int} {sh : Bool}
    {s : LLOutfitGallery} (hL : LayoutWith cd pend extra sh s) {p : Nat}
    (hp : p ∈ s.mItemPanels) : p ≠ s.mGalleryPanel := by
  intro hc
  have := (List.nodup_cons.mp hL.nodup).1
  exact this (hc ▸ List.mem_append_right _ hp)

theorem LayoutWith.ip_ne_row {cd : Int} {pend : Nat} {extra : Int} {sh : Bool}
    {s : LLOutfitGallery} (hL : LayoutWith cd pend extra sh s) {p q : Nat}
    (hp : p ∈ s.mItemPanels) (hq : q ∈ s.mRowPanels) : p ≠ q := by
  intro hc
  have := (List.nodup_append.mp (List.nodup_cons.mp hL.nodup).2).2.2
  exact this hq (hc ▸ hp)

theorem LayoutWith.rowsNodup {cd : Int} {pend : Nat} {extra : Int} {sh : Bool}
    {s : LLOutfitGallery} (hL : LayoutWith cd pend extra sh s) : s.mRowPanels.Nodup :=
  (List.nodup_append.mp (List.nodup_cons.mp hL.nodup).2).1

theorem LayoutWith.ipsNodup {cd : Int} {pend : Nat} {extra : Int} {sh : Bool}
    {s : LLOutfitGallery} (hL : LayoutWith cd pend extra sh s) : s.mItemPanels.Nodup :=
  (List.nodup_append.mp (List.nodup_cons.mp hL.nodup).2).2.1

theorem mem_of_getElem? {l : List Nat} {i a : Nat} (h : l[i]? = some a) : a ∈ l := by
  obtain ⟨h1, rfl⟩ := List.getElem?_eq_some_iff.mp h
  exact List.getElem_mem h1

/-- Reshaping the gallery panel to the current row count completes an update. -/
theorem reshape_step {s : LLOutfitGallery} (hL : LayoutWith 0 0 0 false s) (rc : Int)
    (hrc : rc = s.mRowCount) :
    ∃ s', reshapeGalleryPanel s rc = .ok s' ∧ Layout s' := by
  obtain ⟨xg, hxg⟩ := hL.galleryGet
  obtain ⟨h', e, len, c⟩ := reshapeGalleryPanel_spec rc hxg
  refine ⟨_, e, ?_⟩
  exact
    { inRow := hL.inRow
      count := hL.count
      ipLen := hL.ipLen
      rowLen := hL.rowLen
      rowCount := hL.rowCount
      last := hL.last
      valid := fun p hp => by
        have := hL.valid p hp
        show 1 ≤ p ∧ p ≤ h'.length
        rw [len]; exact this
      nodup := hL.nodup
      rows := fun r p hp => by
        obtain ⟨x, hx, hr⟩ := hL.rows r p hp
        refine ⟨x, ?_, hr⟩
        show getPanel h' p = some x
        rw [c, if_neg (hL.row_ne_gallery (mem_of_getElem? hp)), hx]
      cells := fun i p item hp hi => by
        obtain ⟨x, hx, hr, hc, rp, y, hrp, hy, hm⟩ := hL.cells i p item hp hi
        refine ⟨x, ?_, hr, hc, rp, y, hrp, ?_, hm⟩
        · show getPanel h' p = some x
          rw [c, if_neg (hL.ip_ne_gallery (mem_of_getElem? hp)), hx]
        · show getPanel h' rp = some y
          rw [c, if_neg (hL.row_ne_gallery (mem_of_getElem? hrp)), hy]
      gallery := fun _ _ => by
        refine ⟨{ xg with mRect := galleryRectFor s rc }, ?_, ?_⟩
        · show getPanel h' s.mGalleryPanel = _
          rw [c, if_pos rfl]
        · rw [hrc]; rfl }

/-- The counter of `addToGallery` runs ahead of the vectors. -/
theorem add_count_step {s : LLOutfitGallery} {sh : Bool} (hL : LayoutWith 0 0 0 sh s)
    (m : List (Nat × Int)) :
    LayoutWith 1 0 (-1) false
      { s with mItemsAddedCount := s.mItemsAddedCount + 1, mItemIndexMap := m } :=
  { inRow := hL.inRow
    count := by
      show s.mItemsAddedCount + 1 = (s.mItems.length : Int) + 1
      rw [hL.count]; simp
    ipLen := hL.ipLen
    rowLen := by
      show (s.mRowPanels.length : Int) = rowCountFor (s.mItemsAddedCount + 1 + -1) s.mItemsInRow
      rw [hL.rowLen]; simp
    rowCount := hL.rowCount
    last := hL.last
    valid := hL.valid
    nodup := hL.nodup
    rows := hL.rows
    cells := hL.cells
    gallery := fun h => by cases h }

/-- The counter of `removeFromGalleryLast` runs behind the vectors. -/
theorem remove_count_step {s : LLOutfitGallery} {sh : Bool} (hL : LayoutWith 0 0 0 sh s) :
    LayoutWith (-1) 0 1 false { s with mItemsAddedCount := s.mItemsAddedCount - 1 } :=
  { inRow := hL.inRow
    count := by
      show s.mItemsAddedCount - 1 = (s.mItems.length : Int) + -1
      rw [hL.count]; simp; ring
    ipLen := hL.ipLen
    rowLen := by
      show (s.mRowPanels.length : Int) = rowCountFor (s.mItemsAddedCount - 1 + 1) s.mItemsInRow
      rw [hL.rowLen]; simp
    rowCount := hL.rowCount
    last := hL.last
    valid := hL.valid
    nodup := hL.nodup
    rows := hL.rows
    cells := hL.cells
    gallery := fun h => by cases h }

/-- Pushing the item on `mItems` leaves it waiting for its panel. -/
theorem append_item_step {s : LLOutfitGallery} (hL : LayoutWith 1 0 0 false s) (item : Nat) :
    LayoutWith 0 1 0 false { s with mItems := s.mItems ++ [item] } :=
  { inRow := hL.inRow
    count := by
      show s.mItemsAddedCount = ((s.mItems ++ [item]).length : Int) + 0
      rw [hL.count]; simp
    ipLen := by
      show s.mItemPanels.length + 1 = (s.mItems ++ [item]).length
      have := hL.ipLen
      simp only [List.length_append, List.length_singleton]; omega
    rowLen := hL.rowLen
    rowCount := hL.rowCount
    last := hL.last
    valid := hL.valid
    nodup := hL.nodup
    rows := hL.rows
    cells := fun i p it hp hi => by
      have hlt : i < s.mItems.length := by
        have h1 : i < s.mItemPanels.length := lt_length_of_getElem? hp
        have := hL.ipLen
        omega
      have hi' : s.mItems[i]? = some it := by
        have : (s.mItems ++ [item])[i]? = some it := hi
        rwa [List.getElem?_append_left hlt] at this
      exact hL.cells i p it hp hi'
    gallery := fun h => by cases h }

/-- Popping `mItems` after its panel is gone. -/
theorem pop_item_step {s : LLOutfitGallery} (hL : LayoutWith (-1) 1 1 false s) :
    LayoutWith 0 0 1 false { s with mItems := s.mItems.dropLast } ∧
      itemsPop s = .ok { s with mItems := s.mItems.dropLast } := by
  have hne : s.mItems ≠ [] := by
    intro hc
    have := hL.ipLen
    rw [hc] at this; simp at this
  have e : itemsPop s = .ok { s with mItems := s.mItems.dropLast } := by
    unfold itemsPop
    split
    · rename_i hnil; exact absurd hnil hne
    · rfl
  refine ⟨?_, e⟩
  have hlen : s.mItems.dropLast.length + 1 = s.mItems.length := by
    rw [List.length_dropLast]
    have := List.length_pos.mpr hne
    omega
  exact
    { inRow := hL.inRow
      count := by
        show s.mItemsAddedCount = (s.mItems.dropLast.length : Int) + 0
        rw [hL.count, ← hlen]; push_cast; ring
      ipLen := by
        show s.mItemPanels.length + 0 = s.mItems.dropLast.length
        have := hL.ipLen
        omega
      rowLen := hL.rowLen
      rowCount := hL.rowCount
      last := hL.last
      valid := hL.valid
      nodup := hL.nodup
      rows := hL.rows
      cells := fun i p it hp hi => by
        have hi' : s.mItems[i]? = some it := by
          have h1 : s.mItems.dropLast[i]? = some it := hi
          rw [List.getElem?_dropLast] at h1
          split at h1
          · exact h1
          · cases h1
        exact hL.cells i p it hp hi'
      gallery := fun h => by cases h }

/-! ## The heap effects as separate facts -/

theorem reshapeGalleryPanel_facts {s : LLOutfitGallery} {x : LLPanel} (row_count : Int)
    (hg : getPanel s.panels s.mGalleryPanel = some x) :
    ∃ h', reshapeGalleryPanel s row_count = .ok { s with panels := h' } ∧
      h'.length = s.panels.length ∧
      getPanel h' s.mGalleryPanel = some { x with mRect := galleryRectFor s row_count } ∧
      ∀ q, q ≠ s.mGalleryPanel → getPanel h' q = getPanel s.panels q := by
  obtain ⟨h', e, len, c⟩ := reshapeGalleryPanel_spec row_count hg
  refine ⟨h', e, len, ?_, ?_⟩
  · rw [c, if_pos rfl]
  · intro q hq; rw [c, if_neg hq]

theorem addLastRow_facts {s : LLOutfitGallery} {x : LLPanel}
    (hg : getPanel s.panels s.mGalleryPanel = some x) :
    ∃ h', addLastRow s =
        .ok (s.panels.length + 1, { s with panels := h', mRowCount := s.mRowCount + 1 }) ∧
      h'.length = s.panels.length + 1 ∧
      getPanel h' s.mGalleryPanel = some (x.addChild (.panel (s.panels.length + 1))) ∧
      getPanel h' (s.panels.length + 1) = some ⟨rowRectAt s 0, []⟩ ∧
      ∀ q, q ≠ s.mGalleryPanel → q ≠ s.panels.length + 1 →
        getPanel h' q = getPanel s.panels q := by
  obtain ⟨h', e, len, c⟩ := addLastRow_spec hg
  refine ⟨h', e, len, ?_, ?_, ?_⟩
  · rw [c, if_pos rfl]
  · rw [c, if_neg (Ne.symm (ne_fresh_of_get hg)), if_pos rfl]
  · intro q hq1 hq2; rw [c, if_neg hq1, if_neg hq2]

theorem addToRow_facts {s : LLOutfitGallery} {row : Nat} {y : LLPanel} (item : Nat) (pos : Int)
    (hr : getPanel s.panels row = some y) :
    ∃ h', addToRow s row item pos (mul32 s.mHorizontalGap pos) =
        .ok (s.panels.length + 1,
          { s with panels := h', mItemPanels := s.mItemPanels ++ [s.panels.length + 1] }) ∧
      h'.length = s.panels.length + 1 ∧
      getPanel h' row = some (y.addChild (.panel (s.panels.length + 1))) ∧
      getPanel h' (s.panels.length + 1) = some ⟨itemRectAt s pos, [.item item]⟩ ∧
      ∀ q, q ≠ row → q ≠ s.panels.length + 1 → getPanel h' q = getPanel s.panels q := by
  obtain ⟨h', e, len, c⟩ := addToRow_spec item pos hr
  refine ⟨h', e, len, ?_, ?_, ?_⟩
  · rw [c, if_pos rfl]
  · rw [c, if_neg (Ne.symm (ne_fresh_of_get hr)), if_pos rfl]
  · intro q hq1 hq2; rw [c, if_neg hq1, if_neg hq2]

theorem removeFromLastRow_facts {s : LLOutfitGallery} {ip : Nat} {x y : LLPanel} (item : Nat)
    (hip : s.mItemPanels.getLast? = some ip) (hx : getPanel s.panels ip = some x)
    (hy : getPanel s.panels s.mLastRowPanel = some y) (hne : s.mLastRowPanel ≠ ip) :
    ∃ h', removeFromLastRow s item =
        .ok { s with panels := h', mItemPanels := s.mItemPanels.dropLast } ∧
      h'.length = s.panels.length ∧
      getPanel h' s.mLastRowPanel = some (y.removeChild (.panel ip)) ∧
      ∀ q, q ≠ s.mLastRowPanel → q ≠ ip → getPanel h' q = getPanel s.panels q := by
  obtain ⟨h', e, len, c⟩ := removeFromLastRow_spec item hip hx hy hne
  refine ⟨h', e, len, ?_, ?_⟩
  · rw [c, if_pos rfl]
  · intro q hq1 hq2; rw [c, if_neg hq1, if_neg hq2]

theorem removeLastRow_facts {s : LLOutfitGallery} {x : LLPanel}
    (hg : getPanel s.panels s.mGalleryPanel = some x) (hne : s.mRowPanels.dropLast ≠ []) :
    ∃ h', removeLastRow s =
        .ok { s with panels := h', mRowCount := s.mRowCount - 1,
                     mRowPanels := s.mRowPanels.dropLast,
                     mLastRowPanel := s.mRowPanels.dropLast.getLast?.getD 0 } ∧
      h'.length = s.panels.length ∧
      ∀ q, q ≠ s.mGalleryPanel → getPanel h' q = getPanel s.panels q := by
  obtain ⟨h', e, len, c⟩ := removeLastRow_spec hg hne
  refine ⟨h', e, len, ?_⟩
  intro q hq; rw [c, if_neg hq]

theorem nodup_rows_snoc {g p : Nat} {rows ips : List Nat} (h : (g :: (rows ++ ips)).Nodup)
    (hp : p ∉ g :: (rows ++ ips)) : (g :: ((rows ++ [p]) ++ ips)).Nodup := by
  have h1 : (p :: g :: (rows ++ ips)).Nodup := List.nodup_cons.mpr ⟨hp, h⟩
  have hperm : List.Perm (g :: ((rows ++ [p]) ++ ips)) (p :: g :: (rows ++ ips)) := by
    refine List.Perm.trans (List.Perm.cons g ?_) (List.Perm.swap p g _)
    rw [List.append_assoc]
    exact List.perm_middle
  exact hperm.nodup_iff.mpr h1

theorem nodup_ips_snoc {g q : Nat} {rows ips : List Nat} (h : (g :: (rows ++ ips)).Nodup)
    (hq : q ∉ g :: (rows ++ ips)) : (g :: (rows ++ (ips ++ [q]))).Nodup := by
  have h1 : (q :: g :: (rows ++ ips)).Nodup := List.nodup_cons.mpr ⟨hq, h⟩
  have hperm : List.Perm (g :: (rows ++ (ips ++ [q]))) (q :: g :: (rows ++ ips)) := by
    refine List.Perm.trans (List.Perm.cons g ?_) (List.Perm.swap q g _)
    rw [← List.append_assoc]
    exact List.perm_append_singleton q (rows ++ ips)
  exact hperm.nodup_iff.mpr h1

theorem fresh_not_mem {l : List Nat} {n : Nat} (h : ∀ p, p ∈ l → 1 ≤ p ∧ p ≤ n) :
    n + 1 ∉ l := fun hc => by
  have := (h _ hc).2
  omega

/-- Relabelling the row bookkeeping when the two row counts agree. -/
theorem LayoutWith.relabel {cd : Int} {pend : Nat} {extra extra' : Int} {sh : Bool}
    {s : LLOutfitGallery} (hL : LayoutWith cd pend extra sh s)
    (h : rowCountFor (s.mItemsAddedCount + extra) s.mItemsInRow =
      rowCountFor (s.mItemsAddedCount + extra') s.mItemsInRow) :
    LayoutWith cd pend extra' sh s :=
  { inRow := hL.inRow
    count := hL.count
    ipLen := hL.ipLen
    rowLen := by rw [hL.rowLen, h]
    rowCount := hL.rowCount
    last := hL.last
    valid := hL.valid
    nodup := hL.nodup
    rows := hL.rows
    cells := hL.cells
    gallery := hL.gallery }

/-- The new-row branch of `addToGallery`: the rows move up and a row is appended. -/
theorem new_row_step {s : LLOutfitGallery} (hL : LayoutWith 1 0 (-1) false s) (bound : Int)
    (hb : bound = (s.mRowPanels.length : Int))
    (hrc : rowCountFor (s.mItemsAddedCount + 0) s.mItemsInRow =
      rowCountFor (s.mItemsAddedCount + -1) s.mItemsInRow + 1) :
    ∃ a p b, forUpTo bound moveRowUp s = .ok a ∧ addLastRow a = .ok (p, b) ∧
      LayoutWith 1 0 0 false
        { b with mLastRowPanel := p, mRowPanels := b.mRowPanels ++ [p] } := by
  obtain ⟨h1, e1, len1, a1, b1⟩ :=
    moveRows_spec (fun R r => R - 1 - r + 1) moveRowUp (fun _ _ => rfl) s
      (fun p hp => hL.rowGet hp) hL.rowsNodup s.mRowPanels.length (Nat.le_refl _)
  have e1' : forUpTo bound moveRowUp s = .ok { s with panels := h1 } := by
    unfold forUpTo; rw [hb, Int.toNat_ofNat]; exact e1
  obtain ⟨xg, hxg⟩ := hL.galleryGet
  have hg1 : getPanel h1 s.mGalleryPanel = some xg := by
    rw [b1 _ (fun r _ hc => hL.row_ne_gallery (mem_of_getElem? hc) rfl), hxg]
  obtain ⟨h2, e2, len2, c2g, c2p, c2o⟩ := addLastRow_facts (s := { s with panels := h1 }) hg1
  refine ⟨_, _, _, e1', e2, ?_⟩
  have hfresh : h1.length + 1 ∉ s.mGalleryPanel :: (s.mRowPanels ++ s.mItemPanels) := by
    rw [len1]; exact fresh_not_mem hL.valid
  have hfr : ∀ p, p ∈ s.mGalleryPanel :: (s.mRowPanels ++ s.mItemPanels) → p ≠ h1.length + 1 :=
    fun p hp hc => hfresh (hc ▸ hp)
  have hrowfr : ∀ p, p ∈ s.mRowPanels → p ≠ h1.length + 1 := fun p hp =>
    hfr p (List.mem_cons_of_mem _ (List.mem_append_left _ hp))
  have hipfr : ∀ p, p ∈ s.mItemPanels → p ≠ h1.length + 1 := fun p hp =>
    hfr p (List.mem_cons_of_mem _ (List.mem_append_right _ hp))
  exact
    { inRow := hL.inRow
      count := hL.count
      ipLen := hL.ipLen
      rowLen := by
        show (((s.mRowPanels ++ [h1.length + 1]).length : Nat) : Int) =
          rowCountFor (s.mItemsAddedCount + 0) s.mItemsInRow
        rw [hrc, ← hL.rowLen]; simp
      rowCount := by
        show s.mRowCount + 1 = (((s.mRowPanels ++ [h1.length + 1]).length : Nat) : Int)
        rw [hL.rowCount]; simp
      last := fun p hp => by
        have : (s.mRowPanels ++ [h1.length + 1]).getLast? = some p := hp
        rw [List.getLast?_append, List.getLast?_singleton] at this
        simpa using this
      valid := fun p hp => by
        show 1 ≤ p ∧ p ≤ h2.length
        rw [len2]
        have hp' : p ∈ s.mGalleryPanel :: ((s.mRowPanels ++ [h1.length + 1]) ++ s.mItemPanels) := hp
        simp only [List.mem_cons, List.mem_append, List.mem_singleton, List.not_mem_nil,
          or_false] at hp'
        show 1 ≤ p ∧ p ≤ h1.length + 1
        rcases hp' with h | (h | h) | h
        · have := hL.valid p (h ▸ List.mem_cons_self _ _)
          omega
        · have := hL.valid p (List.mem_cons_of_mem _ (List.mem_append_left _ h))
          omega
        · omega
        · have := hL.valid p (List.mem_cons_of_mem _ (List.mem_append_right _ h))
          omega
      nodup := nodup_rows_snoc hL.nodup hfresh
      rows := fun r p hp => by
        have hp' : (s.mRowPanels ++ [h1.length + 1])[r]? = some p := hp
        show ∃ x, getPanel h2 p = some x ∧
          x.mRect = rowRectAt s (s.mRowCount + 1 - 1 - r)
        by_cases hr : r < s.mRowPanels.length
        · rw [List.getElem?_append_left hr] at hp'
          obtain ⟨x, hx, hx1⟩ := a1 r p hr hp'
          have hpm := mem_of_getElem? hp'
          refine ⟨{ x with mRect := rowRectAt s (s.mRowCount - 1 - r + 1) }, ?_, ?_⟩
          · rw [c2o p (hL.row_ne_gallery hpm) (hrowfr p hpm), hx1]
          · show rowRectAt s (s.mRowCount - 1 - r + 1) = rowRectAt s (s.mRowCount + 1 - 1 - r)
            congr 1; ring
        · have hlen := lt_length_of_getElem? hp'
          simp only [List.length_append, List.length_singleton] at hlen
          have hr' : r = s.mRowPanels.length := by omega
          subst hr'
          rw [List.getElem?_append_right (Nat.le_refl _)] at hp'
          simp only [Nat.sub_self, List.getElem?_cons_zero, Option.some.injEq] at hp'
          subst hp'
          refine ⟨⟨rowRectAt s 0, []⟩, c2p, ?_⟩
          show rowRectAt s 0 = rowRectAt s (s.mRowCount + 1 - 1 - (s.mRowPanels.length : Int))
          congr 1; rw [hL.rowCount]; ring
      cells := fun i p item hp hi => by
        obtain ⟨x, hx, hr, hc, rp, y, hrp, hy, hm⟩ := hL.cells i p item hp hi
        have hpm := mem_of_getElem? hp
        have hrpm := mem_of_getElem? hrp
        obtain ⟨y', hy1, hy2⟩ := a1 _ rp (lt_length_of_getElem? hrp) hrp
        rw [hy] at hy1; cases hy1
        refine ⟨x, ?_, hr, hc, rp, { y with mRect := rowRectAt s (s.mRowCount - 1 - ((i / s.mItemsInRow.toNat : Nat) : Int) + 1) }, ?_, ?_, hm⟩
        · show getPanel h2 p = some x
          rw [c2o p (hL.ip_ne_gallery hpm) (hipfr p hpm),
            b1 p (fun r _ hc => hL.ip_ne_row hpm (mem_of_getElem? hc) rfl), hx]
        · show (s.mRowPanels ++ [h1.length + 1])[i / s.mItemsInRow.toNat]? = some rp
          rw [List.getElem?_append_left (lt_length_of_getElem? hrp)]; exact hrp
        · show getPanel h2 rp = _
          rw [c2o rp (hL.row_ne_gallery hrpm) (hrowfr rp hrpm), hy2]
      gallery := fun h => by cases h }

theorem getLast?_eq_of_length {l : List Nat} {n : Nat} (h : l.length = n + 1) :
    l.getLast? = l[n]? := by
  rw [List.getLast?_eq_getElem?, h]; rfl

/-- The item waiting for its panel gets one in the last row. -/
theorem add_panel_step {s : LLOutfitGallery} (hL : LayoutWith 0 1 0 false s) (item : Nat)
    (pos : Int) (hitem : s.mItems[s.mItemPanels.length]? = some item)
    (hpos : pos = (s.mItemPanels.length : Int) % s.mItemsInRow) :
    ∃ q s', addToRow s s.mLastRowPanel item pos (mul32 s.mHorizontalGap pos) = .ok (q, s') ∧
      LayoutWith 0 0 0 false s' := by
  have hk := hL.inRow
  have hcnt : s.mItemsAddedCount = (s.mItemPanels.length : Int) + 1 := by
    rw [hL.count, ← hL.ipLen]; push_cast; ring
  have hR : s.mRowPanels.length = s.mItemPanels.length / s.mItemsInRow.toNat + 1 := by
    have h1 := hL.rowLen
    rw [hcnt, add_zero, rowCountFor_succ _ _ hk] at h1
    exact_mod_cast h1
  have hlastget : s.mRowPanels.getLast? =
      s.mRowPanels[s.mItemPanels.length / s.mItemsInRow.toNat]? := getLast?_eq_of_length hR
  have hidx : s.mItemPanels.length / s.mItemsInRow.toNat < s.mRowPanels.length := by omega
  have hrow : s.mRowPanels[s.mItemPanels.length / s.mItemsInRow.toNat]? =
      some s.mLastRowPanel := by
    rw [List.getElem?_eq_getElem hidx]
    congr 1
    exact (hL.last _ (by rw [hlastget, List.getElem?_eq_getElem hidx])).symm
  have hlm : s.mLastRowPanel ∈ s.mRowPanels := mem_of_getElem? hrow
  obtain ⟨y, hy⟩ := hL.rowGet hlm
  obtain ⟨h', e, len, cr, cq, co⟩ := addToRow_facts item pos hy
  refine ⟨_, _, e, ?_⟩
  have hfresh : s.panels.length + 1 ∉ s.mGalleryPanel :: (s.mRowPanels ++ s.mItemPanels) :=
    fresh_not_mem hL.valid
  have hfr : ∀ p, p ∈ s.mGalleryPanel :: (s.mRowPanels ++ s.mItemPanels) →
      p ≠ s.panels.length + 1 := fun p hp hc => hfresh (hc ▸ hp)
  have hrowfr : ∀ p, p ∈ s.mRowPanels → p ≠ s.panels.length + 1 := fun p hp =>
    hfr p (List.mem_cons_of_mem _ (List.mem_append_left _ hp))
  have hipfr : ∀ p, p ∈ s.mItemPanels → p ≠ s.panels.length + 1 := fun p hp =>
    hfr p (List.mem_cons_of_mem _ (List.mem_append_right _ hp))
  have hrowget : ∀ p x, p ∈ s.mRowPanels → getPanel s.panels p = some x →
      ∃ x', getPanel h' p = some x' ∧ x'.mRect = x.mRect ∧
        ∀ c, c ∈ x.mChildren → c ∈ x'.mChildren := by
    intro p x hp hx
    by_cases hpl : p = s.mLastRowPanel
    · subst hpl
      rw [hy] at hx; cases hx
      exact ⟨_, cr, rfl, fun c hc => List.mem_cons_of_mem _ hc⟩
    · exact ⟨x, by rw [co p hpl (hrowfr p hp), hx], rfl, fun c hc => hc⟩
  exact
    { inRow := hL.inRow
      count := hL.count
      ipLen := by
        show (s.mItemPanels ++ [s.panels.length + 1]).length + 0 = s.mItems.length
        have := hL.ipLen
        simp only [List.length_append, List.length_singleton]; omega
      rowLen := hL.rowLen
      rowCount := hL.rowCount
      last := hL.last
      valid := fun p hp => by
        show 1 ≤ p ∧ p ≤ h'.length
        rw [len]
        have hp' : p ∈ s.mGalleryPanel :: (s.mRowPanels ++ (s.mItemPanels ++ [s.panels.length + 1])) := hp
        simp only [List.mem_cons, List.mem_append, List.mem_singleton, List.not_mem_nil,
          or_false] at hp'
        rcases hp' with h | h | h | h
        · have := hL.valid p (h ▸ List.mem_cons_self _ _)
          omega
        · have := hL.valid p (List.mem_cons_of_mem _ (List.mem_append_left _ h))
          omega
        · have := hL.valid p (List.mem_cons_of_mem _ (List.mem_append_right _ h))
          omega
        · omega
      nodup := nodup_ips_snoc hL.nodup hfresh
      rows := fun r p hp => by
        obtain ⟨x, hx, hr⟩ := hL.rows r p hp
        obtain ⟨x', hx', hr', -⟩ := hrowget p x (mem_of_getElem? hp) hx
        exact ⟨x', hx', by rw [hr', hr]; rfl⟩
      cells := fun i p it hp hi => by
        have hp' : (s.mItemPanels ++ [s.panels.length + 1])[i]? = some p := hp
        have hi' : s.mItems[i]? = some it := hi
        show ∃ x, getPanel h' p = some x ∧ x.mRect = itemRectAt s ((i : Int) % s.mItemsInRow) ∧
          LLView.item it ∈ x.mChildren ∧
          ∃ rp y, s.mRowPanels[i / s.mItemsInRow.toNat]? = some rp ∧
            getPanel h' rp = some y ∧ LLView.panel p ∈ y.mChildren
        by_cases hlt : i < s.mItemPanels.length
        · rw [List.getElem?_append_left hlt] at hp'
          obtain ⟨x, hx, hr, hc, rp, y0, hrp, hy0, hm⟩ := hL.cells i p it hp' hi'
          have hpm := mem_of_getElem? hp'
          obtain ⟨y', hy', -, hch⟩ := hrowget rp y0 (mem_of_getElem? hrp) hy0
          refine ⟨x, ?_, hr, hc, rp, y', hrp, hy', hch _ hm⟩
          rw [co p (hL.ip_ne_row hpm hlm) (hipfr p hpm), hx]
        · have hlen := lt_length_of_getElem? hp'
          simp only [List.length_append, List.length_singleton] at hlen
          have hi2 : i = s.mItemPanels.length := by omega
          subst hi2
          rw [List.getElem?_append_right (Nat.le_refl _)] at hp'
          simp only [Nat.sub_self, List.getElem?_cons_zero, Option.some.injEq] at hp'
          subst hp'
          rw [hitem] at hi'; cases hi'
          refine ⟨_, cq, by rw [hpos], List.mem_singleton.mpr rfl, s.mLastRowPanel, _, hrow, cr,
            List.mem_cons_self _ _⟩
      gallery := fun h => by cases h }

theorem LayoutFrame.mHorizontalGap {s s' : LLOutfitGallery} (h : LayoutFrame s s') :
    s'.mHorizontalGap = s.mHorizontalGap := by unfold LayoutFrame at h; rw [h]

/-- The call `addToGallery` returns, whatever the item, and keeps the layout. -/
theorem addToGallery_layout {s : LLOutfitGallery} (hL : Layout s) (item : Nat) :
    ∃ s', addToGallery s item = .ok s' ∧ Layout s' := by
  have hk := hL.inRow
  have hk0 : s.mItemsInRow ≠ 0 := ne_of_gt hk
  have hcnt : s.mItemsAddedCount = (s.mItems.length : Int) := by rw [hL.count]; simp
  have hstep := rowCountFor_step s.mItems.length s.mItemsInRow hk
  rw [← hcnt] at hstep
  have hL1 := add_count_step hL (StdMap.assign s.mItemIndexMap item s.mItemsAddedCount)
  rw [addToGallery_unfold s item hk0]
  by_cases hrow : rowCountFor (s.mItemsAddedCount + 1) s.mItemsInRow ≠
      rowCountFor s.mItemsAddedCount s.mItemsInRow
  · rw [if_pos hrow]
    have hrc1 : rowCountFor (s.mItemsAddedCount + 1) s.mItemsInRow =
        rowCountFor s.mItemsAddedCount s.mItemsInRow + 1 := by
      rw [hstep]; split
      · rfl
      · rename_i hne; rw [hstep, if_neg hne] at hrow; exact absurd rfl hrow
    have hb : rowCountFor s.mItemsAddedCount s.mItemsInRow = (s.mRowPanels.length : Int) := by
      rw [hL.rowLen]; simp
    obtain ⟨a, p, b, ea, eb, hL2⟩ := new_row_step hL1
      (rowCountFor s.mItemsAddedCount s.mItemsInRow) hb
      (by
        show rowCountFor (s.mItemsAddedCount + 1 + 0) s.mItemsInRow =
          rowCountFor (s.mItemsAddedCount + 1 + -1) s.mItemsInRow + 1
        simpa using hrc1)
    have fr := LayoutFrame.trans (forUpTo_frame (fun _ _ _ => moveRow_frame) _ _ _ ea)
      (addLastRow_frame eb)
    have hbc : b.mItemsAddedCount = s.mItemsAddedCount + 1 := fr.mItemsAddedCount
    have hbk : b.mItemsInRow = s.mItemsInRow := fr.mItemsInRow
    have hbi : b.mItems = s.mItems := fr.mItems
    have hL3 := append_item_step hL2 item
    have hipl : b.mItemPanels.length = s.mItems.length := by
      have := hL2.ipLen
      simp only at this
      rw [hbi] at this; omega
    obtain ⟨q, s4, e4, hL4⟩ := add_panel_step hL3 item
      (Int.tmod s.mItemsAddedCount b.mItemsInRow)
      (by
        show (b.mItems ++ [item])[b.mItemPanels.length]? = some item
        rw [hipl, hbi, List.getElem?_append_right (Nat.le_refl _)]; simp)
      (by
        show Int.tmod s.mItemsAddedCount b.mItemsInRow =
          (b.mItemPanels.length : Int) % b.mItemsInRow
        rw [hipl, hbk, hcnt]; exact tmod_cast _ _ hk)
    have fr4 := addToRow_frame e4
    obtain ⟨s5, e5, hL5⟩ := reshape_step hL4
      (rowCountFor (s.mItemsAddedCount + 1) s.mItemsInRow)
      (by
        rw [hL4.rowCount, hL4.rowLen, fr4.mItemsAddedCount, fr4.mItemsInRow]
        show _ = rowCountFor (b.mItemsAddedCount + 0) b.mItemsInRow
        rw [hbc, hbk]; simp)
    exact ⟨s5, bind_eq_ok.mpr ⟨a, ea, bind_eq_ok.mpr ⟨(p, b), eb,
      bind_eq_ok.mpr ⟨(q, s4), e4, e5⟩⟩⟩, hL5⟩
  · rw [if_neg hrow]
    have hsame : rowCountFor (s.mItemsAddedCount + 1) s.mItemsInRow =
        rowCountFor s.mItemsAddedCount s.mItemsInRow := not_not.mp hrow
    have hL2 : LayoutWith 1 0 0 false
        { s with mItemsAddedCount := s.mItemsAddedCount + 1,
                 mItemIndexMap := StdMap.assign s.mItemIndexMap item s.mItemsAddedCount } :=
      hL1.relabel (by
        show rowCountFor (s.mItemsAddedCount + 1 + -1) s.mItemsInRow =
          rowCountFor (s.mItemsAddedCount + 1 + 0) s.mItemsInRow
        simpa using hsame.symm)
    have hL3 := append_item_step hL2 item
    have hipl : s.mItemPanels.length = s.mItems.length := by
      have := hL.ipLen; omega
    obtain ⟨q, s4, e4, hL4⟩ := add_panel_step hL3 item
      (Int.tmod s.mItemsAddedCount s.mItemsInRow)
      (by
        show (s.mItems ++ [item])[s.mItemPanels.length]? = some item
        rw [hipl, List.getElem?_append_right (Nat.le_refl _)]; simp)
      (by
        show Int.tmod s.mItemsAddedCount s.mItemsInRow =
          (s.mItemPanels.length : Int) % s.mItemsInRow
        rw [hipl, hcnt]; exact tmod_cast _ _ hk)
    have fr4 := addToRow_frame e4
    obtain ⟨s5, e5, hL5⟩ := reshape_step hL4
      (rowCountFor (s.mItemsAddedCount + 1) s.mItemsInRow)
      (by
        rw [hL4.rowCount, hL4.rowLen, fr4.mItemsAddedCount, fr4.mItemsInRow]
        show _ = rowCountFor (s.mItemsAddedCount + 1 + 0) s.mItemsInRow
        simp)
    exact ⟨s5, bind_eq_ok.mpr ⟨(q, s4), e4, e5⟩, hL5⟩

theorem rowCountFor_nonneg (n : Nat) (k : Int) (hk : 0 < k) : 0 ≤ rowCountFor (n : Int) k := by
  obtain ⟨K, rfl⟩ := Int.eq_ofNat_of_zero_le (le_of_lt hk)
  rw [rowCountFor_cast]
  exact Int.ofNat_nonneg _

theorem rowCountFor_of_dvd (n : Nat) (k : Int) (hk : 0 < k) (h : n % k.toNat = 0) :
    rowCountFor (n : Int) k = ((n / k.toNat : Nat) : Int) := by
  obtain ⟨K, rfl⟩ := Int.eq_ofNat_of_zero_le (le_of_lt hk)
  rw [Int.toNat_ofNat] at h ⊢
  rw [rowCountFor_cast, if_pos h]

theorem nodup_dropLast_ips {g : Nat} {rows ips : List Nat} (h : (g :: (rows ++ ips)).Nodup) :
    (g :: (rows ++ ips.dropLast)).Nodup :=
  h.sublist ((List.Sublist.append_left (List.dropLast_sublist ips) rows).cons₂ g)

theorem nodup_dropLast_rows {g : Nat} {rows ips : List Nat} (h : (g :: (rows ++ ips)).Nodup) :
    (g :: (rows.dropLast ++ ips)).Nodup :=
  h.sublist ((List.Sublist.append_right (List.dropLast_sublist rows) ips).cons₂ g)

theorem getElem?_of_dropLast {l : List Nat} {i a : Nat} (h : l.dropLast[i]? = some a) :
    l[i]? = some a ∧ i + 1 < l.length := by
  rw [List.getElem?_dropLast] at h
  split at h
  · exact ⟨h, by omega⟩
  · cases h

/-- The last item panel leaves its row. -/
theorem remove_panel_step {s : LLOutfitGallery} (hL : LayoutWith (-1) 0 1 false s)
    (hne : s.mItems ≠ []) (item : Nat) :
    ∃ s', removeFromLastRow s item = .ok s' ∧ LayoutWith (-1) 1 1 false s' := by
  have hk := hL.inRow
  have hlen : 0 < s.mItems.length := List.length_pos.mpr hne
  have hip : s.mItemPanels.length = s.mItems.length := by have := hL.ipLen; omega
  have hipl : s.mItemPanels.getLast? = s.mItemPanels[s.mItems.length - 1]? :=
    getLast?_eq_of_length (by omega)
  have hipidx : s.mItems.length - 1 < s.mItemPanels.length := by omega
  have hipget : s.mItemPanels.getLast? = some s.mItemPanels[s.mItems.length - 1] := by
    rw [hipl, List.getElem?_eq_getElem hipidx]
  have hipm : s.mItemPanels[s.mItems.length - 1] ∈ s.mItemPanels := List.getElem_mem hipidx
  have hcnt : s.mItemsAddedCount + 1 = ((s.mItems.length - 1 : Nat) : Int) + 1 := by
    rw [hL.count]; omega
  have hR : s.mRowPanels.length = (s.mItems.length - 1) / s.mItemsInRow.toNat + 1 := by
    have h1 := hL.rowLen
    rw [hcnt, rowCountFor_succ _ _ hk] at h1
    exact_mod_cast h1
  have hidx : (s.mItems.length - 1) / s.mItemsInRow.toNat < s.mRowPanels.length := by omega
  have hrow : s.mRowPanels[(s.mItems.length - 1) / s.mItemsInRow.toNat]? =
      some s.mLastRowPanel := by
    rw [List.getElem?_eq_getElem hidx]
    congr 1
    exact (hL.last _ (by rw [getLast?_eq_of_length hR, List.getElem?_eq_getElem hidx])).symm
  have hlm : s.mLastRowPanel ∈ s.mRowPanels := mem_of_getElem? hrow
  obtain ⟨y, hy⟩ := hL.rowGet hlm
  obtain ⟨x, hx⟩ := hL.ipGet hipm
  have hne' : s.mLastRowPanel ≠ s.mItemPanels[s.mItems.length - 1] :=
    Ne.symm (hL.ip_ne_row hipm hlm)
  obtain ⟨h', e, len, cr, co⟩ := removeFromLastRow_facts item hipget hx hy hne'
  refine ⟨_, e, ?_⟩
  have hrowget : ∀ p x, p ∈ s.mRowPanels → getPanel s.panels p = some x →
      ∃ x', getPanel h' p = some x' ∧ x'.mRect = x.mRect ∧
        ∀ c, c ∈ x.mChildren → c ≠ LLView.panel s.mItemPanels[s.mItems.length - 1] →
          c ∈ x'.mChildren := by
    intro p x0 hp hx0
    by_cases hpl : p = s.mLastRowPanel
    · subst hpl
      rw [hy] at hx0; cases hx0
      exact ⟨_, cr, rfl, fun c hc hcn => (List.mem_erase_of_ne hcn).mpr hc⟩
    · exact ⟨x0, by rw [co p hpl (Ne.symm (hL.ip_ne_row hipm hp)), hx0], rfl,
        fun c hc _ => hc⟩
  exact
    { inRow := hL.inRow
      count := hL.count
      ipLen := by
        show s.mItemPanels.dropLast.length + 1 = s.mItems.length
        rw [List.length_dropLast]; omega
      rowLen := hL.rowLen
      rowCount := hL.rowCount
      last := hL.last
      valid := fun p hp => by
        show 1 ≤ p ∧ p ≤ h'.length
        rw [len]
        have hp' : p ∈ s.mGalleryPanel :: (s.mRowPanels ++ s.mItemPanels.dropLast) := hp
        refine hL.valid p ?_
        simp only [List.mem_cons, List.mem_append] at hp' ⊢
        rcases hp' with h | h | h
        · exact Or.inl h
        · exact Or.inr (Or.inl h)
        · exact Or.inr (Or.inr (List.mem_of_mem_dropLast h))
      nodup := nodup_dropLast_ips hL.nodup
      rows := fun r p hp => by
        obtain ⟨x0, hx0, hr⟩ := hL.rows r p hp
        obtain ⟨x', hx', hr', -⟩ := hrowget p x0 (mem_of_getElem? hp) hx0
        exact ⟨x', hx', by rw [hr', hr]; rfl⟩
      cells := fun i p it hp hi => by
        have hp0 : s.mItemPanels.dropLast[i]? = some p := hp
        obtain ⟨hp', hi1⟩ := getElem?_of_dropLast hp0
        obtain ⟨x0, hx0, hr, hc, rp, y0, hrp, hy0, hm⟩ := hL.cells i p it hp' hi
        have hpm := mem_of_getElem? hp'
        have hpne : p ≠ s.mItemPanels[s.mItems.length - 1] := by
          intro hcn
          have h1 : s.mItemPanels[s.mItems.length - 1]? = some p := by
            rw [List.getElem?_eq_getElem hipidx, hcn]
          have := nodup_getElem?_inj hL.ipsNodup hp' h1
          omega
        obtain ⟨y', hy', -, hch⟩ := hrowget rp y0 (mem_of_getElem? hrp) hy0
        refine ⟨x0, ?_, hr, hc, rp, y', hrp, hy', hch _ hm (fun hcn => hpne ?_)⟩
        · show getPanel h' p = some x0
          rw [co p (hL.ip_ne_row hpm hlm) hpne, hx0]
        · cases hcn; rfl
      gallery := fun h => by cases h }

/-- The row-removing branch of `removeFromGalleryLast`: the rows move down and the
last row is popped. -/
theorem remove_row_step {s : LLOutfitGallery} (hL : LayoutWith 0 0 1 false s)
    (hne : s.mItems ≠ []) (bound : Int)
    (hb : bound = (s.mRowPanels.length : Int) - 1)
    (hrc : rowCountFor (s.mItemsAddedCount + 1) s.mItemsInRow =
      rowCountFor (s.mItemsAddedCount + 0) s.mItemsInRow + 1) :
    ∃ a s', forUpTo bound moveRowDown s = .ok a ∧ removeLastRow a = .ok s' ∧
      LayoutWith 0 0 0 false s' := by
  have hk := hL.inRow
  have hcnt : s.mItemsAddedCount = (s.mItems.length : Int) := by rw [hL.count]; simp
  have hip : s.mItemPanels.length = s.mItems.length := by have := hL.ipLen; omega
  have hstep := rowCountFor_step s.mItems.length s.mItemsInRow hk
  rw [← hcnt] at hstep
  have hdvd : s.mItems.length % s.mItemsInRow.toNat = 0 := by
    by_contra hc
    rw [hstep, if_neg hc, add_zero] at hrc
    omega
  have hrcn : rowCountFor (s.mItemsAddedCount + 0) s.mItemsInRow =
      ((s.mItems.length / s.mItemsInRow.toNat : Nat) : Int) := by
    rw [add_zero, hcnt]; exact rowCountFor_of_dvd _ _ hk hdvd
  have hR : s.mRowPanels.length = s.mItems.length / s.mItemsInRow.toNat + 1 := by
    have h1 := hL.rowLen
    rw [hrc, hrcn] at h1
    exact_mod_cast h1
  have hrne : s.mRowPanels.dropLast ≠ [] := by
    intro hc
    have h0 : s.mRowPanels.dropLast.length = 0 := by rw [hc]; rfl
    rw [List.length_dropLast, hR, Nat.add_sub_cancel] at h0
    have hpos : 0 < s.mItems.length := List.length_pos.mpr hne
    have hkpos : 0 < s.mItemsInRow.toNat := by omega
    have hle : s.mItemsInRow.toNat ≤ s.mItems.length :=
      Nat.le_of_dvd hpos (Nat.dvd_of_mod_eq_zero hdvd)
    have := Nat.div_pos hle hkpos
    omega
  obtain ⟨h1, e1, len1, a1, b1⟩ :=
    moveRows_spec (fun R r => R - 1 - r - 1) moveRowDown (fun _ _ => rfl) s
      (fun p hp => hL.rowGet hp) hL.rowsNodup (s.mRowPanels.length - 1) (Nat.sub_le _ _)
  have e1' : forUpTo bound moveRowDown s = .ok { s with panels := h1 } := by
    unfold forUpTo
    have : bound.toNat = s.mRowPanels.length - 1 := by rw [hb]; omega
    rw [this]; exact e1
  obtain ⟨xg, hxg⟩ := hL.galleryGet
  have hg1 : getPanel h1 s.mGalleryPanel = some xg := by
    rw [b1 _ (fun r _ hc => hL.row_ne_gallery (mem_of_getElem? hc) rfl), hxg]
  obtain ⟨h2, e2, len2, co⟩ := removeLastRow_facts (s := { s with panels := h1 }) hg1 hrne
  refine ⟨_, _, e1', e2, ?_⟩
  exact
    { inRow := hL.inRow
      count := hL.count
      ipLen := hL.ipLen
      rowLen := by
        show ((s.mRowPanels.dropLast.length : Nat) : Int) =
          rowCountFor (s.mItemsAddedCount + 0) s.mItemsInRow
        rw [hrcn, List.length_dropLast, hR]; simp
      rowCount := by
        show s.mRowCount - 1 = ((s.mRowPanels.dropLast.length : Nat) : Int)
        rw [hL.rowCount, List.length_dropLast, hR]; simp
      last := fun p hp => by
        have hp' : s.mRowPanels.dropLast.getLast? = some p := hp
        show s.mRowPanels.dropLast.getLast?.getD 0 = p
        rw [hp']; rfl
      valid := fun p hp => by
        show 1 ≤ p ∧ p ≤ h2.length
        rw [len2]
        show 1 ≤ p ∧ p ≤ h1.length
        rw [len1]
        have hp' : p ∈ s.mGalleryPanel :: (s.mRowPanels.dropLast ++ s.mItemPanels) := hp
        refine hL.valid p ?_
        simp only [List.mem_cons, List.mem_append] at hp' ⊢
        rcases hp' with h | h | h
        · exact Or.inl h
        · exact Or.inr (Or.inl (List.mem_of_mem_dropLast h))
        · exact Or.inr (Or.inr h)
      nodup := nodup_dropLast_rows hL.nodup
      rows := fun r p hp => by
        have hp0 : s.mRowPanels.dropLast[r]? = some p := hp
        obtain ⟨hp', hr1⟩ := getElem?_of_dropLast hp0
        obtain ⟨x, hx, hx1⟩ := a1 r p (by omega) hp'
        refine ⟨{ x with mRect := rowRectAt s (s.mRowCount - 1 - r - 1) }, ?_, ?_⟩
        · show getPanel h2 p = _
          rw [co p (hL.row_ne_gallery (mem_of_getElem? hp')), hx1]
        · show rowRectAt s (s.mRowCount - 1 - r - 1) = rowRectAt s (s.mRowCount - 1 - 1 - r)
          congr 1; ring
      cells := fun i p item hp hi => by
        obtain ⟨x, hx, hr, hc, rp, y, hrp, hy, hm⟩ := hL.cells i p item hp hi
        have hpm := mem_of_getElem? hp
        have hrpm := mem_of_getElem? hrp
        have hi0 : i < s.mItemPanels.length := lt_length_of_getElem? hp
        have hi1 : i < s.mItems.length := by omega
        have hrow : i / s.mItemsInRow.toNat < s.mRowPanels.length - 1 := by
          rw [hR, Nat.add_sub_cancel]
          apply Nat.div_lt_of_lt_mul
          rw [Nat.mul_div_cancel' (Nat.dvd_of_mod_eq_zero hdvd)]
          exact hi1
        obtain ⟨y', hy1, hy2⟩ := a1 _ rp hrow hrp
        rw [hy] at hy1; cases hy1
        refine ⟨x, ?_, hr, hc, rp, { y with mRect := rowRectAt s (s.mRowCount - 1 - ((i / s.mItemsInRow.toNat : Nat) : Int) - 1) }, ?_, ?_, hm⟩
        · show getPanel h2 p = some x
          rw [co p (hL.ip_ne_gallery hpm),
            b1 p (fun r _ hc => hL.ip_ne_row hpm (mem_of_getElem? hc) rfl), hx]
        · show s.mRowPanels.dropLast[i / s.mItemsInRow.toNat]? = some rp
          rw [List.getElem?_dropLast, if_pos hrow]; exact hrp
        · show getPanel h2 rp = _
          rw [co rp (hL.row_ne_gallery hrpm), hy2]
      gallery := fun h => by cases h }

theorem itemAt_of_lt {s : LLOutfitGallery} {n : Nat} (i : Int) (hi : i = (n : Int))
    (hn : n < s.mItems.length) : itemAt s i = .ok s.mItems[n] := by
  rw [hi]; exact itemAt_of_get (List.getElem?_eq_getElem hn)

/-- The call `removeFromGalleryLast` returns on a gallery that holds at least two
items, and keeps the layout. -/
theorem removeFromGalleryLast_layout {s : LLOutfitGallery} (hL : Layout s)
    (h2 : 2 ≤ s.mItems.length) (item : Nat) :
    ∃ s', removeFromGalleryLast s item = .ok s' ∧ Layout s' := by
  have hk := hL.inRow
  have hk0 : s.mItemsInRow ≠ 0 := ne_of_gt hk
  have hne : s.mItems ≠ [] := by
    intro hc; rw [hc] at h2; simp at h2
  have hcnt : s.mItemsAddedCount = (s.mItems.length : Int) := by rw [hL.count]; simp
  have hcnt1 : s.mItemsAddedCount - 1 = ((s.mItems.length - 1 : Nat) : Int) := by
    rw [hcnt]; omega
  have hstep := rowCountFor_step (s.mItems.length - 1) s.mItemsInRow hk
  have hcc : ((s.mItems.length - 1 : Nat) : Int) + 1 = s.mItemsAddedCount := by
    rw [hcnt]; omega
  rw [hcc, ← hcnt1] at hstep
  have hL1 := remove_count_step hL
  rw [removeFromGalleryLast_unfold s item hk0]
  have hget : s.mItems[s.mItems.length - 1]? = some s.mItems[s.mItems.length - 1] :=
    List.getElem?_eq_getElem (by omega)
  have hia : itemAt { s with mItemsAddedCount := s.mItemsAddedCount - 1 }
      (s.mItemsAddedCount - 1) = .ok s.mItems[s.mItems.length - 1] :=
    itemAt_of_lt (s := { s with mItemsAddedCount := s.mItemsAddedCount - 1 })
      (s.mItemsAddedCount - 1) hcnt1 (show s.mItems.length - 1 < s.mItems.length by omega)
  obtain ⟨s2, e2, hL2⟩ := remove_panel_step hL1 hne s.mItems[s.mItems.length - 1]
  obtain ⟨hL3, epop⟩ := pop_item_step hL2
  have fr2 := removeFromLastRow_frame e2
  have hc3 : ({ s2 with mItems := s2.mItems.dropLast } : LLOutfitGallery).mItemsAddedCount =
      s.mItemsAddedCount - 1 := fr2.mItemsAddedCount
  have hk3 : ({ s2 with mItems := s2.mItems.dropLast } : LLOutfitGallery).mItemsInRow =
      s.mItemsInRow := fr2.mItemsInRow
  have hi3 : s2.mItems = s.mItems := fr2.mItems
  have hne3 : s2.mItems.dropLast ≠ [] := by
    intro hc
    have h0 : s2.mItems.dropLast.length = 0 := by rw [hc]; rfl
    rw [List.length_dropLast, hi3] at h0
    omega
  by_cases hrow : rowCountFor (s.mItemsAddedCount - 1) s.mItemsInRow ≠
      rowCountFor s.mItemsAddedCount s.mItemsInRow
  · have hrc1 : rowCountFor s.mItemsAddedCount s.mItemsInRow =
        rowCountFor (s.mItemsAddedCount - 1) s.mItemsInRow + 1 := by
      rw [hstep]; split
      · rfl
      · rename_i hn; rw [hstep, if_neg hn] at hrow; exact absurd rfl hrow
    have hb : rowCountFor s.mItemsAddedCount s.mItemsInRow - 1 =
        ((({ s2 with mItems := s2.mItems.dropLast } : LLOutfitGallery).mRowPanels.length : Nat) :
          Int) - 1 := by
      rw [hL3.rowLen, hc3, hk3]; simp
    obtain ⟨a, s4, ea, e4, hL4⟩ := remove_row_step hL3 hne3
      (rowCountFor s.mItemsAddedCount s.mItemsInRow - 1) hb
      (by rw [hc3, hk3]; simpa using hrc1)
    have fr4 := LayoutFrame.trans (forUpTo_frame (fun _ _ _ => moveRow_frame) _ _ _ ea)
      (removeLastRow_frame e4)
    obtain ⟨s5, e5, hL5⟩ := reshape_step hL4
      (rowCountFor (s.mItemsAddedCount - 1) s.mItemsInRow)
      (by
        rw [hL4.rowCount, hL4.rowLen, fr4.mItemsAddedCount, fr4.mItemsInRow, hc3, hk3]
        simp)
    refine ⟨s5, bind_eq_ok.mpr ⟨_, hia, bind_eq_ok.mpr ⟨s2, e2,
      bind_eq_ok.mpr ⟨_, epop, ?_⟩⟩⟩, hL5⟩
    simp only [if_pos hrow]
    exact bind_eq_ok.mpr ⟨a, ea, bind_eq_ok.mpr ⟨s4, e4, e5⟩⟩
  · have hsame : rowCountFor (s.mItemsAddedCount - 1) s.mItemsInRow =
        rowCountFor s.mItemsAddedCount s.mItemsInRow := not_not.mp hrow
    have hL4 : LayoutWith 0 0 0 false { s2 with mItems := s2.mItems.dropLast } :=
      hL3.relabel (by rw [hc3, hk3]; simpa using hsame.symm)
    obtain ⟨s5, e5, hL5⟩ := reshape_step hL4
      (rowCountFor (s.mItemsAddedCount - 1) s.mItemsInRow)
      (by rw [hL4.rowCount, hL4.rowLen, hc3, hk3]; simp)
    refine ⟨s5, bind_eq_ok.mpr ⟨_, hia, bind_eq_ok.mpr ⟨s2, e2,
      bind_eq_ok.mpr ⟨_, epop, ?_⟩⟩⟩, hL5⟩
    simp only [if_neg hrow]
    exact e5

/-! ## The loops of `removeFromGalleryMiddle` -/

theorem LayoutWith.of_indexMap {cd : Int} {pend : Nat} {extra : Int} {sh : Bool}
    {s : LLOutfitGallery} (hL : LayoutWith cd pend extra sh s) (m : List (Nat × Int)) :
    LayoutWith cd pend extra sh { s with mItemIndexMap := m } :=
  { inRow := hL.inRow
    count := hL.count
    ipLen := hL.ipLen
    rowLen := hL.rowLen
    rowCount := hL.rowCount
    last := hL.last
    valid := hL.valid
    nodup := hL.nodup
    rows := hL.rows
    cells := hL.cells
    gallery := hL.gallery }

/-- The first loop of `removeFromGalleryMiddle` returns and keeps the layout. -/
theorem removeTail_layout (steps : Nat) :
    ∀ (i : Int) (s : LLOutfitGallery) (saved : List Nat), Layout s →
      steps + 1 ≤ s.mItems.length → i = s.mItemsAddedCount - 1 →
      ∃ s' saved', removeTail steps i s saved = .ok (s', saved') ∧ Layout s' ∧
        s'.mItems.length + steps = s.mItems.length := by
  induction steps with
  | zero =>
    intro i s saved hL _ _
    exact ⟨s, saved, rfl, hL, rfl⟩
  | succ n ih =>
    intro i s saved hL hle hi
    have hcnt : s.mItemsAddedCount = (s.mItems.length : Int) := by rw [hL.count]; simp
    have hi' : i = ((s.mItems.length - 1 : Nat) : Int) := by rw [hi, hcnt]; omega
    have hia := itemAt_of_lt (s := s) i hi' (by omega)
    obtain ⟨s1, e1, hL1⟩ :=
      removeFromGalleryLast_layout hL (by omega) s.mItems[s.mItems.length - 1]
    obtain ⟨-, g1, g2, -⟩ := removeFromGalleryLast_items e1
    have hlen1 : s1.mItems.length + 1 = s.mItems.length := by
      rw [g1, List.length_dropLast]; omega
    obtain ⟨s', saved', e2, hL2, hlen2⟩ := ih (i - 1) s1 (s.mItems[s.mItems.length - 1] :: saved)
      hL1 (by omega) (by rw [g2, hi])
    refine ⟨s', saved', ?_, hL2, by omega⟩
    simp only [removeTail, hia, ok_bind]
    exact bind_eq_ok.mpr ⟨s1, e1, e2⟩

/-- The second loop of `removeFromGalleryMiddle` returns and keeps the layout. -/
theorem addSaved_layout (B : List Nat) :
    ∀ s : LLOutfitGallery, Layout s → ∃ s', addSaved B s = .ok s' ∧ Layout s' := by
  induction B with
  | nil => intro s hL; exact ⟨s, rfl, hL⟩
  | cons v B ih =>
    intro s hL
    obtain ⟨s1, e1, hL1⟩ := addToGallery_layout hL v
    obtain ⟨s2, e2, hL2⟩ := ih s1 hL1
    exact ⟨s2, bind_eq_ok.mpr ⟨s1, e1, e2⟩, hL2⟩

/-- The call `removeFromGalleryMiddle` returns for an item of the gallery that is not
the first one, and keeps the layout. -/
theorem removeFromGalleryMiddle_layout {s : LLOutfitGallery} (hL : Layout s) (hI : IdxInv s)
    {item : Nat} (hm : item ∈ s.mItems) (hfirst : s.mItems.head? ≠ some item) :
    ∃ s', removeFromGalleryMiddle s item = .ok s' ∧ Layout s' := by
  obtain ⟨n, hn, hget⟩ := List.getElem_of_mem hm
  have hn0 : n ≠ 0 := by
    intro hc
    subst hc
    apply hfirst
    rw [List.head?_eq_getElem?, List.getElem?_eq_getElem hn, hget]
  have hfind : StdMap.find s.mItemIndexMap item = some (n : Int) := by
    have := hI.pos n hn
    rwa [hget] at this
  have hcnt : s.mItemsAddedCount = (s.mItems.length : Int) := hI.count
  have hL0 : Layout { s with mItemIndexMap := StdMap.erase s.mItemIndexMap item } :=
    hL.of_indexMap _
  have hsteps : (s.mItemsAddedCount - 1 - (n : Int)).toNat = s.mItems.length - 1 - n := by
    rw [hcnt]; omega
  obtain ⟨s1, saved, e1, hL1, hlen1⟩ := removeTail_layout (s.mItems.length - 1 - n)
    (s.mItemsAddedCount - 1) { s with mItemIndexMap := StdMap.erase s.mItemIndexMap item } []
    hL0 (by show s.mItems.length - 1 - n + 1 ≤ s.mItems.length; omega) rfl
  have hlen1' : s1.mItems.length + (s.mItems.length - 1 - n) = s.mItems.length := hlen1
  have hn1 : n < s1.mItems.length := by omega
  have hia := itemAt_of_lt (s := s1) (n : Int) rfl hn1
  obtain ⟨s2, e2, hL2⟩ := removeFromGalleryLast_layout hL1 (by omega) s1.mItems[n]
  obtain ⟨s3, e3, hL3⟩ := addSaved_layout saved s2 hL2
  refine ⟨s3, ?_, hL3⟩
  unfold removeFromGalleryMiddle
  rw [StdMap.index_of_find 0 hfind]
  simp only [hsteps]
  refine bind_eq_ok.mpr ⟨(s1, saved), e1, ?_⟩
  simp only [hia, ok_bind]
  exact bind_eq_ok.mpr ⟨s2, e2, e3⟩

/-- Removing the last row of a gallery with a single row stops at the read of
`mRowPanels.back()` on the emptied vector. -/
theorem removeLastRow_single {s : LLOutfitGallery} {x : LLPanel}
    (hg : getPanel s.panels s.mGalleryPanel = some x) (hlen : s.mRowPanels.length = 1) :
    removeLastRow s = .error Fault.outOfRange := by
  obtain ⟨h1, e1, -, -⟩ := onPanel_spec (s := { s with mRowCount := s.mRowCount - 1 })
    (fun p => p.removeChild (.panel s.mLastRowPanel)) hg
  obtain ⟨p, hp⟩ : ∃ p, s.mRowPanels = [p] := List.length_eq_one.mp hlen
  have hpop : rowPanelsPop { s with mRowCount := s.mRowCount - 1, panels := h1 } =
      .ok { s with mRowCount := s.mRowCount - 1, panels := h1, mRowPanels := [] } := by
    unfold rowPanelsPop
    simp only [hp]
    rfl
  have hback : rowPanelsBack { s with mRowCount := s.mRowCount - 1, panels := h1,
                                      mRowPanels := [] } = .error Fault.outOfRange := rfl
  simp only [removeLastRow, e1, ok_bind, hpop, hback, error_bind]

/-- Removing the only item of a gallery stops at the read of `mRowPanels.back()` on
the emptied vector. -/
theorem removeFromGalleryLast_single {s : LLOutfitGallery} (hL : Layout s)
    (h1 : s.mItems.length = 1) (item : Nat) :
    removeFromGalleryLast s item = .error Fault.outOfRange := by
  have hk := hL.inRow
  have hk0 : s.mItemsInRow ≠ 0 := ne_of_gt hk
  have hne : s.mItems ≠ [] := by
    intro hc; rw [hc] at h1; simp at h1
  have hcnt : s.mItemsAddedCount = 1 := by rw [hL.count, h1]; simp
  have hL1 := remove_count_step hL
  rw [removeFromGalleryLast_unfold s item hk0]
  have hia : itemAt { s with mItemsAddedCount := s.mItemsAddedCount - 1 }
      (s.mItemsAddedCount - 1) = .ok s.mItems[0] :=
    itemAt_of_lt (s := { s with mItemsAddedCount := s.mItemsAddedCount - 1 })
      (s.mItemsAddedCount - 1) (by rw [hcnt]; rfl) (show 0 < s.mItems.length by omega)
  obtain ⟨s2, e2, hL2⟩ := remove_panel_step hL1 hne s.mItems[0]
  obtain ⟨hL3, epop⟩ := pop_item_step hL2
  have fr2 := removeFromLastRow_frame e2
  have hc3 : ({ s2 with mItems := s2.mItems.dropLast } : LLOutfitGallery).mItemsAddedCount =
      s.mItemsAddedCount - 1 := fr2.mItemsAddedCount
  have hk3 : ({ s2 with mItems := s2.mItems.dropLast } : LLOutfitGallery).mItemsInRow =
      s.mItemsInRow := fr2.mItemsInRow
  have hrc1 : rowCountFor s.mItemsAddedCount s.mItemsInRow = 1 := by
    have := rowCountFor_step 0 s.mItemsInRow hk
    simp only [Nat.cast_zero, Nat.zero_mod, if_true, zero_add, rowCountFor_zero] at this
    rw [hcnt]; exact this
  have hrc0 : rowCountFor (s.mItemsAddedCount - 1) s.mItemsInRow = 0 := by
    rw [hcnt]; exact rowCountFor_zero _
  have hrows : ({ s2 with mItems := s2.mItems.dropLast } : LLOutfitGallery).mRowPanels.length =
      1 := by
    have := hL3.rowLen
    rw [hc3, hk3, sub_add_cancel, hrc1] at this
    exact_mod_cast this
  obtain ⟨xg, hxg⟩ := hL3.galleryGet
  have hrm := removeLastRow_single hxg hrows
  have hloop : forUpTo (rowCountFor s.mItemsAddedCount s.mItemsInRow - 1) moveRowDown
      { s2 with mItems := s2.mItems.dropLast } = .ok { s2 with mItems := s2.mItems.dropLast } := by
    rw [hrc1]; rfl
  have hrow : rowCountFor (s.mItemsAddedCount - 1) s.mItemsInRow ≠
      rowCountFor s.mItemsAddedCount s.mItemsInRow := by
    rw [hrc0, hrc1]; decide
  simp only [hia, ok_bind, e2, epop]
  rw [if_pos hrow, hloop, ok_bind, hrm, error_bind]

/-- Removing the first item of a gallery stops at the read of `mRowPanels.back()` on
the emptied vector: the loop pops every later item, and popping the last one left
takes the only row away. -/
theorem removeFromGalleryMiddle_first {s : LLOutfitGallery} (hL : Layout s) (hI : IdxInv s)
    {item : Nat} (hfirst : s.mItems.head? = some item) :
    removeFromGalleryMiddle s item = .error Fault.outOfRange := by
  have hne : s.mItems ≠ [] := by
    intro hc; rw [hc] at hfirst; simp at hfirst
  have hlen : 0 < s.mItems.length := List.length_pos.mpr hne
  have hget : s.mItems[0] = item := by
    rw [List.head?_eq_getElem?, List.getElem?_eq_getElem hlen] at hfirst
    exact Option.some.inj hfirst
  have hfind : StdMap.find s.mItemIndexMap item = some ((0 : Nat) : Int) := by
    have := hI.pos 0 hlen
    rwa [hget] at this
  have hcnt : s.mItemsAddedCount = (s.mItems.length : Int) := hI.count
  have hL0 : Layout { s with mItemIndexMap := StdMap.erase s.mItemIndexMap item } :=
    hL.of_indexMap _
  have hsteps : (s.mItemsAddedCount - 1 - ((0 : Nat) : Int)).toNat = s.mItems.length - 1 := by
    rw [hcnt]; omega
  obtain ⟨s1, saved, e1, hL1, hlen1⟩ := removeTail_layout (s.mItems.length - 1)
    (s.mItemsAddedCount - 1) { s with mItemIndexMap := StdMap.erase s.mItemIndexMap item } []
    hL0 (by show s.mItems.length - 1 + 1 ≤ s.mItems.length; omega) rfl
  have hlen1' : s1.mItems.length + (s.mItems.length - 1) = s.mItems.length := hlen1
  have hn1 : s1.mItems.length = 1 := by omega
  have hia := itemAt_of_lt (s := s1) ((0 : Nat) : Int) rfl (by omega)
  have e2 := removeFromGalleryLast_single hL1 hn1 s1.mItems[0]
  unfold removeFromGalleryMiddle
  rw [StdMap.index_of_find 0 hfind]
  simp only [hsteps, e1, ok_bind, hia, e2, error_bind]

theorem isEmptyGallery_layout {s : LLOutfitGallery} (h : IsEmptyGallery s)
    (hk : 0 < s.mItemsInRow) : Layout s := by
  obtain ⟨h1, h2, h3, -, h5, h6, hg⟩ := h
  exact
    { inRow := hk
      count := by rw [h5, h1]; rfl
      ipLen := by rw [h2, h1]; rfl
      rowLen := by rw [h3, h5]; simp [rowCountFor_zero]
      rowCount := by rw [h6, h3]; rfl
      last := fun p hp => by rw [h3] at hp; simp at hp
      valid := fun p hp => by
        rw [h3, h2] at hp
        simp only [List.append_nil, List.mem_singleton] at hp
        subst hp
        exact getPanel_some_iff.mp hg
      nodup := by rw [h3, h2]; simp
      rows := fun r p hp => by rw [h3] at hp; simp at hp
      cells := fun i p item hp _ => by rw [h2] at hp; simp at hp
      gallery := fun _ hne => absurd h1 hne }

/-- Every state reached from the empty gallery with a positive column count has a
sound layout. -/
theorem reach_layout {s : LLOutfitGallery} (h : Reach s) : 0 < s.mItemsInRow → Layout s := by
  induction h with
  | empty he => exact fun hk => isEmptyGallery_layout he hk
  | add _ hr _ h ih =>
    intro hk
    rw [(addToGallery_items h).1.itemsInRow_eq] at hk
    obtain ⟨s'', e, hL⟩ := addToGallery_layout (ih hk) _
    rw [h] at e; cases e; exact hL
  | @remove a b item hr hm h ih =>
    intro hk
    rw [(removeFromGalleryMiddle_items (reach_idxInv hr) hm h).1.itemsInRow_eq] at hk
    by_cases hfirst : a.mItems.head? = some item
    · rw [removeFromGalleryMiddle_first (ih hk) (reach_idxInv hr) hfirst] at h
      cases h
    · obtain ⟨s'', e, hL⟩ :=
        removeFromGalleryMiddle_layout (ih hk) (reach_idxInv hr) hm hfirst
      rw [h] at e; cases e; exact hL

theorem g1_reach : Reach g1 := Reach.add 11 (Reach.empty g0_empty) (by decide) rfl

theorem g2_reach : Reach g2 := Reach.add 12 g1_reach (by decide) rfl

theorem g3_reach : Reach g3 := Reach.add 13 g2_reach (by decide) rfl

theorem g4_reach : Reach g4 := Reach.add 14 g3_reach (by decide) rfl

/-- Removing an item that is not the first one: the call returns, `mItems` is the
previous `mItems` with that item taken out and the other items in their old order, the
item is gone, and `mItemsAddedCount` is one less. -/
theorem removeFromGalleryMiddle_later {s : LLOutfitGallery} (hr : Reach s)
    (hk : 0 < s.mItemsInRow) {item : Nat} (hm : item ∈ s.mItems)
    (hfirst : s.mItems.head? ≠ some item) :
    ∃ s', removeFromGalleryMiddle s item = .ok s' ∧ s'.mItems = s.mItems.erase item ∧
      item ∉ s'.mItems ∧ s'.mItemsAddedCount = s.mItemsAddedCount - 1 := by
  have hI := reach_idxInv hr
  obtain ⟨s', e, -⟩ := removeFromGalleryMiddle_layout (reach_layout hr hk) hI hm hfirst
  obtain ⟨-, h1, h2, -⟩ := removeFromGalleryMiddle_items hI hm e
  refine ⟨s', e, h1, ?_, h2⟩
  rw [h1]
  exact fun hc => ((hI.nodup.mem_erase_iff).mp hc).1 rfl

/-- C2, what the code does: for every state reached from the empty gallery with
`mItemsInRow > 0` and every item in the gallery, `removeFromGalleryMiddle(item)` stops
at the `mRowPanels.back()` read of `removeLastRow` on the emptied vector when the item
is the first one of `mItems`, and produces no gallery; for every other item it returns,
`mItems` is then the previous `mItems` with that item taken out and the other items in
their old order, the item is gone, and `mItemsAddedCount` is one less. -/
theorem removeFromGalleryMiddle_first_or_removes {s : LLOutfitGallery} (hr : Reach s)
    (hk : 0 < s.mItemsInRow) (item : Nat) (hm : item ∈ s.mItems) :
    (s.mItems.head? = some item →
      removeFromGalleryMiddle s item = .error Fault.outOfRange) ∧
    (s.mItems.head? ≠ some item →
      ∃ s', removeFromGalleryMiddle s item = .ok s' ∧ s'.mItems = s.mItems.erase item ∧
        item ∉ s'.mItems ∧ s'.mItemsAddedCount = s.mItemsAddedCount - 1) :=
  ⟨fun hfirst => removeFromGalleryMiddle_first (reach_layout hr hk) (reach_idxInv hr) hfirst,
    fun hfirst => removeFromGalleryMiddle_later hr hk hm hfirst⟩

/-- C2, the failing run: at the gallery holding `11, 12, 13, 14` the removal of the
first item `11` stops at the read of the emptied `mRowPanels`. -/
theorem removeFromGalleryMiddle_first_or_removes_witness :
    Reach g4 ∧ 0 < g4.mItemsInRow ∧ 11 ∈ g4.mItems ∧ g4.mItems.head? = some 11 ∧
    removeFromGalleryMiddle g4 11 = .error Fault.outOfRange :=
  ⟨g4_reach, by decide, by decide, rfl,
    (removeFromGalleryMiddle_first_or_removes g4_reach (by decide) 11 (by decide)).1 rfl⟩

/-- C5, the failing run: the gallery shows outfit folder `7` (item `1`) and holds a
null entry for id `5`, left by `onHighlightBaseOutfit(5, 9)`.  `updateRemovedCategory(5)`
finds that entry and calls `removeFromGalleryMiddle(NULL)`: `mItemIndexMap[NULL]` gives
index `0`, the place of item `1`, which category `7` is mapped to, and the removal of
that first item stops at the `mRowPanels.back()` read of `removeLastRow` on the
emptied vector.  The call does not return a gallery. -/
theorem updateRemovedCategory_null_entry :
    onHighlightBaseOutfit opened7 5 9 = .ok highlighted ∧
    StdMap.find highlighted.mOutfitMap 5 = some 0 ∧
    StdMap.find highlighted.mOutfitMap 7 = some 1 ∧
    highlighted.mItems = [1] ∧
    (StdMap.index highlighted.mItemIndexMap 0 0).1 = 0 ∧
    itemAt highlighted 0 = .ok 1 ∧
    updateRemovedCategory highlighted 5 = .error Fault.outOfRange :=
  ⟨rfl, rfl, rfl, rfl, rfl, rfl, rfl⟩

/-! ## Row arithmetic for a column count of either sign -/

theorem rowCountFor_negCast (n K : Nat) :
    rowCountFor (n : Int) (-(K : Int)) =
      if n % K = 0 then -((n / K : Nat) : Int) else -((n / K : Nat) : Int) + 1 := by
  unfold rowCountFor
  rw [Int.tmod_neg, Int.tdiv_neg, Int.tmod_eq_emod (Int.ofNat_nonneg n) (Int.ofNat_nonneg K),
    Int.tdiv_eq_ediv (Int.ofNat_nonneg n) (Int.ofNat_nonneg K)]
  by_cases h : n % K = 0
  · have h' : (n : Int) % (K : Int) = 0 := by exact_mod_cast h
    rw [if_pos h, if_pos h']; norm_cast
  · have h' : ¬ (n : Int) % (K : Int) = 0 := by
      intro hc; apply h; exact_mod_cast hc
    rw [if_neg h, if_neg h']; norm_cast

/-- One more item asks for at most one more row, whatever the sign of the column
count. -/
theorem rowCountFor_succ_le (n : Nat) (k : Int) (hk : k ≠ 0) :
    rowCountFor ((n : Int) + 1) k ≤ rowCountFor (n : Int) k + 1 := by
  rcases lt_or_gt_of_ne hk with hneg | hpos
  · obtain ⟨K, hK⟩ := Int.eq_ofNat_of_zero_le (show 0 ≤ -k by omega)
    have hk' : k = -(K : Int) := by omega
    subst hk'
    have e : ((n : Int) + 1) = ((n + 1 : Nat) : Int) := by push_cast; rfl
    rw [e, rowCountFor_negCast, rowCountFor_negCast, Nat.succ_div]
    by_cases hd : K ∣ n + 1
    · rw [if_pos hd, if_pos (Nat.mod_eq_zero_of_dvd hd)]
      split <;> push_cast <;> omega
    · have h' : ¬ (n + 1) % K = 0 := fun hc => hd (Nat.dvd_of_mod_eq_zero hc)
      rw [if_neg hd, if_neg h']
      split <;> push_cast <;> omega
  · rw [rowCountFor_step n k hpos]
    split <;> omega

/-- The first item always asks for a row. -/
theorem rowCountFor_first (k : Int) (hk : k ≠ 0) :
    rowCountFor (0 + 1) k ≠ rowCountFor 0 k := by
  rw [rowCountFor_zero]
  rcases lt_or_gt_of_ne hk with hneg | hpos
  · obtain ⟨K, hK⟩ := Int.eq_ofNat_of_zero_le (show 0 ≤ -k by omega)
    have hk' : k = -(K : Int) := by omega
    subst hk'
    have hK0 : 0 < K := by omega
    have e : ((0 : Int) + 1) = ((1 : Nat) : Int) := by norm_num
    rw [e, rowCountFor_negCast]
    by_cases h1 : K = 1
    · subst h1; simp
    · have h2 : 1 % K = 1 := Nat.mod_eq_of_lt (by omega)
      have h3 : 1 / K = 0 := Nat.div_eq_of_lt (by omega)
      rw [h2, h3]; simp
  · have := rowCountFor_step 0 k hpos
    simp only [Nat.cast_zero, Nat.zero_mod, if_true] at this
    rw [this, rowCountFor_zero]; decide

/-! ## `addToGallery` returns for a non-zero column count -/

theorem AddSafe.galleryLive {s : LLOutfitGallery} (h : AddSafe s) (hp : List LLPanel)
    (hlen : s.panels.length ≤ hp.length) : ∃ x, getPanel hp s.mGalleryPanel = some x := by
  have := h.valid s.mGalleryPanel (List.mem_cons_self _ _)
  exact getPanel_some_iff.mpr ⟨this.1, by omega⟩

/-- For a non-zero column count `addToGallery` returns and leaves a state in which
it returns again. -/
theorem addToGallery_addSafe {s : LLOutfitGallery} (hS : AddSafe s) (item : Nat) :
    ∃ s', addToGallery s item = .ok s' ∧ AddSafe s' := by
  have hk := hS.inRow
  obtain ⟨n, hn⟩ := Int.eq_ofNat_of_zero_le hS.count
  have hle := rowCountFor_succ_le n s.mItemsInRow hk
  rw [← hn] at hle
  rw [addToGallery_unfold s item hk]
  by_cases hrow : rowCountFor (s.mItemsAddedCount + 1) s.mItemsInRow ≠
      rowCountFor s.mItemsAddedCount s.mItemsInRow
  · rw [if_pos hrow]
    have hm : (rowCountFor s.mItemsAddedCount s.mItemsInRow).toNat ≤ s.mRowPanels.length := by
      have := hS.rowsLe; omega
    obtain ⟨h1, e1, len1, -, -⟩ :=
      moveRows_spec (fun R r => R - 1 - r + 1) moveRowUp (fun _ _ => rfl)
        { s with mItemsAddedCount := s.mItemsAddedCount + 1,
                 mItemIndexMap := StdMap.assign s.mItemIndexMap item s.mItemsAddedCount }
        (fun p hp => getPanel_some_iff.mpr (hS.valid p (List.mem_cons_of_mem _ hp)))
        hS.nodup _ hm
    have len1' : h1.length = s.panels.length := len1
    obtain ⟨xg, hxg⟩ := hS.galleryLive h1 (by omega)
    obtain ⟨h2, e2, len2, -, c2p, -⟩ :=
      addLastRow_facts (s := { s with mItemsAddedCount := s.mItemsAddedCount + 1,
                                      mItemIndexMap := StdMap.assign s.mItemIndexMap item s.mItemsAddedCount,
                                      panels := h1 }) hxg
    have len2' : h2.length = s.panels.length + 1 := by rw [len2]; show h1.length + 1 = _; omega
    obtain ⟨h3, e3, len3, -, -, -⟩ :=
      addToRow_facts (s := { s with mItemsAddedCount := s.mItemsAddedCount + 1,
                                    mItemIndexMap := StdMap.assign s.mItemIndexMap item s.mItemsAddedCount,
                                    panels := h2, mRowCount := s.mRowCount + 1, mLastRowPanel := h1.length + 1,
                                    mRowPanels := s.mRowPanels ++ [h1.length + 1], mItems := s.mItems ++ [item] })
        item (Int.tmod s.mItemsAddedCount s.mItemsInRow) c2p
    have len3' : h3.length = s.panels.length + 2 := by rw [len3]; show h2.length + 1 = _; omega
    obtain ⟨xg3, hxg3⟩ := hS.galleryLive h3 (by omega)
    obtain ⟨h4, e4, len4, -, -⟩ :=
      reshapeGalleryPanel_facts (s := { s with mItemsAddedCount := s.mItemsAddedCount + 1,
                                               mItemIndexMap := StdMap.assign s.mItemIndexMap item s.mItemsAddedCount,
                                               panels := h3, mRowCount := s.mRowCount + 1, mLastRowPanel := h1.length + 1,
                                               mRowPanels := s.mRowPanels ++ [h1.length + 1], mItems := s.mItems ++ [item],
                                               mItemPanels := s.mItemPanels ++ [h2.length + 1] })
        (rowCountFor (s.mItemsAddedCount + 1) s.mItemsInRow) hxg3
    have len4' : h4.length = s.panels.length + 2 := by rw [len4]; exact len3'
    refine ⟨_, bind_eq_ok.mpr ⟨_, e1, bind_eq_ok.mpr ⟨_, e2, bind_eq_ok.mpr ⟨_, e3, e4⟩⟩⟩, ?_⟩
    exact
      { inRow := hk
        count := by show 0 ≤ s.mItemsAddedCount + 1; have := hS.count; omega
        rowsLe := by
          show rowCountFor (s.mItemsAddedCount + 1) s.mItemsInRow ≤
            (((s.mRowPanels ++ [h1.length + 1]).length : Nat) : Int)
          have := hS.rowsLe
          simp only [List.length_append, List.length_singleton, Nat.cast_add, Nat.cast_one]
          omega
        valid := by
          intro p hp
          show 1 ≤ p ∧ p ≤ h4.length
          have hp' : p ∈ s.mGalleryPanel :: (s.mRowPanels ++ [h1.length + 1]) := hp
          rw [List.mem_cons, List.mem_append, List.mem_singleton] at hp'
          rcases hp' with hp' | hp' | hp'
          · have := hS.valid p (hp' ▸ List.mem_cons_self _ _); omega
          · have := hS.valid p (List.mem_cons_of_mem _ hp'); omega
          · omega
        nodup := by
          show (s.mRowPanels ++ [h1.length + 1]).Nodup
          rw [List.nodup_append]
          refine ⟨hS.nodup, List.nodup_singleton _, ?_⟩
          intro a ha hb
          rw [List.mem_singleton] at hb
          have := hS.valid a (List.mem_cons_of_mem _ ha)
          omega
        last := by
          intro _
          show 1 ≤ h1.length + 1 ∧ h1.length + 1 ≤ h4.length
          omega }
  · rw [if_neg hrow]
    have hsame : rowCountFor (s.mItemsAddedCount + 1) s.mItemsInRow =
        rowCountFor s.mItemsAddedCount s.mItemsInRow := not_not.mp hrow
    have hpos : 0 < s.mItemsAddedCount := by
      rcases Nat.eq_zero_or_pos n with h0 | h0
      · subst h0
        have hn0 : s.mItemsAddedCount = 0 := hn
        rw [hn0] at hsame
        exact absurd hsame (rowCountFor_first s.mItemsInRow hk)
      · omega
    obtain ⟨y, hy⟩ := getPanel_some_iff.mpr (hS.last hpos)
    obtain ⟨h3, e3, len3, -, -, -⟩ :=
      addToRow_facts (s := { s with mItemsAddedCount := s.mItemsAddedCount + 1,
                                    mItemIndexMap := StdMap.assign s.mItemIndexMap item s.mItemsAddedCount,
                                    mItems := s.mItems ++ [item] })
        item (Int.tmod s.mItemsAddedCount s.mItemsInRow) hy
    have len3' : h3.length = s.panels.length + 1 := len3
    obtain ⟨xg3, hxg3⟩ := hS.galleryLive h3 (by omega)
    obtain ⟨h4, e4, len4, -, -⟩ :=
      reshapeGalleryPanel_facts (s := { s with mItemsAddedCount := s.mItemsAddedCount + 1,
                                               mItemIndexMap := StdMap.assign s.mItemIndexMap item s.mItemsAddedCount,
                                               mItems := s.mItems ++ [item], panels := h3,
                                               mItemPanels := s.mItemPanels ++ [s.panels.length + 1] })
        (rowCountFor (s.mItemsAddedCount + 1) s.mItemsInRow) hxg3
    have len4' : h4.length = s.panels.length + 1 := by rw [len4]; exact len3'
    refine ⟨_, bind_eq_ok.mpr ⟨_, e3, e4⟩, ?_⟩
    exact
      { inRow := hk
        count := by show 0 ≤ s.mItemsAddedCount + 1; have := hS.count; omega
        rowsLe := by
          show rowCountFor (s.mItemsAddedCount + 1) s.mItemsInRow ≤ (s.mRowPanels.length : Int)
          rw [hsame]; exact hS.rowsLe
        valid := by
          intro p hp
          show 1 ≤ p ∧ p ≤ h4.length
          have := hS.valid p hp; omega
        nodup := hS.nodup
        last := by
          intro _
          show 1 ≤ s.mLastRowPanel ∧ s.mLastRowPanel ≤ h4.length
          have := hS.last hpos; omega }

/-! ## Ordered maps -/

theorem StdMap.find_of_mem {V : Type} {m : List (Nat × V)} (ho : StdMap.Ordered m) {k : Nat}
    {v : V} (h : (k, v) ∈ m) : StdMap.find m k = some v := by
  induction m with
  | nil => simp at h
  | cons e t ih =>
    obtain ⟨a, b⟩ := e
    unfold StdMap.Ordered StdMap.keys at ho ih
    rw [List.map_cons, List.pairwise_cons] at ho
    rw [List.mem_cons] at h
    rcases h with h | h
    · cases h; simp [StdMap.find]
    · have hk : k ∈ t.map Prod.fst := List.mem_map.mpr ⟨(k, v), h, rfl⟩
      have hlt : a < k := ho.1 k hk
      have hne : k ≠ a := by omega
      simp only [StdMap.find, if_neg hne]
      exact ih ho.2 h

theorem StdMap.mem_of_find {V : Type} {m : List (Nat × V)} {k : Nat} {v : V}
    (h : StdMap.find m k = some v) : (k, v) ∈ m := by
  induction m with
  | nil => simp [StdMap.find] at h
  | cons e t ih =>
    obtain ⟨a, b⟩ := e
    simp only [StdMap.find] at h
    by_cases hk : k = a
    · rw [if_pos hk] at h
      cases h; subst hk
      exact List.mem_cons_self _ _
    · rw [if_neg hk] at h
      exact List.mem_cons_of_mem _ (ih h)

/-! ## The loop of `onOpen` -/

theorem outfitAt_of_find {s : LLOutfitGallery} {c v : Nat}
    (h : StdMap.find s.mOutfitMap c = some v) : outfitAt s c = (v, s) := by
  unfold outfitAt
  rw [StdMap.index_of_find 0 h]

/-- The loop of `onOpen` over categories that have an entry is the loop that adds
the mapped items. -/
theorem addCategories_eq_addSaved (es : List (Nat × Nat)) :
    ∀ s : LLOutfitGallery, (∀ e, e ∈ es → StdMap.find s.mOutfitMap e.1 = some e.2) →
      addCategories (es.map Prod.fst) s = addSaved (es.map Prod.snd) s := by
  induction es with
  | nil => intro s _; rfl
  | cons e es ih =>
    intro s h
    have he := h e (List.mem_cons_self _ _)
    simp only [List.map_cons, addCategories, addSaved, outfitAt_of_find he]
    cases h1 : addToGallery s e.2 with
    | error x => rfl
    | ok s1 =>
      have hm : s1.mOutfitMap = s.mOutfitMap := (addToGallery_items h1).1.outfitMap_eq
      exact ih s1 (fun e' he' => by rw [hm]; exact h e' (List.mem_cons_of_mem _ he'))

/-- The items and the counter after the adding loop. -/
theorem addSaved_items (B : List Nat) :
    ∀ (s s' : LLOutfitGallery), addSaved B s = .ok s' →
      ItemsFrame s s' ∧ s'.mItems = s.mItems ++ B ∧
        s'.mItemsAddedCount = s.mItemsAddedCount + (B.length : Int) := by
  induction B with
  | nil =>
    intro s s' h
    have : s = s' := pure_eq_ok.mp h
    subst this
    exact ⟨ItemsFrame.same s, by simp, by simp⟩
  | cons v B ih =>
    intro s s' h
    simp only [addSaved, bind_eq_ok] at h
    obtain ⟨s1, h1, h2⟩ := h
    obtain ⟨f1, i1, c1, -⟩ := addToGallery_items h1
    obtain ⟨f2, i2, c2⟩ := ih s1 s' h2
    refine ⟨ItemsFrame.chain f1 f2, ?_, ?_⟩
    · rw [i2, i1]; simp
    · rw [c2, c1]; simp only [List.length_cons, Nat.cast_add, Nat.cast_one]; omega

/-- For a non-zero column count the adding loop returns. -/
theorem addSaved_addSafe (B : List Nat) :
    ∀ s : LLOutfitGallery, AddSafe s → ∃ s', addSaved B s = .ok s' ∧ AddSafe s' := by
  induction B with
  | nil => intro s h; exact ⟨s, rfl, h⟩
  | cons v B ih =>
    intro s h
    obtain ⟨s1, e1, h1⟩ := addToGallery_addSafe h v
    obtain ⟨s2, e2, h2⟩ := ih s1 h1
    exact ⟨s2, bind_eq_ok.mpr ⟨s1, e1, e2⟩, h2⟩

/-! ## Opening the gallery -/

theorem loadPhotos_fields (inv : LLInventoryModel) (s : LLOutfitGallery) :
    loadPhotos inv s = { s with mTexturesObserver := (loadPhotos inv s).mTexturesObserver } := by
  unfold loadPhotos
  simp only []
  split
  · cases s; rfl
  · split <;> (cases s; rfl)

theorem buildGalleryPanel_facts (s : LLOutfitGallery) (n : Int) :
    ∃ h', buildGalleryPanel s n =
        .ok { s with panels := h', mGalleryPanel := s.panels.length + 1 } ∧
      h'.length = s.panels.length + 1 := by
  have hg : getPanel (s.panels ++ [⟨⟨0, 0, 0, 0⟩, []⟩]) (s.panels.length + 1) =
      some ⟨⟨0, 0, 0, 0⟩, []⟩ := by
    rw [getPanel_append, if_pos rfl]
  obtain ⟨h', e, len, -, -⟩ :=
    reshapeGalleryPanel_facts (s := { s with panels := s.panels ++ [⟨⟨0, 0, 0, 0⟩, []⟩],
                                             mGalleryPanel := s.panels.length + 1 }) n hg
  refine ⟨h', e, ?_⟩
  rw [len]
  show (s.panels ++ [_]).length = _
  simp

theorem shownEntries_keys {m : List (Nat × Nat)} (ho : StdMap.Ordered m) :
    ((m.filter (fun e => decide (e.2 ≠ 0))).map Prod.fst).Pairwise (fun a b => a < b) :=
  List.Pairwise.sublist (List.Sublist.map _ (List.filter_sublist _)) ho

/-- The body of `onOpen` on a gallery with nothing added yet and a non-zero column
count: the gallery panel is built and the mapped items are added in map order. -/
theorem onOpen_body {t : LLOutfitGallery} (hi : t.mItems = []) (hc : t.mItemsAddedCount = 0)
    (hr : t.mRowPanels = []) (ho : StdMap.Ordered t.mOutfitMap) (hk : t.mItemsInRow ≠ 0) :
    ∃ s2 s3, buildGalleryPanel t ((getCurrentCategories t).length : Int) = .ok s2 ∧
      addCategories (getCurrentCategories t) s2 = .ok s3 ∧
      s3.mItems = (shownEntries t).map Prod.snd ∧
      s3.mItemsAddedCount = ((shownEntries t).length : Int) := by
  obtain ⟨h', e, len⟩ := buildGalleryPanel_facts t ((getCurrentCategories t).length : Int)
  have hS : AddSafe { t with panels := h', mGalleryPanel := t.panels.length + 1 } :=
    { inRow := hk
      count := by show 0 ≤ t.mItemsAddedCount; rw [hc]
      rowsLe := by
        show rowCountFor t.mItemsAddedCount t.mItemsInRow ≤ (t.mRowPanels.length : Int)
        rw [hc, hr, rowCountFor_zero]; simp
      valid := by
        intro p hp
        have hp' : p ∈ (t.panels.length + 1) :: t.mRowPanels := hp
        rw [hr, List.mem_singleton] at hp'
        show 1 ≤ p ∧ p ≤ h'.length
        omega
      nodup := by show t.mRowPanels.Nodup; rw [hr]; exact List.nodup_nil
      last := by
        intro h
        have h' : 0 < t.mItemsAddedCount := h
        rw [hc] at h'
        exact absurd h' (lt_irrefl _) }
  have hfind : ∀ e, e ∈ shownEntries t →
      StdMap.find ({ t with panels := h', mGalleryPanel := t.panels.length + 1 } :
        LLOutfitGallery).mOutfitMap e.1 = some e.2 := by
    intro e he
    exact StdMap.find_of_mem ho (List.mem_of_mem_filter he)
  obtain ⟨s3, e3, -⟩ := addSaved_addSafe ((shownEntries t).map Prod.snd) _ hS
  have e3' : addCategories (getCurrentCategories t)
      { t with panels := h', mGalleryPanel := t.panels.length + 1 } = .ok s3 := by
    rw [← e3]
    exact addCategories_eq_addSaved (shownEntries t) _ hfind
  obtain ⟨-, i3, c3⟩ := addSaved_items _ _ _ e3
  refine ⟨_, s3, e, e3', ?_, ?_⟩
  · rw [i3]
    show t.mItems ++ _ = _
    rw [hi, List.nil_append]
  · rw [c3]
    show t.mItemsAddedCount + _ = _
    rw [hc, List.length_map]; simp

/-- C10 as stated fails: the gallery `gZero1` is not yet created, nothing has been
added to it, its outfit map is ordered and holds the single entry `7 -> item 1`, but
it was constructed with `items_in_row = 0`, and `onOpen` stops at the division
`n % mItemsInRow` of `addToGallery` before any item is in `mItems`. -/
theorem onOpen_counterexample :
    NotYetCreated gZero1 ∧ StdMap.Ordered gZero1.mOutfitMap ∧
      shownEntries gZero1 = [(7, 1)] ∧
      onOpen inv0 gZero1 = .error Fault.divByZero ∧
      ¬ ∃ s', onOpen inv0 gZero1 = .ok s' ∧ OpenedFrom gZero1 s' := by
  refine ⟨⟨rfl, rfl, rfl, rfl⟩, ?_, rfl, rfl, ?_⟩
  · unfold StdMap.Ordered; decide
  · rintro ⟨s', h, -⟩
    have e : onOpen inv0 gZero1 = .error Fault.divByZero := rfl
    rw [e] at h
    cases h

/-- C10 as amended: on a gallery not yet created (`mGalleryCreated` false, no items
added) whose column count `mItemsInRow` is not zero, `onOpen` returns and has added
exactly the items of those `mOutfitMap` entries whose item is non-null, in ascending
category-id order: afterwards `mItems` is that list, `mItemsAddedCount` is its
length and `mGalleryCreated` is true; entries with a null item are skipped. -/
theorem onOpen_adds_entries (inv : LLInventoryModel) {s : LLOutfitGallery}
    (hN : NotYetCreated s) (ho : StdMap.Ordered s.mOutfitMap) (hk : s.mItemsInRow ≠ 0) :
    ∃ s', onOpen inv s = .ok s' ∧ OpenedFrom s s' := by
  obtain ⟨hcr, hi, hc, hr⟩ := hN
  have hf := loadPhotos_fields inv s
  have hm : (loadPhotos inv s).mOutfitMap = s.mOutfitMap := by rw [hf]
  have hse : shownEntries (loadPhotos inv s) = shownEntries s := by
    unfold shownEntries; rw [hm]
  obtain ⟨s2, s3, e2, e3, i3, c3⟩ := onOpen_body (t := loadPhotos inv s)
    (by rw [hf]; exact hi) (by rw [hf]; exact hc) (by rw [hf]; exact hr)
    (by rw [hm]; exact ho) (by rw [hf]; exact hk)
  refine ⟨{ s3 with mGalleryCreated := true }, ?_, shownEntries_keys ho, ?_, ?_, rfl⟩
  · unfold onOpen
    rw [hcr]
    simp only [Bool.not_false, if_true]
    exact bind_eq_ok.mpr ⟨s2, e2, bind_eq_ok.mpr ⟨s3, e3, rfl⟩⟩
  · show s3.mItems = _
    rw [i3, hse]
  · show s3.mItemsAddedCount = _
    rw [c3, hse]

theorem onOpen_adds_entries_witness :
    NotYetCreated listed ∧ StdMap.Ordered listed.mOutfitMap ∧ listed.mItemsInRow ≠ 0 ∧
      ∃ s', onOpen inv0 listed = .ok s' ∧ OpenedFrom listed s' :=
  ⟨⟨rfl, rfl, rfl, rfl⟩, by unfold StdMap.Ordered; decide, by decide,
    onOpen_adds_entries inv0 ⟨rfl, rfl, rfl, rfl⟩ (by unfold StdMap.Ordered; decide)
      (by decide)⟩

/-! ## Ordered maps under `assign` and `erase` -/

theorem StdMap.mem_keys_assign {V : Type} (m : List (Nat × V)) (k x : Nat) (v : V) :
    x ∈ StdMap.keys (StdMap.assign m k v) ↔ x = k ∨ x ∈ StdMap.keys m := by
  rw [StdMap.mem_keys_iff, StdMap.mem_keys_iff, StdMap.find_assign]
  by_cases h : x = k <;> simp [h]

theorem StdMap.ordered_assign {V : Type} {m : List (Nat × V)} (ho : StdMap.Ordered m) (k : Nat)
    (v : V) : StdMap.Ordered (StdMap.assign m k v) := by
  induction m with
  | nil => simp [StdMap.Ordered, StdMap.assign, StdMap.keys]
  | cons e t ih =>
    obtain ⟨a, b⟩ := e
    have ho' : (a :: StdMap.keys t).Pairwise (fun a b => a < b) := ho
    rw [List.pairwise_cons] at ho'
    simp only [StdMap.assign]
    by_cases h1 : k < a
    · rw [if_pos h1]
      show (k :: a :: StdMap.keys t).Pairwise (fun a b => a < b)
      rw [List.pairwise_cons]
      refine ⟨?_, ho⟩
      intro x hx
      rw [List.mem_cons] at hx
      rcases hx with hx | hx
      · omega
      · have := ho'.1 x hx; omega
    · rw [if_neg h1]
      by_cases h2 : k = a
      · rw [if_pos h2]; exact ho
      · rw [if_neg h2]
        show (a :: StdMap.keys (StdMap.assign t k v)).Pairwise (fun a b => a < b)
        rw [List.pairwise_cons]
        refine ⟨?_, ih ho'.2⟩
        intro x hx
        rw [StdMap.mem_keys_assign] at hx
        rcases hx with hx | hx
        · omega
        · exact ho'.1 x hx

theorem StdMap.ordered_erase {V : Type} {m : List (Nat × V)} (ho : StdMap.Ordered m) (k : Nat) :
    StdMap.Ordered (StdMap.erase m k) :=
  List.Pairwise.sublist (List.Sublist.map _ (List.filter_sublist _)) ho

theorem StdMap.insert_of_find_none {V : Type} {m : List (Nat × V)} {k : Nat} (v : V)
    (h : StdMap.find m k = none) : StdMap.insert m k v = StdMap.assign m k v := by
  simp [StdMap.insert, h]

theorem StdMap.nodup_of_ordered {V : Type} {m : List (Nat × V)} (ho : StdMap.Ordered m) :
    m.Nodup := by
  have h1 : (StdMap.keys m).Nodup := List.Pairwise.imp (fun h => Nat.ne_of_lt h) ho
  exact List.Nodup.of_map _ h1

/-! ## Calls that leave the gallery as it is -/

theorem sameGallery_refl (s : LLOutfitGallery) : SameGallery s s :=
  ⟨rfl, rfl, rfl, rfl, rfl, rfl⟩

theorem sameGallery_trans {a b c : LLOutfitGallery} (h₁ : SameGallery a b)
    (h₂ : SameGallery b c) : SameGallery a c := by
  obtain ⟨a1, a2, a3, a4, a5, a6⟩ := h₁
  obtain ⟨b1, b2, b3, b4, b5, b6⟩ := h₂
  exact ⟨b1.trans a1, b2.trans a2, b3.trans a3, b4.trans a4, b5.trans a5, b6.trans a6⟩

theorem onItem_same {s s' : LLOutfitGallery} {p : Nat}
    {f : LLOutfitGalleryItem → LLOutfitGalleryItem} (h : onItem s p f = .ok s') :
    SameGallery s s' := by
  unfold onItem at h
  rcases p with _ | q
  · cases h
  · simp only [] at h
    split at h
    · cases h
      exact ⟨rfl, rfl, rfl, rfl, by simp, rfl⟩
    · cases h

theorem refreshOutfitLoop_same (c v : Nat) (l : List LLViewerInventoryItem) :
    ∀ (b : Bool) (s s' : LLOutfitGallery), StdMap.find s.mOutfitMap c = some v →
      refreshOutfitLoop c l b s = .ok s' → SameGallery s s' := by
  induction l with
  | nil =>
    intro b s s' _ h
    have : s = s' := pure_eq_ok.mp h
    subst this
    exact sameGallery_refl s
  | cons x rest ih =>
    intro b s s' hf h
    unfold refreshOutfitLoop at h
    split at h
    · cases h
    · rename_i ty asset _
      rw [outfitAt_of_find hf] at h
      split at h
      · exact onItem_same h
      · simp only [] at h
        split at h
        · rw [bind_eq_ok] at h
          obtain ⟨s1, h1, h2⟩ := h
          have hs1 : SameGallery s s1 := onItem_same h1
          have hf1 : StdMap.find s1.mOutfitMap c = some v := by rw [hs1.2.2.2.1]; exact hf
          exact sameGallery_trans hs1 (ih b s1 s' hf1 h2)
        · rw [pure_bind] at h
          exact ih b s s' hf h

theorem refreshOutfit_same {inv : LLInventoryModel} {s s' : LLOutfitGallery} {c v : Nat}
    (hf : StdMap.find s.mOutfitMap c = some v) (h : refreshOutfit inv s c = .ok s') :
    SameGallery s s' := by
  unfold refreshOutfit at h
  split at h
  · cases h
  · exact refreshOutfitLoop_same c v _ _ s s' hf h

theorem dieIfNotNull_same {s s' : LLOutfitGallery} {item : Nat}
    (h : dieIfNotNull s item = .ok s') : SameGallery s s' := by
  unfold dieIfNotNull at h
  split at h
  · exact onItem_same h
  · have : s = s' := pure_eq_ok.mp h
    subst this; exact sameGallery_refl s

theorem ItemsFrame.sameOutside {s s' : LLOutfitGallery} (h : ItemsFrame s s') :
    s'.mOutfitMap = s.mOutfitMap ∧ s'.items.length = s.items.length ∧
      s'.mGalleryCreated = s.mGalleryCreated :=
  ⟨h.outfitMap_eq, by rw [h.itemHeap_eq], h.galleryCreated_eq⟩

/-! ## The run invariant -/

theorem IdxInv.of_fields {s s' : LLOutfitGallery} (h : IdxInv s) (h1 : s'.mItems = s.mItems)
    (h2 : s'.mItemsAddedCount = s.mItemsAddedCount) (h3 : s'.mItemIndexMap = s.mItemIndexMap) :
    IdxInv s' :=
  { count := by rw [h1, h2]; exact h.count
    nodup := by rw [h1]; exact h.nodup
    pos := by rw [h1, h3]; exact h.pos
    keys := by rw [h1, h3]; exact h.keys }

theorem RunInv.of_same {s s' : LLOutfitGallery} (h : RunInv s) (hs : SameGallery s s') :
    RunInv s' := by
  obtain ⟨e1, e2, e3, e4, e5, e6⟩ := hs
  exact
    { idx := h.idx.of_fields e1 e2 e3
      ordered := by rw [e4]; exact h.ordered
      live := by rw [e4, e5]; exact h.live
      inj := by rw [e4]; exact h.inj
      closed := by rw [e6, e1]; exact h.closed
      shown := by rw [e6, e1, e4]; exact h.shown }

theorem runInv_construct (p : Params) (w : String) (r : LLRect) (l : Nat) :
    RunInv (construct p w r l) :=
  { idx := isEmptyGallery_idxInv ⟨rfl, rfl, rfl, rfl, rfl, rfl, ⟨_, rfl⟩⟩
    ordered := List.Pairwise.nil
    live := by intro c v h; simp [construct, StdMap.find] at h
    inj := by intro c c' v _ h; simp [construct, StdMap.find] at h
    closed := fun _ => rfl
    shown := by intro h; simp [construct] at h }

/-- The invariant after a category without an entry has been added. -/
theorem RunInv.add {s s2 : LLOutfitGallery} {c : Nat} (hI : RunInv s)
    (hf : StdMap.find s.mOutfitMap c = none)
    (hm : s2.mOutfitMap = StdMap.assign s.mOutfitMap c (s.items.length + 1))
    (hl : s2.items.length = s.items.length + 1)
    (hc : s2.mGalleryCreated = s.mGalleryCreated) (hx : IdxInv s2)
    (hi : s2.mItems = if s.mGalleryCreated = true then s.mItems ++ [s.items.length + 1]
      else s.mItems) : RunInv s2 :=
  { idx := hx
    ordered := by rw [hm]; exact StdMap.ordered_assign hI.ordered _ _
    live := by
      intro c' v h
      rw [hm, StdMap.find_assign] at h
      rw [hl]
      split at h
      · cases h; omega
      · have := hI.live c' v h; omega
    inj := by
      intro c1 c2 v hv h1 h2
      rw [hm, StdMap.find_assign] at h1 h2
      split at h1 <;> split at h2
      · rename_i a b; rw [a, b]
      · cases h1; have := hI.live c2 _ h2; omega
      · cases h2; have := hI.live c1 _ h1; omega
      · exact hI.inj c1 c2 v hv h1 h2
    closed := by
      intro h
      rw [hc] at h
      rw [hi, h]
      simp only [Bool.false_eq_true, if_false]
      exact hI.closed h
    shown := by
      intro h v
      rw [hc] at h
      rw [hi, if_pos h, hm, List.mem_append, List.mem_singleton, hI.shown h]
      constructor
      · rintro (⟨hv, c', hc'⟩ | hv)
        · refine ⟨hv, c', ?_⟩
          rw [StdMap.find_assign, if_neg]
          · exact hc'
          · intro e; rw [e, hf] at hc'; cases hc'
        · exact ⟨by omega, c, by rw [StdMap.find_assign, if_pos rfl, hv]⟩
      · rintro ⟨hv, c', hc'⟩
        rw [StdMap.find_assign] at hc'
        split at hc'
        · cases hc'; exact Or.inr rfl
        · exact Or.inl ⟨hv, c', hc'⟩ }

/-- The invariant after a null entry has been stored for a category without an entry. -/
theorem RunInv.addNull {s s2 : LLOutfitGallery} {c : Nat} (hI : RunInv s)
    (hf : StdMap.find s.mOutfitMap c = none)
    (hm : s2.mOutfitMap = StdMap.assign s.mOutfitMap c 0)
    (hl : s2.items.length = s.items.length)
    (hc : s2.mGalleryCreated = s.mGalleryCreated) (hx : IdxInv s2)
    (hi : s2.mItems = s.mItems) : RunInv s2 :=
  { idx := hx
    ordered := by rw [hm]; exact StdMap.ordered_assign hI.ordered _ _
    live := by
      intro c' v h
      rw [hm, StdMap.find_assign] at h
      rw [hl]
      split at h
      · cases h; omega
      · exact hI.live c' v h
    inj := by
      intro c1 c2 v hv h1 h2
      rw [hm, StdMap.find_assign] at h1 h2
      split at h1
      · cases h1; exact absurd rfl hv
      · split at h2
        · cases h2; exact absurd rfl hv
        · exact hI.inj c1 c2 v hv h1 h2
    closed := by
      intro h
      rw [hc] at h
      rw [hi]
      exact hI.closed h
    shown := by
      intro h v
      rw [hc] at h
      rw [hi, hm, hI.shown h]
      constructor
      · rintro ⟨hv, c', hc'⟩
        refine ⟨hv, c', ?_⟩
        rw [StdMap.find_assign, if_neg]
        · exact hc'
        · intro e; rw [e, hf] at hc'; cases hc'
      · rintro ⟨hv, c', hc'⟩
        rw [StdMap.find_assign] at hc'
        split at hc'
        · cases hc'; exact absurd rfl hv
        · exact ⟨hv, c', hc'⟩ }

/-- The invariant after the entry of a shown category has been removed. -/
theorem RunInv.remove {s s2 : LLOutfitGallery} {c item : Nat} (hI : RunInv s)
    (hcr : s.mGalleryCreated = true) (hf : StdMap.find s.mOutfitMap c = some item)
    (hnn : item ≠ 0)
    (hm : s2.mOutfitMap = StdMap.erase s.mOutfitMap c)
    (hl : s2.items.length = s.items.length)
    (hc : s2.mGalleryCreated = s.mGalleryCreated) (hx : IdxInv s2)
    (hi : s2.mItems = s.mItems.erase item) : RunInv s2 :=
  { idx := hx
    ordered := by rw [hm]; exact StdMap.ordered_erase hI.ordered _
    live := by
      intro c' v h
      rw [hm, StdMap.find_erase] at h
      rw [hl]
      split at h
      · cases h
      · exact hI.live c' v h
    inj := by
      intro c1 c2 v hv h1 h2
      rw [hm, StdMap.find_erase] at h1 h2
      split at h1
      · cases h1
      · split at h2
        · cases h2
        · exact hI.inj c1 c2 v hv h1 h2
    closed := by
      intro h
      rw [hc, hcr] at h
      cases h
    shown := by
      intro _ v
      rw [hi, hI.idx.nodup.mem_erase_iff, hI.shown hcr, hm]
      constructor
      · rintro ⟨hne, hv, c', hc'⟩
        refine ⟨hv, c', ?_⟩
        rw [StdMap.find_erase, if_neg]
        · exact hc'
        · intro e
          rw [e, hf] at hc'
          cases hc'; exact hne rfl
      · rintro ⟨hv, c', hc'⟩
        rw [StdMap.find_erase] at hc'
        split at hc'
        · cases hc'
        · rename_i hne
          refine ⟨?_, hv, c', hc'⟩
          intro e
          rw [e] at hc'
          exact hne (hI.inj c' c item hnn hc' hf) }

/-! ## The callbacks keep the run invariant -/

theorem removeFromGalleryMiddle_items_of {s s' : LLOutfitGallery} {item : Nat}
    (h : removeFromGalleryMiddle s item = .ok s') (hI : IdxInv s) (hm : item ∈ s.mItems) :
    ItemsFrame s s' ∧ s'.mItems = s.mItems.erase item ∧
      s'.mItemsAddedCount = s.mItemsAddedCount - 1 ∧ IdxInv s' :=
  removeFromGalleryMiddle_items hI hm h

theorem deselectOutfit_same (t : LLOutfitGallery) (c : Nat) :
    SameGallery t (deselectOutfit t c) := by
  unfold deselectOutfit; split
  · exact ⟨rfl, rfl, rfl, rfl, rfl, rfl⟩
  · exact sameGallery_refl t

theorem updateAddedCategory_runInv {inv : LLInventoryModel} {s s' : LLOutfitGallery} {c : Nat}
    (hI : RunInv s) (hcat : inv.getCategory c ≠ none)
    (hf : StdMap.find s.mOutfitMap c = none)
    (h : updateAddedCategory inv s c = .ok s') : RunInv s' := by
  unfold updateAddedCategory at h
  cases hg : inv.getCategory c with
  | none => exact absurd hg hcat
  | some cat =>
    rw [hg] at h
    simp only [buildGalleryItem, StdMap.insert_of_find_none _ hf] at h
    have hfresh : s.items.length + 1 ∉ s.mItems := by
      intro hmem
      cases hcr : s.mGalleryCreated with
      | false => rw [hI.closed hcr] at hmem; cases hmem
      | true =>
        obtain ⟨-, c', hc'⟩ := (hI.shown hcr _).mp hmem
        have := hI.live c' _ hc'
        omega
    have tail : ∀ s2 : LLOutfitGallery, RunInv s2 →
        s2.mOutfitMap = StdMap.assign s.mOutfitMap c (s.items.length + 1) →
        ∀ T : LLOutfitGallery, SameGallery s2 T → refreshOutfit inv T c = .ok s' →
        RunInv s' := by
      intro s2 hI2 hm T hT h3
      have hf2 : StdMap.find T.mOutfitMap c = some (s.items.length + 1) := by
        rw [hT.2.2.2.1, hm, StdMap.find_assign, if_pos rfl]
      exact hI2.of_same (sameGallery_trans hT (refreshOutfit_same hf2 h3))
    by_cases hcr : s.mGalleryCreated = true
    · rw [if_pos hcr, bind_eq_ok] at h
      obtain ⟨s2, h2, h3⟩ := h
      obtain ⟨fr, i2, c2, m2⟩ := addToGallery_items h2
      have hx : IdxInv s2 := by
        refine addToGallery_idx ?_ ?_ h2
        · exact IdxInv.of_fields hI.idx rfl rfl rfl
        · exact hfresh
      have hI2 : RunInv s2 := by
        refine hI.add hf ?_ ?_ ?_ hx ?_
        · rw [fr.outfitMap_eq]
        · rw [fr.itemHeap_eq]; simp
        · rw [fr.galleryCreated_eq]
        · rw [i2, if_pos hcr]
      refine tail s2 hI2 (by rw [fr.outfitMap_eq]) _ ?_ h3
      by_cases ho : s2.mOutfitsObserver = none
      · simp only [if_pos ho]; exact ⟨rfl, rfl, rfl, rfl, rfl, rfl⟩
      · simp only [if_neg ho]; exact ⟨rfl, rfl, rfl, rfl, rfl, rfl⟩
    · rw [if_neg hcr, pure_bind] at h
      have hI2 : RunInv { s with items := s.items ++ [(LLOutfitGalleryItem.create s.worn_string)],
                                 mOutfitMap := StdMap.assign s.mOutfitMap c (s.items.length + 1) } := by
        refine hI.add hf rfl (by simp) rfl ?_ ?_
        · exact IdxInv.of_fields hI.idx rfl rfl rfl
        · rw [if_neg hcr]
      refine tail _ hI2 rfl _ ?_ h
      by_cases ho : s.mOutfitsObserver = none
      · simp only [if_pos ho]; exact ⟨rfl, rfl, rfl, rfl, by simp, rfl⟩
      · simp only [if_neg ho]; exact ⟨rfl, rfl, rfl, rfl, by simp, rfl⟩

theorem updateRemovedCategory_runInv {s s' : LLOutfitGallery} {c : Nat} (hI : RunInv s)
    (hcr : s.mGalleryCreated = true) (hnn : StdMap.find s.mOutfitMap c ≠ some 0)
    (h : updateRemovedCategory s c = .ok s') : RunInv s' := by
  unfold updateRemovedCategory at h
  cases hf : StdMap.find s.mOutfitMap c with
  | none =>
    rw [hf] at h
    have := pure_eq_ok.mp h
    subst this; exact hI
  | some item =>
    rw [hf] at h
    simp only [] at h
    split at h
    · cases h
    · rename_i cats hobs
      rw [bind_eq_ok] at h
      obtain ⟨s2, h2, h3⟩ := h
      obtain ⟨d1, d2, d3, d4, d5, d6⟩ :=
        deselectOutfit_same { s with mOutfitsObserver := some (observerRemove cats c) } c
      have hne0 : item ≠ 0 := fun e => hnn (by rw [hf, e])
      have hmem : item ∈ s.mItems := (hI.shown hcr item).mpr ⟨hne0, c, hf⟩
      obtain ⟨fr, i2, c2, x2⟩ := removeFromGalleryMiddle_items_of h2
        (IdxInv.of_fields hI.idx d1 d2 d3) (by rw [← d1] at hmem; exact hmem)
      have hI2 : RunInv s2 := by
        refine hI.remove hcr hf hne0 ?_ ?_ ?_ x2 ?_
        · rw [fr.outfitMap_eq]
          exact congrArg (fun m => StdMap.erase m c) d4
        · rw [fr.itemHeap_eq]; exact d5
        · rw [fr.galleryCreated_eq]; exact d6
        · rw [i2]
          exact congrArg (fun l => l.erase item) d1
      exact hI2.of_same (dieIfNotNull_same h3)

theorem onOpen_runInv {inv : LLInventoryModel} {s s' : LLOutfitGallery} (hI : RunInv s)
    (h : onOpen inv s = .ok s') : RunInv s' := by
  unfold onOpen at h
  cases hcr : s.mGalleryCreated with
  | true =>
    rw [hcr] at h
    have := pure_eq_ok.mp h
    subst this; exact hI
  | false =>
    rw [hcr] at h
    simp only [Bool.not_false, if_true] at h
    rw [bind_eq_ok] at h
    obtain ⟨s2, h2, h⟩ := h
    rw [bind_eq_ok] at h
    obtain ⟨s3, h3, h4⟩ := h
    have e4 := pure_eq_ok.mp h4
    have hf := loadPhotos_fields inv s
    have hm1 : (loadPhotos inv s).mOutfitMap = s.mOutfitMap := by rw [hf]
    obtain ⟨hp, e, -⟩ := buildGalleryPanel_facts (loadPhotos inv s)
      ((getCurrentCategories (loadPhotos inv s)).length : Int)
    rw [e] at h2
    have e2 := Except.ok.inj h2
    have f1 : s2.mItems = s.mItems := by rw [← e2, hf]
    have f2 : s2.mItemsAddedCount = s.mItemsAddedCount := by rw [← e2, hf]
    have f3 : s2.mItemIndexMap = s.mItemIndexMap := by rw [← e2, hf]
    have f4 : s2.mOutfitMap = s.mOutfitMap := by rw [← e2, hf]
    have f5 : s2.items = s.items := by rw [← e2, hf]
    have hse : shownEntries (loadPhotos inv s) = shownEntries s := by
      unfold shownEntries; rw [hm1]
    have hfind : ∀ e, e ∈ shownEntries s → StdMap.find s.mOutfitMap e.1 = some e.2 :=
      fun e he => StdMap.find_of_mem hI.ordered (List.mem_of_mem_filter he)
    have h3' : addSaved ((shownEntries s).map Prod.snd) s2 = .ok s3 := by
      rw [← h3, ← addCategories_eq_addSaved (shownEntries s) s2
        (fun e he => by rw [f4]; exact hfind e he)]
      show _ = addCategories ((shownEntries (loadPhotos inv s)).map Prod.fst) s2
      rw [hse]
    have hnil : s2.mItems = [] := by rw [f1]; exact hI.closed hcr
    have hnd : ((shownEntries s).map Prod.snd).Nodup := by
      refine List.Nodup.map_on ?_ ((StdMap.nodup_of_ordered hI.ordered).filter _)
      intro x hx y hy hxy
      have hx' := hfind x hx
      have hy' := hfind y hy
      rw [← hxy] at hy'
      have hx0 : x.2 ≠ 0 := by
        have := (List.mem_filter.mp hx).2
        simpa using this
      exact Prod.ext (hI.inj _ _ _ hx0 hx' hy') hxy
    obtain ⟨fr, i3, x3⟩ := addSaved_idx _ s2 s3 h3'
      (by rw [f1, f2]; exact hI.idx.count)
      (by rw [hnil, List.nil_append]; exact hnd)
      (by rw [f1, f3]; exact hI.idx.pos)
      (by intro k hk; rw [f3] at hk; rw [f1]; exact List.mem_append_left _ (hI.idx.keys k hk))
    rw [hnil, List.nil_append] at i3
    have g4 : s3.mOutfitMap = s.mOutfitMap := by rw [fr.outfitMap_eq, f4]
    have g5 : s3.items = s.items := by rw [fr.itemHeap_eq, f5]
    rw [← e4]
    exact
      { idx := @IdxInv.of_fields s3 { s3 with mGalleryCreated := true } x3 rfl rfl rfl
        ordered := by show StdMap.Ordered s3.mOutfitMap; rw [g4]; exact hI.ordered
        live := by
          show ∀ c v, StdMap.find s3.mOutfitMap c = some v → v ≤ s3.items.length
          rw [g4, g5]; exact hI.live
        inj := by
          show ∀ c c' v, v ≠ 0 → StdMap.find s3.mOutfitMap c = some v →
            StdMap.find s3.mOutfitMap c' = some v → c = c'
          rw [g4]; exact hI.inj
        closed := by intro hc; cases hc
        shown := by
          intro _ v
          show v ∈ s3.mItems ↔ v ≠ 0 ∧ ∃ c, StdMap.find s3.mOutfitMap c = some v
          rw [i3, g4, List.mem_map]
          constructor
          · rintro ⟨x, hx, rfl⟩
            have hx0 : x.2 ≠ 0 := by
              have := (List.mem_filter.mp hx).2
              simpa using this
            exact ⟨hx0, x.1, hfind x hx⟩
          · rintro ⟨hv, c, hc⟩
            refine ⟨(c, v), ?_, rfl⟩
            unfold shownEntries
            rw [List.mem_filter]
            refine ⟨StdMap.mem_of_find hc, ?_⟩
            simpa using hv }

theorem pair_match {α β γ : Type} (r : α × β) (f : α → β → γ) :
    (match r with | (a, b) => f a b) = f r.1 r.2 := by
  cases r; rfl

theorem onHighlightBaseOutfit_halves (s : LLOutfitGallery) (base_id prev_id : Nat) :
    onHighlightBaseOutfit s base_id prev_id =
      ((if (outfitAt s base_id).1 ≠ 0 then
          onItem (outfitAt (outfitAt s base_id).2 base_id).2
            (outfitAt (outfitAt s base_id).2 base_id).1
            (fun it => it.setOutfitWorn
              (outfitAt (outfitAt s base_id).2 base_id).2.worn_string true)
        else pure (outfitAt s base_id).2) >>= fun s =>
        if (outfitAt s prev_id).1 ≠ 0 then
          onItem (outfitAt (outfitAt s prev_id).2 prev_id).2
            (outfitAt (outfitAt s prev_id).2 prev_id).1
            (fun it => it.setOutfitWorn
              (outfitAt (outfitAt s prev_id).2 prev_id).2.worn_string false)
        else pure (outfitAt s prev_id).2) := by
  unfold onHighlightBaseOutfit
  simp only [pair_match]
  by_cases h : (outfitAt s base_id).1 ≠ 0
  · rw [if_pos h, if_pos h]
  · rw [if_neg h, if_neg h]

/-- One half of `onHighlightBaseOutfit` keeps the run invariant. -/
theorem highlight_half_runInv {s s1 : LLOutfitGallery} (c : Nat) (v : Bool) (hI : RunInv s)
    (h : (if (outfitAt s c).1 ≠ 0 then
          onItem (outfitAt (outfitAt s c).2 c).2 (outfitAt (outfitAt s c).2 c).1
            (fun it => it.setOutfitWorn (outfitAt (outfitAt s c).2 c).2.worn_string v)
        else pure (outfitAt s c).2) = .ok s1) : RunInv s1 := by
  cases hf : StdMap.find s.mOutfitMap c with
  | none =>
    have e : outfitAt s c = (0, { s with mOutfitMap := StdMap.assign s.mOutfitMap c 0 }) := by
      unfold outfitAt; rw [StdMap.index_of_find_none 0 hf]
    rw [e] at h
    simp only [ne_eq, not_true_eq_false, if_false] at h
    have := pure_eq_ok.mp h
    subst this
    exact hI.addNull hf rfl rfl rfl (IdxInv.of_fields hI.idx rfl rfl rfl) rfl
  | some w =>
    rw [outfitAt_of_find hf] at h
    simp only [outfitAt_of_find hf] at h
    split at h
    · exact hI.of_same (onItem_same h)
    · have := pure_eq_ok.mp h
      subst this
      exact hI

theorem onHighlightBaseOutfit_runInv {s s' : LLOutfitGallery} {base_id prev_id : Nat}
    (hI : RunInv s) (h : onHighlightBaseOutfit s base_id prev_id = .ok s') : RunInv s' := by
  rw [onHighlightBaseOutfit_halves, bind_eq_ok] at h
  obtain ⟨s1, h1, h2⟩ := h
  exact highlight_half_runInv prev_id false (highlight_half_runInv base_id true hI h1) h2

theorem galleryRun_runInv {inv : LLInventoryModel} {s : LLOutfitGallery}
    (h : GalleryRun inv true s) : RunInv s := by
  induction h with
  | constructed p w r l => exact runInv_construct p w r l
  | opened _ ho ih => exact onOpen_runInv ih ho
  | added c _ hc hf ha ih => exact updateAddedCategory_runInv ih hc (hf rfl) ha
  | removed c _ _ hcr hnn hr ih => exact updateRemovedCategory_runInv ih hcr (hnn rfl) hr
  | rehighlighted b p _ hh ih => exact onHighlightBaseOutfit_runInv ih hh

/-- C11: for every item state and every boolean `v`, `setSelected(v)` sets `mSelected`
to `v` and leaves `mWorn` unchanged, `setOutfitWorn(v)` sets `mWorn` to `v` and leaves
`mSelected` unchanged, and after either call the worn text shown is the worn string
if `mWorn` is true and the empty string otherwise. -/
theorem worn_and_selected_independent (worn_string : String) (it : LLOutfitGalleryItem)
    (v : Bool) :
    ((it.setSelected worn_string v).mSelected = v ∧
      (it.setSelected worn_string v).mWorn = it.mWorn ∧
      (it.setSelected worn_string v).mOutfitWornText =
        if (it.setSelected worn_string v).mWorn then worn_string else "") ∧
    ((it.setOutfitWorn worn_string v).mWorn = v ∧
      (it.setOutfitWorn worn_string v).mSelected = it.mSelected ∧
      (it.setOutfitWorn worn_string v).mOutfitWornText =
        if (it.setOutfitWorn worn_string v).mWorn then worn_string else "") :=
  ⟨⟨rfl, rfl, rfl⟩, ⟨rfl, rfl, rfl⟩⟩

/-- C12, the failing run: the gallery waits for the photo of outfit folder `7`, and
the only texture is named `photo 00000000-0000-0000-0000-000000000007`.  The name
contains the string form of the pending id, but the loop of `refreshTextures`
compares with `==`: no item is chosen and `mOutfitLinkPending` stays `7`. -/
theorem refreshTextures_name_contains :
    pending7.mOutfitLinkPending = 7 ∧
    photoItems.map (fun i => i.mName) = ["photo 00000000-0000-0000-0000-000000000007"] ∧
    LLUUID.asString 7 = "00000000-0000-0000-0000-000000000007" ∧
    (∀ i, i ∈ photoItems → NameContains i.mName (LLUUID.asString 7)) ∧
    findPhotoUpload pending7.mOutfitLinkPending photoItems = none ∧
    refreshTextures inv0 photoItems pending7 = .ok pending7 := by
  refine ⟨rfl, by decide, by decide, ?_, by decide, ?_⟩
  · intro i hi
    have hi' : i ∈ [(⟨80, "photo " ++ LLUUID.asString 7, some (.AT_TEXTURE, 800)⟩ :
        LLViewerInventoryItem)] := hi
    rw [List.mem_singleton] at hi'
    subst hi'
    exact ⟨"photo ".data, [], by decide⟩
  · have e : findPhotoUpload pending7.mOutfitLinkPending photoItems = none := by decide
    unfold refreshTextures
    rw [e]
    rfl

/-- C13, the failing runs: in the gallery `g1`, whose only item is `11`, and in the
gallery `g4`, whose first item is `11`, `removeFromGalleryMiddle(11)` stops at an
out-of-range read: `removeLastRow` pops the only row panel and then reads
`mRowPanels.back()` on the empty vector.  Removing item `12` from `g4` reads within
bounds and returns. -/
theorem removeFromGalleryMiddle_reads_empty :
    (Reach g1 ∧ 0 < g1.mItemsInRow ∧ g1.mItems = [11] ∧ g1.mRowPanels.length = 1 ∧
      removeFromGalleryMiddle g1 11 = .error Fault.outOfRange) ∧
    (Reach g4 ∧ 0 < g4.mItemsInRow ∧ g4.mItems = [11, 12, 13, 14] ∧
      removeFromGalleryMiddle g4 11 = .error Fault.outOfRange) ∧
    (∃ s', removeFromGalleryMiddle g4 12 = .ok s' ∧ s'.mItems = [11, 13, 14]) :=
  ⟨⟨g1_reach, by decide, rfl, rfl, rfl⟩, ⟨g4_reach, by decide, rfl, rfl⟩, ⟨_, rfl, rfl⟩⟩

/-- C14, the failing run: item `1` of the gallery `opened7` shows the texture of
asset `710`, and outfit folder `7` has since been emptied.  `refreshOutfit(7)` runs
its loop over no descendant item, so `setDefaultImage` is never called and the item
keeps the texture. -/
theorem refreshOutfit_keeps_stale_image :
    inv7empty.getCategory 7 = some ⟨7, "formal", []⟩ ∧
    StdMap.find opened7.mOutfitMap 7 = some 1 ∧
    (opened7.items.map (fun i => i.mTexturep)) = [some 710] ∧
    refreshOutfit inv7empty opened7 7 = .ok opened7 :=
  ⟨rfl, rfl, rfl, rfl⟩

/-! ## Highlighting the base outfit -/

theorem getItem_some_iff {h : List LLOutfitGalleryItem} {p : Nat} :
    (∃ x, getItem h p = some x) ↔ 1 ≤ p ∧ p ≤ h.length := by
  rcases p with _ | q
  · simp [getItem]
  · simp only [getItem]
    constructor
    · rintro ⟨x, hx⟩
      have := (List.getElem?_eq_some_iff.mp hx).1
      omega
    · rintro ⟨-, h2⟩
      have h3 : q < h.length := by omega
      exact ⟨h[q], List.getElem?_eq_getElem h3⟩

theorem onItem_spec {s : LLOutfitGallery} {p : Nat} {x : LLOutfitGalleryItem}
    (f : LLOutfitGalleryItem → LLOutfitGalleryItem) (h : getItem s.items p = some x) :
    ∃ h', onItem s p f = .ok { s with items := h' } ∧ h'.length = s.items.length ∧
      ∀ q, getItem h' q = if q = p then some (f x) else getItem s.items q := by
  rcases p with _ | r
  · simp [getItem] at h
  · simp only [getItem] at h
    have hr : r < s.items.length := (List.getElem?_eq_some_iff.mp h).1
    refine ⟨s.items.set r (f x), by simp only [onItem, h], by simp, ?_⟩
    intro q
    rcases q with _ | q
    · simp [getItem]
    · simp only [getItem, Nat.add_right_cancel_iff, List.getElem?_set]
      by_cases hq : r = q
      · subst hq; simp [hr]
      · rw [if_neg hq, if_neg (Ne.symm hq)]

theorem outfitAt_fst (s : LLOutfitGallery) (c : Nat) : (outfitAt s c).1 = mappedItem s c := by
  unfold outfitAt StdMap.index mappedItem
  cases find_c : StdMap.find s.mOutfitMap c <;> rfl

theorem outfitAt_snd (s : LLOutfitGallery) (c : Nat) :
    (outfitAt s c).2 = { s with mOutfitMap := (outfitAt s c).2.mOutfitMap } ∧
      ∀ c', StdMap.find (outfitAt s c).2.mOutfitMap c' =
        if c' = c then some (mappedItem s c) else StdMap.find s.mOutfitMap c' := by
  cases hf : StdMap.find s.mOutfitMap c with
  | none =>
    have hm : mappedItem s c = 0 := by simp [mappedItem, hf]
    have e : outfitAt s c = (0, { s with mOutfitMap := StdMap.assign s.mOutfitMap c 0 }) := by
      unfold outfitAt; rw [StdMap.index_of_find_none 0 hf]
    rw [e, hm]
    exact ⟨rfl, fun c' => StdMap.find_assign _ _ _ _⟩
  | some v =>
    have hm : mappedItem s c = v := by simp [mappedItem, hf]
    rw [outfitAt_of_find hf, hm]
    refine ⟨rfl, ?_⟩
    intro c'
    show StdMap.find s.mOutfitMap c' = _
    by_cases hc : c' = c
    · rw [if_pos hc, hc, hf]
    · rw [if_neg hc]

/-- One half of `onHighlightBaseOutfit`: `if (mOutfitMap[id]) mOutfitMap[id]->setOutfitWorn(v)`. -/
theorem highlight_half (s : LLOutfitGallery) (c : Nat) (v : Bool)
    (hlive : mappedItem s c ≤ s.items.length) :
    ∃ s1, (if (outfitAt s c).1 ≠ 0 then
          onItem (outfitAt (outfitAt s c).2 c).2 (outfitAt (outfitAt s c).2 c).1
            (fun it => it.setOutfitWorn (outfitAt (outfitAt s c).2 c).2.worn_string v)
        else pure (outfitAt s c).2) = .ok s1 ∧
      s1.mItems = s.mItems ∧ s1.worn_string = s.worn_string ∧
      s1.items.length = s.items.length ∧
      (∀ c', StdMap.find s1.mOutfitMap c' =
        if c' = c then some (mappedItem s c) else StdMap.find s.mOutfitMap c') ∧
      (∀ q, getItem s1.items q =
        if q = mappedItem s c then (getItem s.items q).map (fun it => it.setOutfitWorn s.worn_string v)
        else getItem s.items q) := by
  obtain ⟨e1, f1⟩ := outfitAt_snd s c
  have m1 : mappedItem (outfitAt s c).2 c = mappedItem s c := by
    unfold mappedItem
    rw [f1 c, if_pos rfl]; rfl
  obtain ⟨e2, f2⟩ := outfitAt_snd (outfitAt s c).2 c
  have f2' : ∀ c', StdMap.find (outfitAt (outfitAt s c).2 c).2.mOutfitMap c' =
      if c' = c then some (mappedItem s c) else StdMap.find s.mOutfitMap c' := by
    intro c'
    rw [f2 c', m1, f1 c']
    by_cases hc : c' = c
    · simp only [if_pos hc]
    · simp only [if_neg hc]
  have i1 : (outfitAt s c).2.items = s.items := by rw [e1]
  have i2 : (outfitAt (outfitAt s c).2 c).2.items = s.items := by rw [e2, ← i1]
  have w2 : (outfitAt (outfitAt s c).2 c).2.worn_string = s.worn_string := by
    rw [e2]; show (outfitAt s c).2.worn_string = _; rw [e1]
  have t2 : (outfitAt (outfitAt s c).2 c).2.mItems = s.mItems := by
    rw [e2]; show (outfitAt s c).2.mItems = _; rw [e1]
  by_cases hp : mappedItem s c = 0
  · rw [outfitAt_fst, if_neg (not_not.mpr hp)]
    refine ⟨_, rfl, by rw [e1], by rw [e1], by rw [i1], f1, ?_⟩
    intro q
    rw [i1, hp]
    by_cases hq : q = 0
    · subst hq; simp [getItem]
    · rw [if_neg hq]
  · rw [outfitAt_fst, if_pos hp, outfitAt_fst, m1]
    obtain ⟨x, hx⟩ := getItem_some_iff.mpr ⟨Nat.one_le_iff_ne_zero.mpr hp, hlive⟩
    obtain ⟨h', e, len, g⟩ := onItem_spec (s := (outfitAt (outfitAt s c).2 c).2)
      (fun it => it.setOutfitWorn (outfitAt (outfitAt s c).2 c).2.worn_string v)
      (by rw [i2]; exact hx)
    refine ⟨_, e, t2, w2, by rw [← i2]; exact len, f2', ?_⟩
    intro q
    show getItem h' q = _
    rw [g q, i2, w2]
    by_cases hq : q = mappedItem s c
    · rw [if_pos hq, if_pos hq, hq, hx]; rfl
    · rw [if_neg hq, if_neg hq]

theorem mappedItem_of_ne_zero {s : LLOutfitGallery} {c : Nat} (h : mappedItem s c ≠ 0) :
    StdMap.find s.mOutfitMap c = some (mappedItem s c) := by
  unfold mappedItem at h ⊢
  cases hf : StdMap.find s.mOutfitMap c with
  | none => rw [hf] at h; exact absurd rfl h
  | some v => rfl

theorem mappedItem_live {s : LLOutfitGallery} (hw : ItemsMapped s) (c : Nat) :
    mappedItem s c ≤ s.items.length := by
  by_cases h : mappedItem s c = 0
  · rw [h]; exact Nat.zero_le _
  · exact hw.1 c _ (mappedItem_of_ne_zero h)

theorem itemsMapped_of_entries {s : LLOutfitGallery}
    (h1 : ∀ e, e ∈ s.mOutfitMap → e.2 ≤ s.items.length)
    (h2 : ∀ e, e ∈ s.mOutfitMap → ∀ e', e' ∈ s.mOutfitMap → e.2 ≠ 0 → e.2 = e'.2 →
      e.1 = e'.1) :
    ItemsMapped s :=
  ⟨fun c v h => h1 (c, v) (StdMap.mem_of_find h),
   fun c c' v hv h h' => h2 (c, v) (StdMap.mem_of_find h) (c', v) (StdMap.mem_of_find h') hv rfl⟩

theorem opened7_itemsMapped : ItemsMapped opened7 :=
  itemsMapped_of_entries (s := opened7) (by decide) (by decide)

theorem opened57_itemsMapped : ItemsMapped opened57 :=
  itemsMapped_of_entries (s := opened57) (by decide) (by decide)

/-- C15 as stated fails for `base_id = prev_id`: in the gallery `opened7`, which maps
folder `7` to item `1`, `onHighlightBaseOutfit(7, 7)` sets the worn flag of item `1`
and then clears it again, so the item mapped to `base_id` is not worn afterwards. -/
theorem onHighlightBaseOutfit_counterexample :
    ItemsMapped opened7 ∧ mappedItem opened7 7 = 1 ∧
      onHighlightBaseOutfit opened7 7 7 = .ok same7 ∧
      (getItem same7.items 1).map (fun x => x.mWorn) = some false ∧
      ¬ HighlightEffect opened7 7 7 same7 := by
  refine ⟨opened7_itemsMapped, rfl, rfl, rfl, ?_⟩
  rintro ⟨-, hb, -⟩
  obtain ⟨x, hx, hworn⟩ := hb (by decide)
  have e : (getItem same7.items (mappedItem opened7 7)).map (fun x => x.mWorn) = some false :=
    rfl
  rw [hx] at e
  simp only [Option.map_some', Option.some.injEq] at e
  rw [e] at hworn
  cases hworn

/-- C15 as amended: in a gallery whose outfit map holds null or live item pointers
with no item shared by two categories, for all category ids `base_id` and `prev_id`
that differ, `onHighlightBaseOutfit(base_id, prev_id)` returns, the item mapped to
`base_id` (if non-null) has its worn flag set, the item mapped to `prev_id` (if
non-null) has its worn flag cleared, no other item's worn flag changes, and `mItems`
is unchanged. -/
theorem onHighlightBaseOutfit_sets_flags {s : LLOutfitGallery} {base_id prev_id : Nat}
    (hw : ItemsMapped s) (hne : base_id ≠ prev_id) :
    ∃ s', onHighlightBaseOutfit s base_id prev_id = .ok s' ∧
      HighlightEffect s base_id prev_id s' := by
  rw [onHighlightBaseOutfit_halves]
  obtain ⟨s1, e1, t1, w1, l1, f1, g1⟩ :=
    highlight_half s base_id true (mappedItem_live hw base_id)
  have mp : mappedItem s1 prev_id = mappedItem s prev_id := by
    unfold mappedItem
    rw [f1 prev_id, if_neg (Ne.symm hne)]
  obtain ⟨s2, e2, t2, w2, l2, f2, g2⟩ :=
    highlight_half s1 prev_id false (by rw [mp, l1]; exact mappedItem_live hw prev_id)
  have hdiff : mappedItem s base_id ≠ 0 → mappedItem s base_id ≠ mappedItem s prev_id := by
    intro hb hc
    have fb := mappedItem_of_ne_zero hb
    have fp := mappedItem_of_ne_zero (hc ▸ hb)
    rw [← hc] at fp
    exact hne (hw.2 _ _ _ hb fb fp)
  refine ⟨s2, bind_eq_ok.mpr ⟨s1, e1, e2⟩, t2.trans t1, ?_, ?_, ?_⟩
  · intro hb
    obtain ⟨x, hx⟩ := getItem_some_iff.mpr
      ⟨Nat.one_le_iff_ne_zero.mpr hb, mappedItem_live hw base_id⟩
    refine ⟨x.setOutfitWorn s.worn_string true, ?_, rfl⟩
    rw [g2, mp, if_neg (hdiff hb), g1, if_pos rfl, hx]
    rfl
  · intro hp _
    obtain ⟨x, hx⟩ := getItem_some_iff.mpr
      ⟨Nat.one_le_iff_ne_zero.mpr hp, by rw [l1]; exact mappedItem_live hw prev_id⟩
    refine ⟨x.setOutfitWorn s1.worn_string false, ?_, rfl⟩
    rw [g2, mp, if_pos rfl]
    show Option.map _ (getItem s1.items (mappedItem s prev_id)) = _
    rw [hx]
    rfl
  · intro q x hqb hqp hx
    refine ⟨x, ?_, rfl⟩
    rw [g2, mp, if_neg hqp, g1, if_neg hqb, hx]

theorem onHighlightBaseOutfit_sets_flags_witness :
    ItemsMapped opened57 ∧ (7 : Nat) ≠ 5 ∧
      ∃ s', onHighlightBaseOutfit opened57 7 5 = .ok s' ∧ HighlightEffect opened57 7 5 s' :=
  ⟨opened57_itemsMapped, by decide,
    onHighlightBaseOutfit_sets_flags opened57_itemsMapped (by decide)⟩

/-- The runs of C1 leave a gallery whose outfit map holds null or live, unshared
items. -/
theorem itemsMapped_of_run {inv : LLInventoryModel} {s : LLOutfitGallery}
    (h : GalleryRun inv true s) : ItemsMapped s := by
  have hI := galleryRun_runInv h
  exact ⟨fun c v hf => hI.live c v hf, fun c c' v hv hf hf' => hI.inj c c' v hv hf hf'⟩

end OutfitGallery
